import Mathlib

/-!
# Hybrid retrieval and relationship inference of the memory examples

A shallow embedding of the advanced example, `pkg/storage/postgres.go`
(`SearchMemories`, `getConnectedMemoryIDs`, `AddRelationship`, `escapeString`)
and `pkg/tools/memory_tools.go` (the five tool handlers), and of the search of
the basic example, `basic-go-example/main.go` (`handleSearchMemory`,
`cosineSimilarity`).

Conventions.
* `int64` / `int` values are `Int`; the only arithmetic on them that can
  overflow (`MaxCandidates + 1`) goes through `wrapInt`.
* `float64` values that the Go code compares (`Confidence`, `MinConfidence`,
  `minSimilarity`, the similarities sorted by the basic example) are finite;
  they are modelled by `ℚ`, on which `==`, `>` and `>=` agree with the float
  comparison. In the advanced example a `Similarity` is only copied from a row
  to a result, never computed with.
* `cosineSimilarity`, the one place where floats are computed with, is
  embedded over any field `F` with a square root function; exact real
  arithmetic is `F = ℝ` with `Real.sqrt`.
* A Go string is a Lean `String`; `escapeString` acts on its characters.
* Everything the process does not own (PostgreSQL, Apache AGE, SQLite, the
  embedding service, the classifier, `encoding/json`) is a field of `Backend`,
  `Services`, `GraphEngine` or `Basic.Env`: an oracle giving the response to
  each call.
* A handler run is the list of the calls it made to its dependencies together
  with what it returned (`Run`).
-/

namespace MemoryStarter

/-! ## Data model (`pkg/storage/postgres.go`, lines 28-44) -/

/-- Memory, the stored memory with metadata; timestamps are opaque integers. -/
structure Memory where
  ID : Int
  Text : String
  Embedding : List ℚ
  GroupID : String
  CreatedAt : Int
  UpdatedAt : Int
deriving DecidableEq, Repr

/-- SearchResult pairs a memory with its similarity score and graph provenance. -/
structure SearchResult where
  Memory : Memory
  Similarity : ℚ
  ViaRelationship : Bool
  RelationshipHops : Int
deriving DecidableEq, Repr

/-! ## The Go map `map[int64]int` -/

/-- A Go `map[int64]int`, kept as an association list with one entry per key. -/
abbrev HopMap := List (Int × Int)

/-- The comma-ok lookup `v, exists := m[k]`. -/
def HopMap.get? : HopMap → Int → Option Int
  | [], _ => none
  | (k', v) :: m, k => if k' = k then some v else HopMap.get? m k

/-- The assignment `m[k] = v`. -/
def HopMap.set : HopMap → Int → Int → HopMap
  | [], k, v => [(k, v)]
  | (k', v') :: m, k, v => if k' = k then (k, v) :: m else (k', v') :: HopMap.set m k v

/-- The plain index expression `m[k]`, which yields the zero value for a missing key. -/
def HopMap.index (m : HopMap) (k : Int) : Int := (HopMap.get? m k).getD 0

/-- The keys held by the map. -/
def HopMap.keys (m : HopMap) : List Int := m.map Prod.fst

/-! ## What the database answers -/

/-- A `*sql.Rows` as the loops consume it: every delivered row with the outcome
of its `Scan` (`none` is a Scan error), and whether `rows.Err()` is non-nil
once `rows.Next()` has returned false. -/
structure Rows (α : Type) where
  rows : List (Option α)
  iterErr : Bool

/-- One argument of a parameterised SQL query. -/
inductive SqlArg where
  | vector (v : List ℚ)
  | text (s : String)
  | float (x : ℚ)
  | int (n : Int)
deriving DecidableEq, Repr

/-- The query text and arguments handed to `db.Query`. -/
structure SqlQuery where
  sql : String
  args : List SqlArg
deriving DecidableEq, Repr

/-- The columns scanned from one row of the vector search (lines 181-189). -/
structure VectorRow where
  id : Int
  text : String
  embeddingStr : String
  groupIDPtr : Option String
  createdAt : Int
  updatedAt : Int
  similarity : ℚ
deriving DecidableEq, Repr

/-- The columns scanned from one row of the fetch of connected memories (lines 260-266). -/
structure FetchRow where
  id : Int
  text : String
  groupIDPtr : Option String
  createdAt : Int
  updatedAt : Int
deriving DecidableEq, Repr

/-- The external collaborators of the storage layer, as response oracles.
* `float32 v` is the conversion `float32(v)` of one embedding component.
* `search q` answers the vector query (`none`: `db.Query` failed).
* `ageInit` tells whether `LOAD 'age'; SET search_path ...` succeeds.
* `traverse startID maxDepth` answers the Cypher traversal from one seed
  (`none`: the query failed); a row is the pair of scanned agtype strings.
* `unmarshalInt64 s` is `json.Unmarshal([]byte(s), &x)` for an `int64` `x`
  (`none`: it returned an error).
* `fetch ids` answers `SELECT ... WHERE id IN (ids)`; `rows.Err()` is not
  consulted by that loop.
* `rangeRank` fixes the order in which `for id := range connectedIDs` visits
  the keys (Go leaves it unspecified): keys are visited by ascending rank. -/
structure Backend where
  float32 : ℚ → ℚ
  search : SqlQuery → Option (Rows VectorRow)
  ageInit : Bool
  traverse : Int → Int → Option (List (Option (String × String)))
  unmarshalInt64 : String → Option Int
  fetch : List Int → Option (List (Option FetchRow))
  rangeRank : Int → Nat

/-! ## `getConnectedMemoryIDs` (lines 463-513) -/

/-- Lines 491-502: Scan the row, then unmarshal both agtype values; any failure
makes the loop `continue`. -/
def decodeRow (db : Backend) (row : Option (String × String)) : Option (Int × Int) :=
  match row with
  | none => none
  | some (idJSON, hopsJSON) =>
    match db.unmarshalInt64 idJSON with
    | none => none
    | some id =>
      match db.unmarshalInt64 hopsJSON with
      | none => none
      | some hops => some (id, hops)

/-- Lines 504-507: keep the id with the smaller hop count. -/
def mergeHop (connectedIDs : HopMap) (id hops : Int) : HopMap :=
  match HopMap.get? connectedIDs id with
  | none => HopMap.set connectedIDs id hops
  | some existingHops =>
    if hops < existingHops then HopMap.set connectedIDs id hops else connectedIDs

/-- Lines 490-508: the `for rows.Next()` loop over one seed's rows. -/
def scanTraversal (db : Backend) (connectedIDs : HopMap)
    (rows : List (Option (String × String))) : HopMap :=
  rows.foldl
    (fun acc row =>
      match decodeRow db row with
      | none => acc
      | some (id, hops) => mergeHop acc id hops)
    connectedIDs

/-- Lines 476-510: one iteration of the loop over the seeds. -/
def traverseSeed (db : Backend) (maxDepth : Int) (connectedIDs : HopMap) (startID : Int) :
    HopMap :=
  match db.traverse startID maxDepth with
  | none => connectedIDs
  | some rows => scanTraversal db connectedIDs rows

/-- The function getConnectedMemoryIDs: connected memory id -> hops from the seeds. -/
def getConnectedMemoryIDs (db : Backend) (startIDs : List Int) (maxDepth : Int) :
    Except String HopMap :=
  if startIDs.length = 0 then
    .ok []
  else if db.ageInit = false then
    .error "failed to initialize AGE"
  else
    .ok (startIDs.foldl (traverseSeed db maxDepth) [])

/-! ## `SearchMemories` (lines 128-286) -/

/-- The opening text of the vector query (lines 136-141). -/
def searchSelect : String :=
  "\n\t\tSELECT\n\t\t\tid, text, embedding::text, group_id, created_at, updated_at,\n\t\t\t1 - (embedding <=> $1) as similarity\n\t\tFROM memories\n\t"

/-- Lines 135-166: the query with its optional group filter and similarity floor. -/
def buildSearchQuery (embedding32 : List ℚ) (limit : Int) (minSimilarity : ℚ)
    (groupID : String) : SqlQuery :=
  if groupID ≠ "" then
    if minSimilarity > 0 then
      { sql := searchSelect ++ " WHERE group_id = $2" ++ " AND 1 - (embedding <=> $1) >= $3"
                ++ " ORDER BY embedding <=> $1 LIMIT $4"
        args := [.vector embedding32, .text groupID, .float minSimilarity, .int limit] }
    else
      { sql := searchSelect ++ " WHERE group_id = $2" ++ " ORDER BY embedding <=> $1 LIMIT $3"
        args := [.vector embedding32, .text groupID, .int limit] }
  else
    if minSimilarity > 0 then
      { sql := searchSelect ++ " WHERE 1 - (embedding <=> $1) >= $2"
                ++ " ORDER BY embedding <=> $1 LIMIT $3"
        args := [.vector embedding32, .float minSimilarity, .int limit] }
    else
      { sql := searchSelect ++ " ORDER BY embedding <=> $1 LIMIT $2"
        args := [.vector embedding32, .int limit] }

/-- Lines 176-205: the direct result built from one scanned row; the embedding
is not parsed, and the graph fields keep their zero values. -/
def directResult (r : VectorRow) : SearchResult :=
  { Memory :=
      { ID := r.id, Text := r.text, Embedding := [],
        GroupID := r.groupIDPtr.getD "", CreatedAt := r.createdAt, UpdatedAt := r.updatedAt }
    Similarity := r.similarity
    ViaRelationship := false
    RelationshipHops := 0 }

/-- Lines 174-206: the scan loop of the vector stage; `none` when a Scan fails
(the function then returns an error). -/
def scanSearchRows : List (Option VectorRow) → Option (List SearchResult)
  | [] => some []
  | none :: _ => none
  | some r :: rest =>
    match scanSearchRows rest with
    | none => none
    | some results => some (directResult r :: results)

/-- Lines 257-277: the graph-discovered result built from one fetched row. -/
def graphResult (connectedIDs : HopMap) (r : FetchRow) : SearchResult :=
  { Memory :=
      { ID := r.id, Text := r.text, Embedding := [],
        GroupID := r.groupIDPtr.getD "", CreatedAt := r.createdAt, UpdatedAt := r.updatedAt }
    Similarity := 0
    ViaRelationship := true
    RelationshipHops := HopMap.index connectedIDs r.id }

/-- The ids of a result list, in order (`resultIDs`, lines 216-221). -/
def idsOf (results : List SearchResult) : List Int := results.map (fun r => r.Memory.ID)

/-- The keys of the map in the order `range` visits them. -/
def rangeKeys (db : Backend) (m : HopMap) : List Int :=
  (HopMap.keys m).insertionSort (fun a b => db.rangeRank a ≤ db.rangeRank b)

/-- Lines 227-232: the connected ids that are not already in the results
(`resultMap[id]` is true exactly for the ids of the vector results). -/
def newIDsOf (db : Backend) (resultIDs : List Int) (connectedIDs : HopMap) : List Int :=
  (rangeKeys db connectedIDs).filter (fun id => !(resultIDs.contains id))

/-- Lines 256-279: the loop over the fetched rows; a row whose Scan fails is skipped. -/
def appendConnected (connectedIDs : HopMap) (results : List SearchResult)
    (rows : List (Option FetchRow)) : List SearchResult :=
  results ++ rows.reduceOption.map (graphResult connectedIDs)

/-- Lines 213-283: the graph-enhanced part of the search, applied to the vector results. -/
def graphExpand (db : Backend) (results : List SearchResult) : List SearchResult :=
  if results.length > 0 then
    let resultIDs := idsOf results
    match getConnectedMemoryIDs db resultIDs 1 with
    | .error _ => results
    | .ok connectedIDs =>
      if connectedIDs.length > 0 then
        let newIDs := newIDsOf db resultIDs connectedIDs
        if newIDs.length > 0 then
          match db.fetch newIDs with
          | none => results
          | some rows => appendConnected connectedIDs results rows
        else results
      else results
  else results

/-- Lines 128-211: the vector stage, up to the check of `rows.Err()`. -/
def vectorSearch (db : Backend) (queryEmbedding : List ℚ) (limit : Int) (minSimilarity : ℚ)
    (groupID : String) : Except String (List SearchResult) :=
  match db.search (buildSearchQuery (queryEmbedding.map db.float32) limit minSimilarity groupID) with
  | none => .error "failed to search memories"
  | some rs =>
    match scanSearchRows rs.rows with
    | none => .error "failed to scan search result"
    | some results =>
      if rs.iterErr then .error "error iterating search results" else .ok results

/-- The method SearchMemories: the vector stage followed by the graph expansion. -/
def SearchMemories (db : Backend) (queryEmbedding : List ℚ) (limit : Int) (minSimilarity : ℚ)
    (groupID : String) : Except String (List SearchResult) :=
  match vectorSearch db queryEmbedding limit minSimilarity groupID with
  | .error e => .error e
  | .ok results => .ok (graphExpand db results)

/-! ## The tool handlers (`pkg/tools/memory_tools.go`) -/

/-- The Go `int` after an addition: two's-complement wrap-around at 64 bits. -/
def wrapInt (x : Int) : Int := (x + 2 ^ 63) % 2 ^ 64 - 2 ^ 63

/-- The float64 written `0.7` in the source: the double nearest to 7/10, which
is 3152519739159347 / 2^52. -/
def float0_7 : ℚ :=
  { num := 3152519739159347, den := 4503599627370496, den_nz := by decide, reduced := by decide }

/-- The float64 written `0.5` in the source: 1/2. -/
def float0_5 : ℚ := { num := 1, den := 2, den_nz := by decide, reduced := by decide }

/-- CandidateMemory of `pkg/llm/client.go`: a memory offered to the classifier. -/
structure CandidateMemory where
  ID : Int
  Text : String
  Similarity : ℚ
deriving DecidableEq, Repr

/-- RelationshipSuggestion of `pkg/llm/client.go`: one proposal decoded from the
classifier's JSON answer. -/
structure LLMSuggestion where
  TargetID : Int
  /-- The Go field `Type`. -/
  RelType : String
  Reason : String
  Confidence : ℚ
  Properties : List (String × String)
deriving DecidableEq, Repr

/-- RelationshipSuggestion of `pkg/tools/memory_tools.go`: a detected relationship
as the tool reports it. -/
structure RelationshipSuggestion where
  TargetID : Int
  /-- The Go field `Type`. -/
  RelType : String
  Reason : String
  Confidence : ℚ
deriving DecidableEq, Repr

/-- A value of the `map[string]interface{}` property bag built by the handlers. -/
inductive PropValue where
  | str (s : String)
  | num (x : ℚ)
  | bool (b : Bool)
deriving DecidableEq, Repr

/-- Lines 134-138 and 394-398: the properties of an auto-detected edge. -/
def autoProps (s : LLMSuggestion) : List (String × PropValue) :=
  [("reason", .str s.Reason), ("confidence", .num s.Confidence), ("auto_detected", .bool true)]

/-- A call made by a handler to one of its dependencies, in program order. For
`addRelationship` the last field tells whether the call returned a nil error. -/
inductive Call where
  | generate (text : String)
  | storeMemory (text : String) (embedding : List ℚ) (groupID : String)
  | getMemoryByID (id : Int)
  | searchMemories (embedding : List ℚ) (limit : Int) (minSimilarity : ℚ) (groupID : String)
  | analyzeRelationships (sourceText : String) (sourceID : Int)
      (candidates : List CandidateMemory)
  | addRelationship (fromID toID : Int) (relType : String)
      (properties : List (String × PropValue)) (ok : Bool)
  | exploreConnections (memoryID : Int) (maxDepth : Int)
deriving DecidableEq, Repr

/-- The dependencies of `memoryHandler`, as response oracles on top of the
storage backend.
* `generate text` is `embeddings.Generate`.
* `storeMemory text embedding groupID` is `store.StoreMemory`: the new id or an error.
* `getMemoryByID id` is `store.GetMemoryByID`.
* `analyzeRelationships sourceText sourceID candidates` is
  `llm.AnalyzeRelationships`: the proposals decoded from the classifier's
  answer, or an error (completion failed, or the answer is not the expected JSON).
* `addRelationship n fromID toID relType props` is the error returned by the
  `n`-th call (counted from 0) of `store.AddRelationship` made by the handler,
  `none` being a nil error.
* `exploreConnections memoryID maxDepth` is `store.ExploreConnections`. -/
structure Services where
  db : Backend
  generate : String → Except String (List ℚ)
  storeMemory : String → List ℚ → String → Except String Int
  getMemoryByID : Int → Except String Memory
  analyzeRelationships : String → Int → List CandidateMemory → Except String (List LLMSuggestion)
  addRelationship : Nat → Int → Int → String → List (String × PropValue) → Option String
  exploreConnections : Int → Int → Except String (List Memory)

/-- What a handler run amounts to: the calls it made and what it returned. -/
structure Run (α : Type) where
  calls : List Call
  result : Except String α

/-- Lines 106-116 and 354-364: drop the memory itself and convert to candidates. -/
def toCandidates (selfID : Int) (searchResults : List SearchResult) : List CandidateMemory :=
  (searchResults.filter (fun result => result.Memory.ID ≠ selfID)).map
    (fun result =>
      { ID := result.Memory.ID, Text := result.Memory.Text, Similarity := result.Similarity })

/-- Lines 378-387: the conversion of the proposals to the output format. -/
def toSuggestions (llmSuggestions : List LLMSuggestion) : List RelationshipSuggestion :=
  llmSuggestions.map
    (fun s => { TargetID := s.TargetID, RelType := s.RelType, Reason := s.Reason,
                Confidence := s.Confidence })

/-- StoreMemoryInput of the `store_memory` tool. -/
structure StoreMemoryInput where
  Text : String
  GroupID : String
  AutoDetectRelationships : Option Bool
deriving DecidableEq, Repr

/-- StoreMemoryOutput of the `store_memory` tool. -/
structure StoreMemoryOutput where
  Success : Bool
  Message : String
  ID : Int
  RelationshipsCreated : Int
deriving DecidableEq, Repr

/-- AutoDetectRelationshipsInput of the `auto_detect_relationships` tool. -/
structure AutoDetectRelationshipsInput where
  MemoryID : Int
  MinSimilarity : ℚ
  MaxCandidates : Int
  MinConfidence : ℚ
  DryRun : Bool
deriving DecidableEq, Repr

/-- AutoDetectRelationshipsOutput of the `auto_detect_relationships` tool. -/
structure AutoDetectRelationshipsOutput where
  Suggestions : List RelationshipSuggestion
  RelationshipsCreated : Int
  Message : String
deriving DecidableEq, Repr

/-- Lines 392-405: the best-effort loop creating the relationships. `n` counts
the `AddRelationship` calls made so far; the result is the calls made by the
loop and the number of them that succeeded. -/
def createBestEffort (sv : Services) (memoryID : Int) (minConfidence : ℚ) :
    Nat → List LLMSuggestion → List Call × Int
  | _, [] => ([], 0)
  | n, suggestion :: rest =>
    if suggestion.Confidence ≥ minConfidence then
      let err := sv.addRelationship n memoryID suggestion.TargetID suggestion.RelType
        (autoProps suggestion)
      let tail := createBestEffort sv memoryID minConfidence (n + 1) rest
      (Call.addRelationship memoryID suggestion.TargetID suggestion.RelType (autoProps suggestion)
          err.isNone :: tail.1,
        if err.isNone then tail.2 + 1 else tail.2)
    else
      createBestEffort sv memoryID minConfidence n rest

/-- Lines 132-147: the store-time loop creating the relationships, which returns
at the first failed write. The result is the calls made and either the error
text of the failed write or the number of relationships created. -/
def createOrAbort (sv : Services) (id : Int) :
    Nat → List LLMSuggestion → List Call × Except String Int
  | _, [] => ([], .ok 0)
  | n, suggestion :: rest =>
    if suggestion.Confidence ≥ float0_7 then
      match sv.addRelationship n id suggestion.TargetID suggestion.RelType (autoProps suggestion) with
      | some err =>
        ([Call.addRelationship id suggestion.TargetID suggestion.RelType (autoProps suggestion) false],
          .error ("failed to create auto-detected relationship " ++ suggestion.RelType ++ " from "
            ++ toString id ++ " to " ++ toString suggestion.TargetID ++ ": " ++ err))
      | none =>
        let tail := createOrAbort sv id (n + 1) rest
        (Call.addRelationship id suggestion.TargetID suggestion.RelType (autoProps suggestion) true
            :: tail.1,
          tail.2.map (fun created => created + 1))
    else
      createOrAbort sv id n rest

/-- Lines 152-162: the closing message and output of `handleStoreMemory`. -/
def storedOutput (id : Int) (relationshipsCreated : Int) : StoreMemoryOutput :=
  { Success := true
    Message :=
      if relationshipsCreated > 0 then
        "Memory stored with ID " ++ toString id ++ " and " ++ toString relationshipsCreated
          ++ " relationships auto-created"
      else "Memory stored successfully with ID " ++ toString id
    ID := id
    RelationshipsCreated := relationshipsCreated }

/-- The handler handleStoreMemory (lines 72-163). -/
def handleStoreMemory (sv : Services) (input : StoreMemoryInput) : Run StoreMemoryOutput :=
  if input.Text = "" then
    ⟨[], .error "text cannot be empty"⟩
  else
    let autoDetect := input.AutoDetectRelationships.getD true
    match sv.generate input.Text with
    | .error e => ⟨[.generate input.Text], .error ("failed to generate embedding: " ++ e)⟩
    | .ok embedding =>
      match sv.storeMemory input.Text embedding input.GroupID with
      | .error e =>
        ⟨[.generate input.Text, .storeMemory input.Text embedding input.GroupID],
          .error ("failed to store memory: " ++ e)⟩
      | .ok id =>
        let pre := [Call.generate input.Text, Call.storeMemory input.Text embedding input.GroupID]
        if autoDetect then
          let pre := pre ++ [Call.searchMemories embedding 10 float0_5 ""]
          match SearchMemories sv.db embedding 10 float0_5 "" with
          | .error _ => ⟨pre, .ok (storedOutput id 0)⟩
          | .ok searchResults =>
            let candidates := toCandidates id searchResults
            if candidates.length > 0 then
              let pre := pre ++ [Call.analyzeRelationships input.Text id candidates]
              match sv.analyzeRelationships input.Text id candidates with
              | .error e =>
                ⟨pre, .ok
                  { Success := true
                    Message := "Memory stored with ID " ++ toString id
                      ++ " (relationship auto-detection failed: " ++ e ++ ")"
                    ID := id
                    RelationshipsCreated := 0 }⟩
              | .ok llmSuggestions =>
                match createOrAbort sv id 0 llmSuggestions with
                | (writes, .error e) => ⟨pre ++ writes, .error e⟩
                | (writes, .ok created) => ⟨pre ++ writes, .ok (storedOutput id created)⟩
            else ⟨pre, .ok (storedOutput id 0)⟩
        else ⟨pre, .ok (storedOutput id 0)⟩

/-- The handler handleAutoDetectRelationships (lines 316-418). -/
def handleAutoDetectRelationships (sv : Services) (input : AutoDetectRelationshipsInput) :
    Run AutoDetectRelationshipsOutput :=
  if input.MemoryID = 0 then
    ⟨[], .error "memory_id is required"⟩
  else
    let minSimilarity := if input.MinSimilarity = 0 then float0_5 else input.MinSimilarity
    let maxCandidates := if input.MaxCandidates = 0 then 10 else input.MaxCandidates
    let minConfidence := if input.MinConfidence = 0 then float0_7 else input.MinConfidence
    match sv.getMemoryByID input.MemoryID with
    | .error e =>
      ⟨[.getMemoryByID input.MemoryID], .error ("failed to get source memory: " ++ e)⟩
    | .ok sourceMemory =>
      let pre := [Call.getMemoryByID input.MemoryID, Call.generate sourceMemory.Text]
      match sv.generate sourceMemory.Text with
      | .error e => ⟨pre, .error ("failed to generate embedding: " ++ e)⟩
      | .ok sourceEmbedding =>
        let limit := wrapInt (maxCandidates + 1)
        let pre := pre ++ [Call.searchMemories sourceEmbedding limit minSimilarity ""]
        match SearchMemories sv.db sourceEmbedding limit minSimilarity "" with
        | .error e => ⟨pre, .error ("failed to search for candidates: " ++ e)⟩
        | .ok searchResults =>
          let candidates := toCandidates input.MemoryID searchResults
          if candidates.length = 0 then
            ⟨pre, .ok
              { Suggestions := []
                RelationshipsCreated := 0
                Message := "No similar memories found for relationship analysis" }⟩
          else
            let pre := pre ++
              [Call.analyzeRelationships sourceMemory.Text sourceMemory.ID candidates]
            match sv.analyzeRelationships sourceMemory.Text sourceMemory.ID candidates with
            | .error e => ⟨pre, .error ("LLM analysis failed: " ++ e)⟩
            | .ok llmSuggestions =>
              let suggestions := toSuggestions llmSuggestions
              if input.DryRun then
                ⟨pre, .ok
                  { Suggestions := suggestions
                    RelationshipsCreated := 0
                    Message := "Found " ++ toString suggestions.length
                      ++ " relationship suggestions" }⟩
              else
                let loop := createBestEffort sv input.MemoryID minConfidence 0 llmSuggestions
                ⟨pre ++ loop.1, .ok
                  { Suggestions := suggestions
                    RelationshipsCreated := loop.2
                    Message := "Created " ++ toString loop.2 ++ " relationships from "
                      ++ toString suggestions.length ++ " suggestions" }⟩

/-- SearchMemoriesInput of the `search_memories` tool. -/
structure SearchMemoriesInput where
  Query : String
  Limit : Int
  MinSimilarity : ℚ
  GroupID : String
deriving DecidableEq, Repr

/-- SearchMemoriesOutput of the `search_memories` tool. `Results` is a Go slice:
`none` is the nil slice, `some l` a non-nil slice holding `l`. -/
structure SearchMemoriesOutput where
  Results : Option (List SearchResult)
  Count : Int
deriving DecidableEq, Repr

/-- The slice value that `var s []T` followed by the appends of `l` leaves: nil
when nothing was appended. This is how `SearchMemories` builds what it returns. -/
def sliceOf {α : Type} (l : List α) : Option (List α) :=
  match l with
  | [] => none
  | x :: xs => some (x :: xs)

/-- The handler handleSearchMemories (lines 179-214). -/
def handleSearchMemories (sv : Services) (input : SearchMemoriesInput) :
    Run SearchMemoriesOutput :=
  if input.Query = "" then
    ⟨[], .error "query cannot be empty"⟩
  else
    let limit := if input.Limit = 0 then 5 else input.Limit
    match sv.generate input.Query with
    | .error e => ⟨[.generate input.Query], .error ("failed to generate embedding: " ++ e)⟩
    | .ok queryEmbedding =>
      let calls := [Call.generate input.Query,
        Call.searchMemories queryEmbedding limit input.MinSimilarity input.GroupID]
      match SearchMemories sv.db queryEmbedding limit input.MinSimilarity input.GroupID with
      | .error e => ⟨calls, .error ("failed to search memories: " ++ e)⟩
      | .ok found =>
        let results : List SearchResult :=
          match sliceOf found with
          | none => []
          | some l => l
        ⟨calls, .ok { Results := some results, Count := results.length }⟩

/-- AddRelationshipInput of the `add_relationship` tool. -/
structure AddRelationshipInput where
  FromID : Int
  ToID : Int
  /-- The Go field `Type`. -/
  RelType : String
  Properties : List (String × PropValue)
deriving DecidableEq, Repr

/-- AddRelationshipOutput of the `add_relationship` tool. -/
structure AddRelationshipOutput where
  Success : Bool
  Message : String
deriving DecidableEq, Repr

/-- The handler handleAddRelationship (lines 230-252). -/
def handleAddRelationship (sv : Services) (input : AddRelationshipInput) :
    Run AddRelationshipOutput :=
  if input.FromID = 0 ∨ input.ToID = 0 then
    ⟨[], .error "from_id and to_id are required"⟩
  else if input.RelType = "" then
    ⟨[], .error "relationship type is required"⟩
  else
    match sv.addRelationship 0 input.FromID input.ToID input.RelType input.Properties with
    | some e =>
      ⟨[.addRelationship input.FromID input.ToID input.RelType input.Properties false],
        .error ("failed to create relationship: " ++ e)⟩
    | none =>
      ⟨[.addRelationship input.FromID input.ToID input.RelType input.Properties true],
        .ok
          { Success := true
            Message := "Relationship " ++ input.RelType ++ " created between memories "
              ++ toString input.FromID ++ " and " ++ toString input.ToID }⟩

/-- ExploreConnectionsInput of the `explore_connections` tool. -/
structure ExploreConnectionsInput where
  MemoryID : Int
  MaxDepth : Int
deriving DecidableEq, Repr

/-- ExploreConnectionsOutput of the `explore_connections` tool. -/
structure ExploreConnectionsOutput where
  Memories : List Memory
  Count : Int
deriving DecidableEq, Repr

/-- The handler handleExploreConnections (lines 266-290). -/
def handleExploreConnections (sv : Services) (input : ExploreConnectionsInput) :
    Run ExploreConnectionsOutput :=
  if input.MemoryID = 0 then
    ⟨[], .error "memory_id is required"⟩
  else
    let maxDepth := if input.MaxDepth = 0 then 2 else input.MaxDepth
    match sv.exploreConnections input.MemoryID maxDepth with
    | .error e =>
      ⟨[.exploreConnections input.MemoryID maxDepth],
        .error ("failed to explore connections: " ++ e)⟩
    | .ok memories =>
      ⟨[.exploreConnections input.MemoryID maxDepth],
        .ok { Memories := memories, Count := memories.length }⟩

/-- The edge writes among the calls of a run: `(fromID, toID, relType, properties)`
of every `AddRelationship` call that returned a nil error. -/
def edgesWritten : List Call → List (Int × Int × String × List (String × PropValue))
  | [] => []
  | .addRelationship fromID toID relType properties true :: rest =>
    (fromID, toID, relType, properties) :: edgesWritten rest
  | _ :: rest => edgesWritten rest

/-- The candidate lists handed to the classifier during a run. -/
def classifierInputs : List Call → List (List CandidateMemory)
  | [] => []
  | .analyzeRelationships _ _ candidates :: rest => candidates :: classifierInputs rest
  | _ :: rest => classifierInputs rest

/-- The edge writes attempted during a run, failed ones included:
`(fromID, toID, relType, properties)` of every `AddRelationship` call. -/
def edgeAttempts : List Call → List (Int × Int × String × List (String × PropValue))
  | [] => []
  | .addRelationship fromID toID relType properties _ :: rest =>
    (fromID, toID, relType, properties) :: edgeAttempts rest
  | _ :: rest => edgeAttempts rest

/-! ## The database calls of `SearchMemories` -/

/-- A call made by the storage layer to the database, in program order. -/
inductive DbCall where
  | query (q : SqlQuery)
  | ageInit
  | traverse (startID : Int) (maxDepth : Int)
  | fetch (ids : List Int)
deriving DecidableEq, Repr

/-- The database calls of `getConnectedMemoryIDs` (lines 463-513): none for an
empty seed list, else the initialisation and, when it succeeds, one traversal
per seed. -/
def getConnectedMemoryIDsCalls (db : Backend) (startIDs : List Int) (maxDepth : Int) :
    List DbCall :=
  if startIDs.length = 0 then []
  else if db.ageInit = false then [.ageInit]
  else .ageInit :: startIDs.map (fun startID => DbCall.traverse startID maxDepth)

/-- The database calls of the graph-enhanced part of the search (lines 213-283). -/
def graphExpandCalls (db : Backend) (results : List SearchResult) : List DbCall :=
  if results.length > 0 then
    let resultIDs := idsOf results
    getConnectedMemoryIDsCalls db resultIDs 1 ++
      match getConnectedMemoryIDs db resultIDs 1 with
      | .error _ => []
      | .ok connectedIDs =>
        if connectedIDs.length > 0 then
          let newIDs := newIDsOf db resultIDs connectedIDs
          if newIDs.length > 0 then [.fetch newIDs] else []
        else []
  else []

/-- The database calls of `SearchMemories` (lines 128-286): the vector query,
then those of the graph expansion when the vector stage succeeds. -/
def SearchMemoriesCalls (db : Backend) (queryEmbedding : List ℚ) (limit : Int)
    (minSimilarity : ℚ) (groupID : String) : List DbCall :=
  DbCall.query (buildSearchQuery (queryEmbedding.map db.float32) limit minSimilarity groupID) ::
    match vectorSearch db queryEmbedding limit minSimilarity groupID with
    | .error _ => []
    | .ok results => graphExpandCalls db results

/-! ## The conditions carried by the vector query -/

/-- An edge of the graph `memory_graph`. -/
structure Edge where
  fromID : Int
  toID : Int
  relType : String
  properties : List (String × PropValue)
deriving DecidableEq, Repr

/-- The graph `memory_graph`: the ids of its `Memory` nodes and its edges. -/
structure Graph where
  nodes : List Int
  edges : List Edge
deriving DecidableEq, Repr

/-- Whether an existing edge matches the relationship pattern
`(a)-[r:relType properties]->(b)`: same end points, same type, and every
property of the pattern present on the edge with the same value. -/
def Edge.matchesPattern (e : Edge) (fromID toID : Int) (relType : String)
    (properties : List (String × PropValue)) : Bool :=
  decide (e.fromID = fromID) && decide (e.toID = toID) && decide (e.relType = relType) &&
    properties.all (fun p => decide (p ∈ e.properties))

/-- What the graph engine does with the statement built at lines 324-331,
`MATCH (a:Memory {id: fromID}) MATCH (b:Memory {id: toID})
MERGE (a)-[r:relType properties]->(b)`, by the openCypher meaning of `MATCH`
and `MERGE`: nothing when one of the two nodes is missing or when an edge
matching the whole pattern exists, else the creation of the edge. -/
def mergeStatement (g : Graph) (fromID toID : Int) (relType : String)
    (properties : List (String × PropValue)) : Graph :=
  if fromID ∈ g.nodes ∧ toID ∈ g.nodes then
    if g.edges.any (fun e => e.matchesPattern fromID toID relType properties) then g
    else { g with edges := g.edges ++ [⟨fromID, toID, relType, properties⟩] }
  else g

/-- The graph engine as `AddRelationship` meets it: whether the initialisation
`LOAD 'age'; SET search_path ...` and the execution of the statement succeed. -/
structure GraphEngine where
  ageInit : Bool
  execOk : Bool

/-- The method AddRelationship (lines 289-339): the error it returns, if any,
and the graph it leaves. The property bag is written into the relationship
pattern of the `MERGE` (lines 295-321); a failed call leaves the graph as it was. -/
def AddRelationship (engine : GraphEngine) (g : Graph) (fromID toID : Int) (relType : String)
    (properties : List (String × PropValue)) : Option String × Graph :=
  if engine.ageInit = false then
    (some "failed to initialize AGE", g)
  else if engine.execOk = false then
    (some "failed to create relationship", g)
  else
    (none, mergeStatement g fromID toID relType properties)

/-- The edges of the given type between two memories. -/
def Graph.edgesOfType (g : Graph) (fromID toID : Int) (relType : String) : List Edge :=
  g.edges.filter
    (fun e => decide (e.fromID = fromID) && decide (e.toID = toID) && decide (e.relType = relType))

/-! ## `escapeString` (`pkg/storage/postgres.go`, lines 121-125) -/

/-- The single quote, U+0027. -/
def singleQuote : Char := Char.ofNat 39

/-- The backslash, U+005C. -/
def backslash : Char := Char.ofNat 92

/-- The function escapeString (lines 121-125): `strings.Replace(s, "'", "\\'", -1)`
puts a backslash before every single quote and leaves every other character as
it is. The pattern is one byte long, so that its occurrences do not overlap,
and the byte 0x27 occurs in UTF-8 text only as the single quote itself. -/
def escapeString (s : String) : String :=
  ⟨s.data.flatMap (fun c => if c = singleQuote then [backslash, singleQuote] else [c])⟩

/-! ## The basic example (`examples/basic-go-example/main.go`) -/

namespace Basic

/-- Memory of the basic example. -/
structure Memory where
  ID : Int
  Text : String
  Embedding : List ℚ
  CreatedAt : Int
deriving DecidableEq, Repr

/-- SearchResult of the basic example. -/
structure SearchResult where
  Memory : Memory
  Similarity : ℚ
deriving DecidableEq, Repr

/-- SearchMemoryInput of the `search_memory` tool. -/
structure SearchMemoryInput where
  Query : String
  Limit : Int
  MinSimilarity : ℚ
deriving DecidableEq, Repr

/-- SearchMemoryOutput of the `search_memory` tool. -/
structure SearchMemoryOutput where
  Results : List SearchResult
  Count : Int
deriving DecidableEq, Repr

/-- The columns scanned from one row of `SELECT id, text, embedding, created_at
FROM memories` (line 221). -/
structure StoredRow where
  id : Int
  text : String
  embeddingJSON : String
  createdAt : Int
deriving DecidableEq, Repr

/-- What `handleSearchMemory` does not own.
* `generateEmbedding text` is the call of the embedding service.
* `queryRows` answers `db.Query` (`none`: it failed) with the rows delivered,
  each with the outcome of its `Scan` (`none`: a Scan error).
* `unmarshalEmbedding s` is `json.Unmarshal([]byte(s), &memory.Embedding)`.
* `cosineSimilarity a b` is the float64 computed by `cosineSimilarity`; the
  handler only compares these values, and one that passes the test
  `similarity >= MinSimilarity` is not a NaN. -/
structure Env where
  generateEmbedding : String → Except String (List ℚ)
  queryRows : Option (List (Option StoredRow))
  unmarshalEmbedding : String → Option (List ℚ)
  cosineSimilarity : List ℚ → List ℚ → ℚ

/-- Lines 216-241: the loop scanning and scoring the rows. -/
def scoreRows (env : Env) (queryEmbedding : List ℚ) (minSimilarity : ℚ) :
    List (Option StoredRow) → Except String (List SearchResult)
  | [] => .ok []
  | none :: _ => .error "failed to scan memory row"
  | some row :: rest =>
    match env.unmarshalEmbedding row.embeddingJSON with
    | none => .error ("failed to unmarshal embedding for memory " ++ toString row.id)
    | some embedding =>
      let similarity := env.cosineSimilarity queryEmbedding embedding
      match scoreRows env queryEmbedding minSimilarity rest with
      | .error e => .error e
      | .ok results =>
        if similarity ≥ minSimilarity then
          .ok ({ Memory := { ID := row.id, Text := row.text, Embedding := [],
                             CreatedAt := row.createdAt },
                 Similarity := similarity } :: results)
        else .ok results

/-- Line 247: the exchange `results[i], results[j] = results[j], results[i]`. -/
def swapAt (results : List SearchResult) (i j : Nat) : List SearchResult :=
  match results[i]?, results[j]? with
  | some ri, some rj => (results.set i rj).set j ri
  | _, _ => results

/-- Lines 245-249: the inner loop for a fixed `i`; `todo` counts the values of
`j` still to visit, `j` being the next one. -/
def sortInner (i : Nat) : Nat → Nat → List SearchResult → List SearchResult
  | 0, _, results => results
  | todo + 1, j, results =>
    sortInner i todo (j + 1)
      (match results[j]?, results[i]? with
        | some rj, some ri =>
          if rj.Similarity > ri.Similarity then swapAt results i j else results
        | _, _ => results)

/-- Lines 244-250: the outer loop; `todo` counts the values of `i` still to
visit, `i` being the next one. -/
def sortOuter : Nat → Nat → List SearchResult → List SearchResult
  | 0, _, results => results
  | todo + 1, i, results =>
    sortOuter todo (i + 1) (sortInner i (results.length - (i + 1)) (i + 1) results)

/-- Lines 243-250: the sort by similarity, descending. -/
def sortBySimilarity (results : List SearchResult) : List SearchResult :=
  sortOuter results.length 0 results

/-- Lines 252-255: the truncation to the limit; `none` is the run-time panic of
a slice expression `results[:Limit]` whose bound is negative. -/
def limitResults (results : List SearchResult) (limit : Int) : Option (List SearchResult) :=
  if (results.length : Int) > limit then
    if limit < 0 then none else some (results.take limit.toNat)
  else some results

/-- The handler handleSearchMemory (lines 188-261); `none` is a run-time panic. -/
def handleSearchMemory (env : Env) (input : SearchMemoryInput) :
    Option (Except String SearchMemoryOutput) :=
  if input.Query = "" then
    some (.error "query cannot be empty")
  else
    let limit := if input.Limit = 0 then 5 else input.Limit
    match env.generateEmbedding input.Query with
    | .error e => some (.error ("failed to generate embedding: " ++ e))
    | .ok queryEmbedding =>
      match env.queryRows with
      | none => some (.error "failed to query memories")
      | some rows =>
        match scoreRows env queryEmbedding input.MinSimilarity rows with
        | .error e => some (.error e)
        | .ok results =>
          match limitResults (sortBySimilarity results) limit with
          | none => none
          | some limited => some (.ok { Results := limited, Count := limited.length })

/-- The inner loop seen from the element held at position `i`: walking the
elements to its right, it exchanges the held one with each greater one. -/
def holdGreatest (held : SearchResult) : List SearchResult → SearchResult × List SearchResult
  | [] => (held, [])
  | y :: ys =>
    if y.Similarity > held.Similarity then
      ((holdGreatest y ys).1, held :: (holdGreatest y ys).2)
    else
      ((holdGreatest held ys).1, y :: (holdGreatest held ys).2)

/-- The outer loop seen from the part of the list not yet placed; the first
argument bounds its length. -/
def placeAll : Nat → List SearchResult → List SearchResult
  | 0, results => results
  | _ + 1, [] => []
  | n + 1, x :: xs => (holdGreatest x xs).1 :: placeAll n (holdGreatest x xs).2

/-- Lines 320-325: the loop accumulating `dotProduct`, `normA` and `normB`. It
runs after the test of line 316, on two slices of the same length, so that
every index of `a` is an index of `b`. -/
def accumulate {F : Type} [Add F] [Mul F] : List F → List F → F × F × F → F × F × F
  | x :: xs, y :: ys, (dotProduct, normA, normB) =>
    accumulate xs ys (dotProduct + x * y, normA + x * x, normB + y * y)
  | _, _, sums => sums

/-- The function cosineSimilarity (lines 315-332), over a number type `F` with
the square root `sqrt` standing for `math.Sqrt`: exact arithmetic is `F = ℝ`
with `Real.sqrt`. -/
def cosineSimilarity {F : Type} [Field F] [DecidableEq F] (sqrt : F → F) (a b : List F) : F :=
  if a.length ≠ b.length then 0
  else
    match accumulate a b (0, 0, 0) with
    | (dotProduct, normA, normB) =>
      if normA = 0 ∨ normB = 0 then 0
      else dotProduct / (sqrt normA * sqrt normB)

end Basic

/-! ## Specification vocabulary -/

/-- The decoded `(id, hops)` rows contributed by one seed: none when its
traversal query fails. -/
def seedPairs (db : Backend) (maxDepth : Int) (startID : Int) : List (Int × Int) :=
  match db.traverse startID maxDepth with
  | none => []
  | some rows => rows.filterMap (decodeRow db)

/-- Some row of a seed whose traversal succeeded decodes to `(id, hops)`. -/
def Reported (db : Backend) (startIDs : List Int) (maxDepth : Int) (id hops : Int) : Prop :=
  ∃ seed ∈ startIDs, ∃ rows, db.traverse seed maxDepth = some rows ∧
    ∃ row ∈ rows, decodeRow db row = some (id, hops)

/-- The limit of the candidate search of `handleAutoDetectRelationships`
(lines 329-331 and 349): `MaxCandidates + 1`, with 10 for an absent `MaxCandidates`. -/
def detectLimit (input : AutoDetectRelationshipsInput) : Int :=
  wrapInt ((if input.MaxCandidates = 0 then 10 else input.MaxCandidates) + 1)

/-- The similarity floor of that search (lines 326-328): 0.5 for an absent `MinSimilarity`. -/
def detectFloor (input : AutoDetectRelationshipsInput) : ℚ :=
  if input.MinSimilarity = 0 then float0_5 else input.MinSimilarity

/-- The confidence gate of `handleAutoDetectRelationships` (lines 332-334):
0.7 for an absent `MinConfidence`. -/
def detectGate (input : AutoDetectRelationshipsInput) : ℚ :=
  if input.MinConfidence = 0 then float0_7 else input.MinConfidence

/-- The edge write that a handler makes for a proposal. -/
def writeFor (memoryID : Int) (s : LLMSuggestion) :
    Int × Int × String × List (String × PropValue) :=
  (memoryID, s.TargetID, s.RelType,
    [("reason", .str s.Reason), ("confidence", .num s.Confidence), ("auto_detected", .bool true)])

/-- The fetch honours its `WHERE id IN (...)`: every row it delivers carries one
of the requested ids. -/
def FetchHonoursIN (db : Backend) : Prop :=
  ∀ ids rows, db.fetch ids = some rows → ∀ r, some r ∈ rows → r.id ∈ ids

/-- The traversal honours its pattern `-[*1..maxDepth]-` with `length(path)`:
every decoded row reports a hop count between 1 and `maxDepth`. -/
def TraversalHonoursDepth (db : Backend) : Prop :=
  ∀ seed maxDepth rows, db.traverse seed maxDepth = some rows →
    ∀ row ∈ rows, ∀ id hops, decodeRow db row = some (id, hops) → 1 ≤ hops ∧ hops ≤ maxDepth

/-- Ids are unique in the `memories` table, each being assigned by the
`INSERT ... RETURNING id` of `StoreMemory` (lines 89-93): neither the vector
query nor the fetch delivers two rows with the same id. -/
def UniqueRowIDs (db : Backend) : Prop :=
  (∀ q rs, db.search q = some rs → (rs.rows.reduceOption.map VectorRow.id).Nodup) ∧
    ∀ ids rows, db.fetch ids = some rows → (rows.reduceOption.map FetchRow.id).Nodup

/-- Every single quote of the characters is preceded by an odd number of
consecutive backslashes; `odd` tells whether the backslashes just read are in
odd number. It is also the reading of the body of a quoted literal in which a
backslash escapes the character that follows it: `false` when a quote that is
not escaped ends the literal. -/
def quotesEscapedFrom : Bool → List Char → Bool
  | _, [] => true
  | odd, c :: cs =>
    if c = backslash then quotesEscapedFrom (!odd) cs
    else if c = singleQuote then odd && quotesEscapedFrom false cs
    else quotesEscapedFrom false cs

/-- Every single quote of the string is preceded by an odd number of
consecutive backslashes. -/
def quotesEscaped (s : String) : Bool := quotesEscapedFrom false s.data

/-- Every single quote of the characters is preceded by an even number of
consecutive backslashes (none, for instance); `odd` as above. -/
def quotesBareFrom : Bool → List Char → Bool
  | _, [] => true
  | odd, c :: cs =>
    if c = backslash then quotesBareFrom (!odd) cs
    else if c = singleQuote then !odd && quotesBareFrom false cs
    else quotesBareFrom false cs

/-- Every single quote of the string is preceded by an even number of
consecutive backslashes. -/
def quotesBare (s : String) : Bool := quotesBareFrom false s.data

namespace Basic

/-- The dot product of two vectors. -/
def dotProduct {F : Type} [Field F] (a b : List F) : F :=
  (List.zipWith (fun x y => x * y) a b).sum

/-- The magnitude (norm) of a vector. -/
def magnitude {F : Type} [Field F] (sqrt : F → F) (a : List F) : F :=
  sqrt ((a.map (fun x => x * x)).sum)

/-- The rows whose similarity to the query is at least `minSimilarity`, scored
and stripped of their embedding, in the order of the scan. -/
def rowsAtLeast (env : Env) (queryEmbedding : List ℚ) (minSimilarity : ℚ)
    (stored : List StoredRow) : List SearchResult :=
  stored.filterMap (fun row =>
    match env.unmarshalEmbedding row.embeddingJSON with
    | none => none
    | some embedding =>
      if env.cosineSimilarity queryEmbedding embedding ≥ minSimilarity then
        some { Memory := { ID := row.id, Text := row.text, Embedding := [],
                           CreatedAt := row.createdAt },
               Similarity := env.cosineSimilarity queryEmbedding embedding }
      else none)

end Basic

/-! ## Sample backends -/

/-- A row of the vector query with the given id and similarity. -/
def sampleVectorRow (id : Int) (similarity : ℚ) : VectorRow :=
  { id := id, text := "memory", embeddingStr := "[1]", groupIDPtr := none,
    createdAt := 0, updatedAt := 0, similarity := similarity }

/-- A row of the fetch with the given id. -/
def sampleFetchRow (id : Int) : FetchRow :=
  { id := id, text := "memory", groupIDPtr := none, createdAt := 0, updatedAt := 0 }

/-- The decoding of the agtype integers used by the samples. -/
def sampleUnmarshal (s : String) : Option Int :=
  if s = "1" then some 1 else if s = "2" then some 2 else if s = "3" then some 3
  else if s = "4" then some 4 else none

/-- A store of four memories: 1 and 2 answer the vector query, 1 is linked to 2
and 3, 2 is linked to 3 and 4; the fetch delivers 4 before 3. -/
def sampleBackend : Backend :=
  { float32 := fun x => x
    search := fun _ =>
      some { rows := [some (sampleVectorRow 1 1), some (sampleVectorRow 2 float0_7)],
             iterErr := false }
    ageInit := true
    traverse := fun seed maxDepth =>
      if maxDepth < 1 then some []
      else if seed = 1 then some [some ("3", "1"), some ("2", "1")]
      else if seed = 2 then some [some ("3", "1"), some ("4", "1"), some ("1", "1")]
      else none
    unmarshalInt64 := sampleUnmarshal
    fetch := fun ids =>
      some ((([4, 3] : List Int).filter (fun k => ids.contains k)).map
        (fun k => some (sampleFetchRow k)))
    rangeRank := fun k => k.toNat }

/-- The traversal of the sample store delivering every seed's rows in reverse order. -/
def sampleTraverseReversed (seed maxDepth : Int) : Option (List (Option (String × String))) :=
  (sampleBackend.traverse seed maxDepth).map List.reverse

/-- The same store when the graph engine cannot be initialised. -/
def sampleBackendNoGraph : Backend := { sampleBackend with ageInit := false }

/-- A memory of the sample store. -/
def sampleMemory (id : Int) : Memory :=
  { ID := id, Text := "memory", Embedding := [], GroupID := "", CreatedAt := 0, UpdatedAt := 0 }

/-- Services over the sample store. The classifier proposes memory 2 with
confidence 1, memory 99 (never offered to it) with confidence 1 and memory 3
with confidence 0.5; every dependency succeeds, and a stored memory receives
the id 1. -/
def sampleServices : Services :=
  { db := sampleBackend
    generate := fun _ => .ok [1]
    storeMemory := fun _ _ _ => .ok 1
    getMemoryByID := fun id => .ok (sampleMemory id)
    analyzeRelationships := fun _ _ _ =>
      .ok
        [{ TargetID := 2, RelType := "RELATES_TO", Reason := "same topic",
           Confidence := 1, Properties := [] },
         { TargetID := 99, RelType := "BUILDS_ON", Reason := "extends it",
           Confidence := 1, Properties := [] },
         { TargetID := 3, RelType := "SIMILAR_TO", Reason := "loosely",
           Confidence := float0_5, Properties := [] }]
    addRelationship := fun _ _ _ _ _ => none
    exploreConnections := fun _ _ => .ok [] }

/-- A request to detect the relationships of memory 1 among at most one
candidate, with a similarity floor of 0.5 and a confidence floor of 0.7. -/
def sampleDetectInput : AutoDetectRelationshipsInput :=
  { MemoryID := 1, MinSimilarity := float0_5, MaxCandidates := 1, MinConfidence := float0_7,
    DryRun := false }

/-- A request to store a memory with the default auto-detection. -/
def sampleStoreInput : StoreMemoryInput :=
  { Text := "memory", GroupID := "", AutoDetectRelationships := none }

/-- A store holding memory 1 only, with no edge. -/
def loneBackend : Backend :=
  { sampleBackend with
    search := fun _ => some { rows := [some (sampleVectorRow 1 1)], iterErr := false }
    traverse := fun _ _ => some []
    fetch := fun _ => some [] }

/-- Services over the store holding memory 1 only. -/
def loneServices : Services := { sampleServices with db := loneBackend }

/-- An empty store: the vector query delivers no row. -/
def emptyBackend : Backend :=
  { sampleBackend with search := fun _ => some { rows := [], iterErr := false } }

/-- Services over the empty store. -/
def emptyServices : Services := { sampleServices with db := emptyBackend }

/-- The sample services when every edge write fails. -/
def failingWriteServices : Services :=
  { sampleServices with addRelationship := fun _ _ _ _ _ => some "connection lost" }

/-- The sample services when the classifier call fails. -/
def failingClassifierServices : Services :=
  { sampleServices with analyzeRelationships := fun _ _ _ => .error "no completion returned" }

/-- The sample request as a dry run. -/
def dryRunDetectInput : AutoDetectRelationshipsInput :=
  { sampleDetectInput with DryRun := true }

/-- A search request with the default limit and no floor. -/
def sampleSearchInput : SearchMemoriesInput :=
  { Query := "memory", Limit := 0, MinSimilarity := 0, GroupID := "" }

/-- A graph holding the memories 1 and 2 and no edge. -/
def sampleGraph : Graph := { nodes := [1, 2], edges := [] }

/-- A graph engine that answers every call. -/
def workingEngine : GraphEngine := { ageInit := true, execOk := true }

/-- A first proposal relating memory 1 to memory 2. -/
def firstProposal : LLMSuggestion :=
  { TargetID := 2, RelType := "RELATES_TO", Reason := "same topic", Confidence := 1,
    Properties := [] }

/-- The proposal of a second run for the same pair and type, worded differently. -/
def secondProposal : LLMSuggestion :=
  { TargetID := 2, RelType := "RELATES_TO", Reason := "both about memory", Confidence := 1,
    Properties := [] }

/-- A backslash followed by a single quote. -/
def backslashQuote : String := ⟨[backslash, singleQuote]⟩

namespace Basic

/-- A store of three memories scanned in ascending id order. For the query
vector (1, 0), memories 1 and 2, stored with (0, 1), have similarity 0 and
memory 3, stored with (1, 0), has similarity 1: the vectors of the sample are
equal (cosine 1) or orthogonal (cosine 0). -/
def sampleEnv : Env :=
  { generateEmbedding := fun _ => .ok [1, 0]
    queryRows := some
      [some { id := 1, text := "first", embeddingJSON := "[0,1]", createdAt := 0 },
       some { id := 2, text := "second", embeddingJSON := "[0,1]", createdAt := 0 },
       some { id := 3, text := "third", embeddingJSON := "[1,0]", createdAt := 0 }]
    unmarshalEmbedding := fun s =>
      if s = "[0,1]" then some [0, 1] else if s = "[1,0]" then some [1, 0] else none
    cosineSimilarity := fun a b => if a = b then 1 else 0 }

/-- A search with the default limit and no floor. -/
def sampleInput : SearchMemoryInput := { Query := "third", Limit := 0, MinSimilarity := 0 }

/-- The rows of the sample store. -/
def sampleStored : List StoredRow :=
  [{ id := 1, text := "first", embeddingJSON := "[0,1]", createdAt := 0 },
   { id := 2, text := "second", embeddingJSON := "[0,1]", createdAt := 0 },
   { id := 3, text := "third", embeddingJSON := "[1,0]", createdAt := 0 }]

/-- A search for at most two results. -/
def limitedInput : SearchMemoryInput := { Query := "third", Limit := 2, MinSimilarity := 0 }

/-- A search with a negative limit. -/
def negativeInput : SearchMemoryInput := { Query := "third", Limit := -1, MinSimilarity := 0 }

/-- A store without any memory. -/
def emptyEnv : Env :=
  { generateEmbedding := fun _ => .ok [1, 0]
    queryRows := some []
    unmarshalEmbedding := fun _ => none
    cosineSimilarity := fun _ _ => 0 }

end Basic

/-! ## Lemmas on the map -/

theorem HopMap.get?_set (m : HopMap) (k v k' : Int) :
    HopMap.get? (HopMap.set m k v) k' = if k = k' then some v else HopMap.get? m k' := by
  induction m with
  | nil => simp [HopMap.set, HopMap.get?]
  | cons p m ih =>
    obtain ⟨a, b⟩ := p
    by_cases hak : a = k
    · subst hak
      by_cases hak' : a = k' <;> simp [HopMap.set, HopMap.get?, hak']
    · by_cases hak' : a = k'
      · subst hak'
        simp [HopMap.set, HopMap.get?, hak, Ne.symm hak]
      · simp [HopMap.set, HopMap.get?, hak, hak', ih]

theorem HopMap.keys_set (m : HopMap) (k v k' : Int) :
    k' ∈ HopMap.keys (HopMap.set m k v) ↔ k' = k ∨ k' ∈ HopMap.keys m := by
  induction m with
  | nil => simp [HopMap.set, HopMap.keys]
  | cons p m ih =>
    obtain ⟨a, b⟩ := p
    by_cases hak : a = k
    · subst hak
      simp [HopMap.set, HopMap.keys]
    · simp only [HopMap.keys] at ih
      simp [HopMap.set, HopMap.keys, hak, ih]
      tauto

theorem HopMap.nodup_keys_set (m : HopMap) (k v : Int) (h : (HopMap.keys m).Nodup) :
    (HopMap.keys (HopMap.set m k v)).Nodup := by
  induction m with
  | nil => simp [HopMap.set, HopMap.keys]
  | cons p m ih =>
    obtain ⟨a, b⟩ := p
    by_cases hak : a = k
    · subst hak
      simpa [HopMap.set, HopMap.keys] using h
    · have h' : a ∉ HopMap.keys m ∧ (HopMap.keys m).Nodup := by
        simpa [HopMap.keys] using h
      have hmem := HopMap.keys_set m k v a
      have : (HopMap.keys (HopMap.set m k v)).Nodup := ih h'.2
      simp only [HopMap.set, hak, if_false, HopMap.keys, List.map_cons, List.nodup_cons]
      refine ⟨?_, this⟩
      intro hin
      rcases (hmem.mp hin) with h1 | h1
      · exact hak h1
      · exact h'.1 h1

theorem HopMap.mem_keys_iff (m : HopMap) (k : Int) :
    k ∈ HopMap.keys m ↔ ∃ v, HopMap.get? m k = some v := by
  induction m with
  | nil => simp [HopMap.keys, HopMap.get?]
  | cons p m ih =>
    obtain ⟨a, b⟩ := p
    simp only [HopMap.keys] at ih
    by_cases hak : a = k
    · subst hak
      simp [HopMap.keys, HopMap.get?]
    · simp [HopMap.keys, HopMap.get?, hak, ih, Ne.symm hak]

/-! ## Lemmas on the hop-distance merge -/

/-- The fold of `mergeHop` over decoded rows. -/
theorem scanTraversal_eq_foldl (db : Backend) (m : HopMap)
    (rows : List (Option (String × String))) :
    scanTraversal db m rows =
      (rows.filterMap (decodeRow db)).foldl (fun acc p => mergeHop acc p.1 p.2) m := by
  unfold scanTraversal
  induction rows generalizing m with
  | nil => rfl
  | cons row rows ih =>
    cases hrow : decodeRow db row with
    | none => simp [List.filterMap_cons, hrow, ih]
    | some p => simp [List.filterMap_cons, hrow, ih]

theorem foldl_traverseSeed_eq (db : Backend) (maxDepth : Int) (m : HopMap)
    (startIDs : List Int) :
    startIDs.foldl (traverseSeed db maxDepth) m =
      (startIDs.flatMap (seedPairs db maxDepth)).foldl (fun acc p => mergeHop acc p.1 p.2) m := by
  induction startIDs generalizing m with
  | nil => rfl
  | cons s ss ih =>
    simp only [List.foldl_cons, List.flatMap_cons, List.foldl_append, ih]
    congr 1
    unfold traverseSeed seedPairs
    cases db.traverse s maxDepth with
    | none => rfl
    | some rows => exact scanTraversal_eq_foldl db m rows

theorem mem_flatMap_seedPairs (db : Backend) (startIDs : List Int) (maxDepth : Int)
    (id hops : Int) :
    (id, hops) ∈ startIDs.flatMap (seedPairs db maxDepth) ↔
      Reported db startIDs maxDepth id hops := by
  unfold Reported
  simp only [List.mem_flatMap]
  constructor
  · rintro ⟨seed, hseed, hmem⟩
    refine ⟨seed, hseed, ?_⟩
    unfold seedPairs at hmem
    cases htr : db.traverse seed maxDepth with
    | none => simp [htr] at hmem
    | some rows =>
      simp only [htr, List.mem_filterMap] at hmem
      exact ⟨rows, rfl, hmem⟩
  · rintro ⟨seed, hseed, rows, htr, hrow⟩
    refine ⟨seed, hseed, ?_⟩
    unfold seedPairs
    simp only [htr, List.mem_filterMap]
    exact hrow

theorem mergeHop_get? (m : HopMap) (id hops k : Int) :
    HopMap.get? (mergeHop m id hops) k =
      if id = k then
        (match HopMap.get? m id with
          | none => some hops
          | some e => if hops < e then some hops else some e)
      else HopMap.get? m k := by
  unfold mergeHop
  cases hget : HopMap.get? m id with
  | none => simp [HopMap.get?_set]
  | some e =>
    by_cases hlt : hops < e
    · simp [hlt, HopMap.get?_set]
    · by_cases hk : id = k
      · subst hk
        simp [hlt, hget]
      · simp [hlt, hk]

theorem mergeHop_nodup_keys (m : HopMap) (id hops : Int) (h : (HopMap.keys m).Nodup) :
    (HopMap.keys (mergeHop m id hops)).Nodup := by
  unfold mergeHop
  cases HopMap.get? m id with
  | none => exact HopMap.nodup_keys_set m id hops h
  | some e =>
    by_cases hlt : hops < e
    · simpa [hlt] using HopMap.nodup_keys_set m id hops h
    · simpa [hlt] using h

theorem foldl_mergeHop_nodup_keys (ps : List (Int × Int)) (m : HopMap)
    (h : (HopMap.keys m).Nodup) :
    (HopMap.keys (ps.foldl (fun acc p => mergeHop acc p.1 p.2) m)).Nodup := by
  induction ps generalizing m with
  | nil => simpa using h
  | cons p ps ih => exact ih _ (mergeHop_nodup_keys m p.1 p.2 h)

/-- The value of a key after the fold: it is reported (or was there before) and
is a lower bound of everything reported and of what was there before. -/
theorem foldl_mergeHop_get? (ps : List (Int × Int)) (m : HopMap) (k v : Int) :
    HopMap.get? (ps.foldl (fun acc p => mergeHop acc p.1 p.2) m) k = some v ↔
      ((k, v) ∈ ps ∨ HopMap.get? m k = some v) ∧ (∀ h, (k, h) ∈ ps → v ≤ h) ∧
        (∀ e, HopMap.get? m k = some e → v ≤ e) := by
  induction ps generalizing m with
  | nil =>
    simp only [List.foldl_nil, List.not_mem_nil, false_or, false_imp_iff, forall_const,
      true_and]
    constructor
    · intro h
      refine ⟨h, ?_⟩
      intro e he
      rw [h] at he
      cases he
      exact le_refl _
    · exact fun h => h.1
  | cons p ps ih =>
    obtain ⟨id, hops⟩ := p
    simp only [List.foldl_cons, ih, mergeHop_get?, List.mem_cons, Prod.mk.injEq]
    by_cases hk : id = k
    · subst hk
      cases hget : HopMap.get? m id with
      | none =>
        simp only [if_true, Option.some.injEq, true_and]
        constructor
        · rintro ⟨h1, h2, h3⟩
          have hv : v ≤ hops := h3 hops rfl
          refine ⟨?_, ?_, ?_⟩
          · rcases h1 with h1 | h1
            · exact Or.inl (Or.inr h1)
            · exact Or.inl (Or.inl h1.symm)
          · rintro h (rfl | hh)
            · exact hv
            · exact h2 h hh
          · intro e he
            cases he
        · rintro ⟨h1, h2, _⟩
          refine ⟨?_, fun h hh => h2 h (Or.inr hh), ?_⟩
          · rcases h1 with (h1 | h1) | h1
            · exact Or.inr h1.symm
            · exact Or.inl h1
            · cases h1
          · intro e he
            subst he
            exact h2 _ (Or.inl rfl)
      | some e =>
        simp only [if_true, Option.some.injEq, true_and]
        by_cases hlt : hops < e
        · simp only [hlt, if_true, Option.some.injEq]
          constructor
          · rintro ⟨h1, h2, h3⟩
            have hv : v ≤ hops := h3 hops rfl
            refine ⟨?_, ?_, ?_⟩
            · rcases h1 with h1 | h1
              · exact Or.inl (Or.inr h1)
              · exact Or.inl (Or.inl h1.symm)
            · rintro h (rfl | hh)
              · exact hv
              · exact h2 h hh
            · intro e' he'
              subst he'
              omega
          · rintro ⟨h1, h2, h3⟩
            have hv : v ≤ hops := h2 hops (Or.inl rfl)
            refine ⟨?_, fun h hh => h2 h (Or.inr hh), ?_⟩
            · rcases h1 with (h1 | h1) | h1
              · exact Or.inr h1.symm
              · exact Or.inl h1
              · subst h1
                omega
            · intro e' he'
              subst he'
              exact hv
        · simp only [hlt, if_false, Option.some.injEq]
          constructor
          · rintro ⟨h1, h2, h3⟩
            have hv : v ≤ e := h3 e rfl
            refine ⟨?_, ?_, ?_⟩
            · rcases h1 with h1 | h1
              · exact Or.inl (Or.inr h1)
              · exact Or.inr h1
            · rintro h (rfl | hh)
              · omega
              · exact h2 h hh
            · intro e' he'
              subst he'
              exact hv
          · rintro ⟨h1, h2, h3⟩
            have hv : v ≤ e := h3 e rfl
            have hv' : v ≤ hops := h2 hops (Or.inl rfl)
            refine ⟨?_, fun h hh => h2 h (Or.inr hh), ?_⟩
            · rcases h1 with (h1 | h1) | h1
              · subst h1
                exact Or.inr (by omega)
              · exact Or.inl h1
              · exact Or.inr h1
            · intro e' he'
              subst he'
              exact hv
    · have hk' : ¬ k = id := fun h => hk h.symm
      simp [hk, hk']

/-- A key is present after the fold exactly when it is reported or was there before. -/
theorem foldl_mergeHop_mem_keys (ps : List (Int × Int)) (m : HopMap) (k : Int) :
    k ∈ HopMap.keys (ps.foldl (fun acc p => mergeHop acc p.1 p.2) m) ↔
      (∃ h, (k, h) ∈ ps) ∨ k ∈ HopMap.keys m := by
  induction ps generalizing m with
  | nil => simp
  | cons p ps ih =>
    obtain ⟨id, hops⟩ := p
    simp only [List.foldl_cons, ih, List.mem_cons, Prod.mk.injEq]
    have hkeys : k ∈ HopMap.keys (mergeHop m id hops) ↔ k = id ∨ k ∈ HopMap.keys m := by
      rw [HopMap.mem_keys_iff, HopMap.mem_keys_iff]
      simp only [mergeHop_get?]
      by_cases hk : id = k
      · subst hk
        cases hget : HopMap.get? m id with
        | none => simp
        | some e => by_cases hlt : hops < e <;> simp [hlt]
      · have hk' : ¬ k = id := fun h => hk h.symm
        simp [hk, hk']
    rw [hkeys]
    constructor
    · rintro (⟨h, hh⟩ | rfl | hm)
      · exact Or.inl ⟨h, Or.inr hh⟩
      · exact Or.inl ⟨hops, Or.inl ⟨rfl, rfl⟩⟩
      · exact Or.inr hm
    · rintro (⟨h, ⟨rfl, _⟩ | hh⟩ | hm)
      · exact Or.inr (Or.inl rfl)
      · exact Or.inl ⟨h, hh⟩
      · exact Or.inr (Or.inr hm)

/-! ## C1, C2: the hop-distance merge -/

/-- C1. `getConnectedMemoryIDs` fails only when there are seeds and the graph
engine cannot be initialised; otherwise it returns a map (a failed traversal
of a seed is skipped, it does not abort the call) with one entry per key,
whose keys are exactly the ids reported by some row of a seed whose traversal
succeeded, and whose value at a key is a reported hop count of that id that is
less than or equal to every reported hop count of that id: the minimum. -/
theorem getConnectedMemoryIDs_min_reduction (db : Backend) (startIDs : List Int)
    (maxDepth : Int) :
    (startIDs ≠ [] ∧ db.ageInit = false ∧
        getConnectedMemoryIDs db startIDs maxDepth = .error "failed to initialize AGE") ∨
      ((startIDs = [] ∨ db.ageInit = true) ∧
        ∃ m, getConnectedMemoryIDs db startIDs maxDepth = .ok m ∧
          (HopMap.keys m).Nodup ∧
          (∀ id, id ∈ HopMap.keys m ↔ ∃ hops, Reported db startIDs maxDepth id hops) ∧
          (∀ id hops, HopMap.get? m id = some hops ↔
            Reported db startIDs maxDepth id hops ∧
              ∀ hops', Reported db startIDs maxDepth id hops' → hops ≤ hops')) := by
  by_cases hnil : startIDs = []
  · subst hnil
    right
    refine ⟨Or.inl rfl, [], by simp [getConnectedMemoryIDs], by simp [HopMap.keys], ?_, ?_⟩
    · intro id
      simp [HopMap.keys, Reported]
    · intro id hops
      simp [HopMap.get?, Reported]
  · have hlen : ¬ startIDs.length = 0 := by
      simpa [List.length_eq_zero] using hnil
    cases hinit : db.ageInit with
    | false =>
      left
      exact ⟨hnil, rfl, by simp [getConnectedMemoryIDs, hlen, hinit]⟩
    | true =>
      right
      refine ⟨Or.inr rfl, startIDs.foldl (traverseSeed db maxDepth) [],
        by simp [getConnectedMemoryIDs, hlen, hinit], ?_, ?_, ?_⟩
      · rw [foldl_traverseSeed_eq]
        exact foldl_mergeHop_nodup_keys _ [] (by simp [HopMap.keys])
      · intro id
        rw [foldl_traverseSeed_eq, foldl_mergeHop_mem_keys]
        simp only [mem_flatMap_seedPairs]
        simp [HopMap.keys]
      · intro id hops
        rw [foldl_traverseSeed_eq, foldl_mergeHop_get?]
        simp only [mem_flatMap_seedPairs]
        simp [HopMap.get?]

/-- C2. The hop-distance merge does not depend on the order of the seeds nor on
the order of the rows returned for a seed: when the seed list is permuted and
every seed's traversal answers the same rows in a permuted order (and fails for
the same seeds), `getConnectedMemoryIDs` fails in the same way or returns the
same map, that is, the same value (or absence) at every id and the same keys. -/
theorem getConnectedMemoryIDs_order_independent (db : Backend)
    (traverse' : Int → Int → Option (List (Option (String × String))))
    (startIDs startIDs' : List Int) (maxDepth : Int)
    (hseeds : startIDs.Perm startIDs')
    (hrows : ∀ seed,
      (db.traverse seed maxDepth = none ∧ traverse' seed maxDepth = none) ∨
        ∃ rows rows', db.traverse seed maxDepth = some rows ∧
          traverse' seed maxDepth = some rows' ∧ rows.Perm rows') :
    match getConnectedMemoryIDs db startIDs maxDepth,
      getConnectedMemoryIDs { db with traverse := traverse' } startIDs' maxDepth with
    | .ok m, .ok m' =>
      (∀ id, HopMap.get? m id = HopMap.get? m' id) ∧ (HopMap.keys m).Perm (HopMap.keys m')
    | .error e, .error e' => e = e'
    | _, _ => False := by
  have hrep : ∀ id hops, Reported db startIDs maxDepth id hops ↔
      Reported { db with traverse := traverse' } startIDs' maxDepth id hops := by
    intro id hops
    unfold Reported
    constructor
    · rintro ⟨seed, hseed, rows, htr, row, hrow, hdec⟩
      rcases hrows seed with ⟨h1, _⟩ | ⟨r, r', h1, h2, hp⟩
      · rw [h1] at htr
        cases htr
      · rw [h1] at htr
        cases htr
        exact ⟨seed, hseeds.mem_iff.mp hseed, r', h2, row, hp.mem_iff.mp hrow, hdec⟩
    · rintro ⟨seed, hseed, rows, htr, row, hrow, hdec⟩
      rcases hrows seed with ⟨_, h2⟩ | ⟨r, r', h1, h2, hp⟩
      · have htr' : traverse' seed maxDepth = some rows := htr
        rw [h2] at htr'
        cases htr'
      · have htr' : traverse' seed maxDepth = some rows := htr
        rw [h2] at htr'
        cases htr'
        exact ⟨seed, hseeds.mem_iff.mpr hseed, r, h1, row, hp.mem_iff.mpr hrow, hdec⟩
  have hlenEq : startIDs'.length = startIDs.length := hseeds.length_eq.symm
  by_cases hlen : startIDs.length = 0
  · have hlen' : startIDs'.length = 0 := by omega
    simp [getConnectedMemoryIDs, hlen, hlen']
  · have hlen' : ¬ startIDs'.length = 0 := by omega
    by_cases hinit : db.ageInit = false
    · simp [getConnectedMemoryIDs, hlen, hlen', hinit]
    · have e1 : getConnectedMemoryIDs db startIDs maxDepth =
          .ok (startIDs.foldl (traverseSeed db maxDepth) []) := by
        unfold getConnectedMemoryIDs
        rw [if_neg hlen, if_neg hinit]
      have e2 : getConnectedMemoryIDs { db with traverse := traverse' } startIDs' maxDepth =
          .ok (startIDs'.foldl (traverseSeed { db with traverse := traverse' } maxDepth) []) := by
        unfold getConnectedMemoryIDs
        rw [if_neg hlen', if_neg hinit]
      rw [e1, e2]
      show _ ∧ _
      have hget : ∀ id,
          HopMap.get? (startIDs.foldl (traverseSeed db maxDepth) []) id =
            HopMap.get?
              (startIDs'.foldl (traverseSeed { db with traverse := traverse' } maxDepth) [])
              id := by
        intro id
        apply Option.ext
        intro v
        rw [Option.mem_def, Option.mem_def, foldl_traverseSeed_eq, foldl_traverseSeed_eq,
          foldl_mergeHop_get?, foldl_mergeHop_get?]
        simp only [mem_flatMap_seedPairs, hrep]
      refine ⟨hget, ?_⟩
      apply (List.perm_ext_iff_of_nodup ?_ ?_).mpr
      · intro id
        rw [HopMap.mem_keys_iff, HopMap.mem_keys_iff]
        simp only [hget]
      · rw [foldl_traverseSeed_eq]
        exact foldl_mergeHop_nodup_keys _ [] (by simp [HopMap.keys])
      · rw [foldl_traverseSeed_eq]
        exact foldl_mergeHop_nodup_keys _ [] (by simp [HopMap.keys])

/-- Witness for C2: on the sample store, visiting the seeds in the other order
and reading every seed's rows in reverse order gives the same map. -/
theorem getConnectedMemoryIDs_order_independent_witness :
    ∃ m m', getConnectedMemoryIDs sampleBackend [1, 2] 1 = .ok m ∧
      getConnectedMemoryIDs { sampleBackend with traverse := sampleTraverseReversed } [2, 1] 1
        = .ok m' ∧
      m = [(3, 1), (2, 1), (4, 1), (1, 1)] ∧ m' = [(1, 1), (4, 1), (3, 1), (2, 1)] ∧
      (∀ id, HopMap.get? m id = HopMap.get? m' id) ∧ (HopMap.keys m).Perm (HopMap.keys m') :=
  ⟨_, _, rfl, rfl, rfl, rfl,
    getConnectedMemoryIDs_order_independent sampleBackend sampleTraverseReversed [1, 2] [2, 1] 1
      (List.Perm.swap 2 1 [])
      (fun seed => by
        cases h : sampleBackend.traverse seed 1 with
        | none => exact Or.inl ⟨rfl, by simp [sampleTraverseReversed, h]⟩
        | some rows =>
          exact Or.inr ⟨rows, rows.reverse, rfl, by simp [sampleTraverseReversed, h],
            (List.reverse_perm rows).symm⟩)⟩

/-! ## Lemmas on `SearchMemories` -/

theorem getConnectedMemoryIDs_eq_ok (db : Backend) (startIDs : List Int) (maxDepth : Int)
    (m : HopMap) (h : getConnectedMemoryIDs db startIDs maxDepth = .ok m) :
    m = (startIDs.flatMap (seedPairs db maxDepth)).foldl (fun acc p => mergeHop acc p.1 p.2)
      [] := by
  unfold getConnectedMemoryIDs at h
  by_cases hlen : startIDs.length = 0
  · have hnil : startIDs = [] := List.length_eq_zero.mp hlen
    subst hnil
    simp at h
    subst h
    rfl
  · rw [if_neg hlen] at h
    by_cases hinit : db.ageInit = false
    · rw [if_pos hinit] at h
      cases h
    · rw [if_neg hinit] at h
      rw [← foldl_traverseSeed_eq]
      cases h
      rfl

theorem getConnectedMemoryIDs_get? (db : Backend) (startIDs : List Int) (maxDepth : Int)
    (m : HopMap) (h : getConnectedMemoryIDs db startIDs maxDepth = .ok m) (id hops : Int) :
    HopMap.get? m id = some hops ↔
      Reported db startIDs maxDepth id hops ∧
        ∀ hops', Reported db startIDs maxDepth id hops' → hops ≤ hops' := by
  rw [getConnectedMemoryIDs_eq_ok db startIDs maxDepth m h, foldl_mergeHop_get?]
  simp only [mem_flatMap_seedPairs]
  simp [HopMap.get?]

theorem getConnectedMemoryIDs_mem_keys (db : Backend) (startIDs : List Int) (maxDepth : Int)
    (m : HopMap) (h : getConnectedMemoryIDs db startIDs maxDepth = .ok m) (id : Int) :
    id ∈ HopMap.keys m ↔ ∃ hops, Reported db startIDs maxDepth id hops := by
  rw [getConnectedMemoryIDs_eq_ok db startIDs maxDepth m h, foldl_mergeHop_mem_keys]
  simp only [mem_flatMap_seedPairs]
  simp [HopMap.keys]

theorem mem_rangeKeys (db : Backend) (m : HopMap) (id : Int) :
    id ∈ rangeKeys db m ↔ id ∈ HopMap.keys m := by
  unfold rangeKeys
  exact (List.perm_insertionSort _ _).mem_iff

theorem mem_newIDsOf (db : Backend) (resultIDs : List Int) (m : HopMap) (id : Int) :
    id ∈ newIDsOf db resultIDs m ↔ id ∈ HopMap.keys m ∧ id ∉ resultIDs := by
  unfold newIDsOf
  simp [List.mem_filter, mem_rangeKeys]

theorem scanSearchRows_eq_some (rows : List (Option VectorRow)) (results : List SearchResult)
    (h : scanSearchRows rows = some results) :
    results = rows.reduceOption.map directResult := by
  induction rows generalizing results with
  | nil =>
    simp [scanSearchRows] at h
    simp [← h]
  | cons row rows ih =>
    cases row with
    | none => simp [scanSearchRows] at h
    | some r =>
      cases hrest : scanSearchRows rows with
      | none => simp [scanSearchRows, hrest] at h
      | some rest =>
        simp [scanSearchRows, hrest] at h
        rw [← h, ih rest hrest]
        simp [List.reduceOption_cons_of_some]

/-- What the vector stage returns, when it succeeds, in terms of the rows delivered. -/
theorem vectorSearch_eq_ok (db : Backend) (queryEmbedding : List ℚ) (limit : Int)
    (minSimilarity : ℚ) (groupID : String) (vec : List SearchResult)
    (h : vectorSearch db queryEmbedding limit minSimilarity groupID = .ok vec) :
    ∃ rs, db.search (buildSearchQuery (queryEmbedding.map db.float32) limit minSimilarity
        groupID) = some rs ∧ vec = rs.rows.reduceOption.map directResult := by
  unfold vectorSearch at h
  cases hs : db.search (buildSearchQuery (queryEmbedding.map db.float32) limit minSimilarity
      groupID) with
  | none => simp [hs] at h
  | some rs =>
    refine ⟨rs, rfl, ?_⟩
    simp only [hs] at h
    cases hscan : scanSearchRows rs.rows with
    | none => simp [hscan] at h
    | some results =>
      simp only [hscan] at h
      by_cases herr : rs.iterErr = true
      · simp [herr] at h
      · simp only [herr] at h
        cases h
        exact scanSearchRows_eq_some _ _ hscan

/-- The two ways the graph expansion can end: nothing appended, or the scanned
rows of a successful fetch appended. -/
theorem graphExpand_cases (db : Backend) (vec : List SearchResult) :
    graphExpand db vec = vec ∨
      ∃ m rows, getConnectedMemoryIDs db (idsOf vec) 1 = .ok m ∧
        newIDsOf db (idsOf vec) m ≠ [] ∧
        db.fetch (newIDsOf db (idsOf vec) m) = some rows ∧
        graphExpand db vec = vec ++ rows.reduceOption.map (graphResult m) := by
  unfold graphExpand
  by_cases hlen : vec.length > 0
  · simp only [hlen, if_true]
    cases hm : getConnectedMemoryIDs db (idsOf vec) 1 with
    | error e => exact Or.inl rfl
    | ok m =>
      simp only []
      by_cases hmlen : m.length > 0
      · simp only [hmlen, if_true]
        by_cases hnew : (newIDsOf db (idsOf vec) m).length > 0
        · simp only [hnew, if_true]
          cases hf : db.fetch (newIDsOf db (idsOf vec) m) with
          | none => exact Or.inl rfl
          | some rows =>
            right
            refine ⟨m, rows, rfl, ?_, hf, rfl⟩
            intro h0
            rw [h0] at hnew
            simp at hnew
        · simp only [hnew, if_false]
          exact Or.inl trivial
      · simp only [hmlen, if_false]
        exact Or.inl trivial
  · simp only [hlen, if_false]
    exact Or.inl trivial

/-- When the fetch of the new ids succeeds, its scanned rows are appended. -/
theorem graphExpand_of_fetch (db : Backend) (vec : List SearchResult) (m : HopMap)
    (rows : List (Option FetchRow))
    (hm : getConnectedMemoryIDs db (idsOf vec) 1 = .ok m)
    (hnew : newIDsOf db (idsOf vec) m ≠ [])
    (hf : db.fetch (newIDsOf db (idsOf vec) m) = some rows) :
    graphExpand db vec = vec ++ rows.reduceOption.map (graphResult m) := by
  obtain ⟨x, hx⟩ := List.exists_mem_of_ne_nil _ hnew
  have hxk : x ∈ HopMap.keys m := ((mem_newIDsOf db _ m x).mp hx).1
  have hvec : vec ≠ [] := by
    intro h0
    subst h0
    simp [getConnectedMemoryIDs, idsOf] at hm
    subst hm
    simp [HopMap.keys] at hxk
  have hlen : vec.length > 0 := List.length_pos.mpr hvec
  have hmlen : m.length > 0 := by
    cases m with
    | nil => simp [HopMap.keys] at hxk
    | cons p m => simp
  have hnlen : (newIDsOf db (idsOf vec) m).length > 0 := List.length_pos.mpr hnew
  unfold graphExpand
  simp only [hlen, if_true, hm, hmlen, hnlen, hf, appendConnected]

theorem idsOf_append (a b : List SearchResult) : idsOf (a ++ b) = idsOf a ++ idsOf b := by
  simp [idsOf]

theorem idsOf_map_graphResult (m : HopMap) (fetched : List FetchRow) :
    idsOf (fetched.map (graphResult m)) = fetched.map FetchRow.id := by
  simp [idsOf, graphResult, Function.comp_def]

theorem idsOf_map_directResult (rows : List VectorRow) :
    idsOf (rows.map directResult) = rows.map VectorRow.id := by
  simp [idsOf, directResult, Function.comp_def]

theorem SearchMemories_eq_ok (db : Backend) (queryEmbedding : List ℚ) (limit : Int)
    (minSimilarity : ℚ) (groupID : String) (results : List SearchResult)
    (h : SearchMemories db queryEmbedding limit minSimilarity groupID = .ok results) :
    ∃ vec, vectorSearch db queryEmbedding limit minSimilarity groupID = .ok vec ∧
      results = graphExpand db vec := by
  unfold SearchMemories at h
  cases hv : vectorSearch db queryEmbedding limit minSimilarity groupID with
  | error e => simp [hv] at h
  | ok vec =>
    simp only [hv] at h
    cases h
    exact ⟨vec, rfl, rfl⟩

/-! ## The sample store is well behaved -/

theorem sampleBackend_fetch_rows (ids : List Int) (rows : List (Option FetchRow))
    (h : sampleBackend.fetch ids = some rows) :
    rows.reduceOption = (([4, 3] : List Int).filter (fun k => ids.contains k)).map
      sampleFetchRow := by
  simp only [sampleBackend, Option.some.injEq] at h
  rw [← h]
  generalize ([4, 3] : List Int).filter (fun k => ids.contains k) = l
  induction l with
  | nil => rfl
  | cons k l ih => simp [List.reduceOption_cons_of_some, ih]

theorem sampleBackend_fetchHonoursIN : FetchHonoursIN sampleBackend := by
  intro ids rows h r hr
  have hr' : r ∈ rows.reduceOption := List.reduceOption_mem_iff.mpr hr
  rw [sampleBackend_fetch_rows ids rows h] at hr'
  obtain ⟨k, hk, rfl⟩ := List.mem_map.mp hr'
  have := (List.mem_filter.mp hk).2
  simpa [sampleFetchRow] using this

theorem sampleBackend_uniqueRowIDs : UniqueRowIDs sampleBackend := by
  constructor
  · intro q rs h
    simp only [sampleBackend, Option.some.injEq] at h
    subst h
    decide
  · intro ids rows h
    rw [sampleBackend_fetch_rows ids rows h, List.map_map]
    have hid : (FetchRow.id ∘ sampleFetchRow) = fun k => k := by
      funext k
      rfl
    rw [hid, List.map_id']
    exact List.Nodup.filter _ (by decide)

theorem sampleBackend_traversalHonoursDepth : TraversalHonoursDepth sampleBackend := by
  intro seed maxDepth rows h row hrow id hops hdec
  simp only [sampleBackend] at h
  by_cases hd : maxDepth < 1
  · simp [hd] at h
    subst h
    simp at hrow
  · have hd' : 1 ≤ maxDepth := by omega
    simp only [hd, if_false] at h
    have hdecode : ∀ a b : String, decodeRow sampleBackend (some (a, b)) =
        match sampleUnmarshal a with
        | none => none
        | some i => match sampleUnmarshal b with
          | none => none
          | some j => some (i, j) := fun a b => rfl
    by_cases h1 : seed = 1
    · simp [h1] at h
      subst h
      simp at hrow
      rcases hrow with rfl | rfl <;>
        · rw [hdecode] at hdec
          simp [sampleUnmarshal] at hdec
          omega
    · by_cases h2 : seed = 2
      · simp [h2] at h
        subst h
        simp at hrow
        rcases hrow with rfl | rfl | rfl <;>
          · rw [hdecode] at hdec
            simp [sampleUnmarshal, -Prod.mk_one_one] at hdec
            omega
      · simp [h1, h2] at h

/-! ## C3: graceful degrade -/

/-- C3. When the vector stage succeeds with a non-empty list and the graph stage
fails (the graph engine cannot be initialised, or the traversal fails for every
seed, or the fetch of the connected memories fails), `SearchMemories` returns
exactly the vector-stage results, in the same order, with a nil error. -/
theorem SearchMemories_graceful_degrade (db : Backend) (queryEmbedding : List ℚ) (limit : Int)
    (minSimilarity : ℚ) (groupID : String) (vec : List SearchResult)
    (hvec : vectorSearch db queryEmbedding limit minSimilarity groupID = .ok vec)
    (hne : vec ≠ [])
    (hgraph : db.ageInit = false ∨
      (∀ seed ∈ idsOf vec, db.traverse seed 1 = none) ∨
      (∀ m, getConnectedMemoryIDs db (idsOf vec) 1 = .ok m →
        db.fetch (newIDsOf db (idsOf vec) m) = none)) :
    SearchMemories db queryEmbedding limit minSimilarity groupID = .ok vec := by
  unfold SearchMemories
  rw [hvec]
  show Except.ok (graphExpand db vec) = Except.ok vec
  congr 1
  rcases graphExpand_cases db vec with h | ⟨m, rows, hm, hnew, hf, _⟩
  · exact h
  · exfalso
    have hids : ¬ (idsOf vec).length = 0 := by
      simpa [idsOf, List.length_eq_zero] using hne
    rcases hgraph with hinit | hall | hfetch
    · simp [getConnectedMemoryIDs, hids, hinit] at hm
    · obtain ⟨x, hx⟩ := List.exists_mem_of_ne_nil _ hnew
      have hxk : x ∈ HopMap.keys m := ((mem_newIDsOf db _ m x).mp hx).1
      obtain ⟨hops, seed, hseed, rows', htr, _⟩ :=
        (getConnectedMemoryIDs_mem_keys db _ 1 m hm x).mp hxk
      rw [hall seed hseed] at htr
      cases htr
    · rw [hfetch m hm] at hf
      cases hf

/-- Witness for C3: on the sample store without graph engine the search
returns the two vector-stage results. -/
theorem SearchMemories_graceful_degrade_witness :
    sampleBackendNoGraph.ageInit = false ∧
      SearchMemories sampleBackendNoGraph [1] 2 float0_5 "" =
        .ok [directResult (sampleVectorRow 1 1), directResult (sampleVectorRow 2 float0_7)] :=
  ⟨rfl, SearchMemories_graceful_degrade sampleBackendNoGraph [1] 2 float0_5 ""
    [directResult (sampleVectorRow 1 1), directResult (sampleVectorRow 2 float0_7)] rfl
    (by simp) (Or.inl rfl)⟩

/-! ## C4: no duplicate ids -/

/-- C4. No memory id appears twice in the list returned by `SearchMemories`:
against a `memories` table with unique ids (neither the vector query nor the
fetch delivers two rows with the same id) and a fetch that delivers only the
ids of its `WHERE id IN (...)`, for every vector-stage result, every graph
traversal result and every fetch result, the ids of the returned entries are
pairwise distinct. -/
theorem SearchMemories_ids_nodup (db : Backend) (queryEmbedding : List ℚ) (limit : Int)
    (minSimilarity : ℚ) (groupID : String) (results : List SearchResult)
    (hunique : UniqueRowIDs db) (hin : FetchHonoursIN db)
    (h : SearchMemories db queryEmbedding limit minSimilarity groupID = .ok results) :
    (idsOf results).Nodup := by
  obtain ⟨vec, hvec, hres⟩ := SearchMemories_eq_ok db _ _ _ _ _ h
  obtain ⟨rs, hs, hvecEq⟩ := vectorSearch_eq_ok db _ _ _ _ _ hvec
  have hvecNodup : (idsOf vec).Nodup := by
    rw [hvecEq, idsOf_map_directResult]
    exact hunique.1 _ rs hs
  rcases graphExpand_cases db vec with hg | ⟨m, rows, hm, hnew, hf, hg⟩
  · rw [hres, hg]
    exact hvecNodup
  · rw [hres, hg, idsOf_append, idsOf_map_graphResult]
    refine List.nodup_append.mpr ⟨hvecNodup, hunique.2 _ rows hf, ?_⟩
    intro x hx1 hx2
    obtain ⟨r, hr, hrx⟩ := List.mem_map.mp hx2
    have hreq : r.id ∈ newIDsOf db (idsOf vec) m :=
      hin _ rows hf r (List.reduceOption_mem_iff.mp hr)
    have := ((mem_newIDsOf db _ m r.id).mp hreq).2
    rw [hrx] at this
    exact this hx1

/-- Witness for C4: the sample store has unique ids, and the search returns the
four distinct ids 1, 2, 4, 3. -/
theorem SearchMemories_ids_nodup_witness :
    UniqueRowIDs sampleBackend ∧ FetchHonoursIN sampleBackend ∧
      ∃ results, SearchMemories sampleBackend [1] 2 float0_5 "" = .ok results ∧
        idsOf results = [1, 2, 4, 3] ∧ (idsOf results).Nodup :=
  ⟨sampleBackend_uniqueRowIDs, sampleBackend_fetchHonoursIN, _, rfl, rfl,
    SearchMemories_ids_nodup sampleBackend [1] 2 float0_5 "" _ sampleBackend_uniqueRowIDs
      sampleBackend_fetchHonoursIN rfl⟩

/-! ## C5: provenance fields -/

/-- C5. In every list returned by `SearchMemories` against a database that
honours the two graph queries (the depth-1 traversal reports hop counts of at
least 1, the fetch delivers only requested ids), each graph-origin entry
(`ViaRelationship = true`) has `RelationshipHops ≥ 1` and `Similarity = 0`, and
each direct-origin entry (`ViaRelationship = false`) has `RelationshipHops = 0`. -/
theorem SearchMemories_provenance_fields (db : Backend) (queryEmbedding : List ℚ) (limit : Int)
    (minSimilarity : ℚ) (groupID : String) (results : List SearchResult)
    (hhops : ∀ seed rows, db.traverse seed 1 = some rows →
      ∀ row ∈ rows, ∀ id hops, decodeRow db row = some (id, hops) → 1 ≤ hops)
    (hin : FetchHonoursIN db)
    (h : SearchMemories db queryEmbedding limit minSimilarity groupID = .ok results) :
    ∀ r ∈ results,
      (r.ViaRelationship = true → 1 ≤ r.RelationshipHops ∧ r.Similarity = 0) ∧
        (r.ViaRelationship = false → r.RelationshipHops = 0) := by
  obtain ⟨vec, hvec, hres⟩ := SearchMemories_eq_ok db _ _ _ _ _ h
  obtain ⟨rs, _, hvecEq⟩ := vectorSearch_eq_ok db _ _ _ _ _ hvec
  have hdirect : ∀ r ∈ vec,
      (r.ViaRelationship = true → 1 ≤ r.RelationshipHops ∧ r.Similarity = 0) ∧
        (r.ViaRelationship = false → r.RelationshipHops = 0) := by
    intro r hr
    rw [hvecEq] at hr
    obtain ⟨x, _, rfl⟩ := List.mem_map.mp hr
    simp [directResult]
  rcases graphExpand_cases db vec with hg | ⟨m, rows, hm, hnew, hf, hg⟩
  · rw [hres, hg]
    exact hdirect
  · rw [hres, hg]
    intro r hr
    rcases List.mem_append.mp hr with hr | hr
    · exact hdirect r hr
    · obtain ⟨fr, hfr, rfl⟩ := List.mem_map.mp hr
      have hreq : fr.id ∈ newIDsOf db (idsOf vec) m :=
        hin _ rows hf fr (List.reduceOption_mem_iff.mp hfr)
      have hkey : fr.id ∈ HopMap.keys m := ((mem_newIDsOf db _ m fr.id).mp hreq).1
      obtain ⟨v, hv⟩ := (HopMap.mem_keys_iff m fr.id).mp hkey
      obtain ⟨⟨seed, _, rows', htr, row, hrow, hdec⟩, _⟩ :=
        (getConnectedMemoryIDs_get? db _ 1 m hm fr.id v).mp hv
      have h1 : 1 ≤ v := hhops seed rows' htr row hrow fr.id v hdec
      simp [graphResult, HopMap.index, hv, h1]

/-- Witness for C5: the sample store honours both graph queries, and its search
result, which holds two direct and two graph-origin entries, has the fields
as stated. -/
theorem SearchMemories_provenance_fields_witness :
    ∃ results, SearchMemories sampleBackend [1] 2 float0_5 "" = .ok results ∧
      results.map (fun r => (r.ViaRelationship, r.RelationshipHops)) =
        [(false, 0), (false, 0), (true, 1), (true, 1)] ∧
      ∀ r ∈ results,
        (r.ViaRelationship = true → 1 ≤ r.RelationshipHops ∧ r.Similarity = 0) ∧
          (r.ViaRelationship = false → r.RelationshipHops = 0) :=
  ⟨_, rfl, rfl,
    SearchMemories_provenance_fields sampleBackend [1] 2 float0_5 "" _
      (fun seed rows h row hrow id hops hdec =>
        (sampleBackend_traversalHonoursDepth seed 1 rows h row hrow id hops hdec).1)
      sampleBackend_fetchHonoursIN rfl⟩

/-! ## C6: expansion is additive -/

/-- C6. If the vector stage fails, `SearchMemories` fails with its error;
otherwise it returns the vector-stage results unchanged and in order, followed
by one graph-origin entry (similarity 0) for each row delivered by the fetch
of the new ids (whenever that fetch is made and succeeds), and by nothing when
the graph stage did not reach a successful fetch. The ids asked of the fetch are exactly the graph-discovered ids that are
not in the vector stage, so that with a fetch that honours its `IN` list every
appended entry is such an id. Nothing is truncated to `limit` and the similarity
floor is not applied to the appended entries: the sample store answers a search
with limit 2 and floor 0.5 with 4 entries, two of them with similarity 0. -/
theorem SearchMemories_additive :
    (∀ (db : Backend) (queryEmbedding : List ℚ) (limit : Int) (minSimilarity : ℚ)
        (groupID : String),
      match vectorSearch db queryEmbedding limit minSimilarity groupID with
      | .error e => SearchMemories db queryEmbedding limit minSimilarity groupID = .error e
      | .ok vec =>
        ∃ (m : HopMap) (fetched : List FetchRow),
          SearchMemories db queryEmbedding limit minSimilarity groupID =
              .ok (vec ++ fetched.map (graphResult m)) ∧
            (fetched = [] ∨
              (getConnectedMemoryIDs db (idsOf vec) 1 = .ok m ∧
                ∃ rows, db.fetch (newIDsOf db (idsOf vec) m) = some rows ∧
                  fetched = rows.reduceOption)) ∧
            (getConnectedMemoryIDs db (idsOf vec) 1 = .ok m →
              ∀ id, id ∈ newIDsOf db (idsOf vec) m ↔
                (∃ hops, Reported db (idsOf vec) 1 id hops) ∧ id ∉ idsOf vec) ∧
            (FetchHonoursIN db → ∀ r ∈ fetched,
              (∃ hops, Reported db (idsOf vec) 1 r.id hops) ∧ r.id ∉ idsOf vec) ∧
            (∀ m' rows, getConnectedMemoryIDs db (idsOf vec) 1 = .ok m' →
              newIDsOf db (idsOf vec) m' ≠ [] →
              db.fetch (newIDsOf db (idsOf vec) m') = some rows →
              SearchMemories db queryEmbedding limit minSimilarity groupID =
                .ok (vec ++ rows.reduceOption.map (graphResult m')))) ∧
      ∃ results, SearchMemories sampleBackend [1] 2 float0_5 "" = .ok results ∧
        (2 : Int) < results.length ∧
        ∃ e ∈ results, e.ViaRelationship = true ∧ e.Similarity < float0_5 := by
  constructor
  · intro db queryEmbedding limit minSimilarity groupID
    cases hv : vectorSearch db queryEmbedding limit minSimilarity groupID with
    | error e => simp [SearchMemories, hv]
    | ok vec =>
      show ∃ (m : HopMap) (fetched : List FetchRow), _
      have hS : SearchMemories db queryEmbedding limit minSimilarity groupID =
          .ok (graphExpand db vec) := by
        simp [SearchMemories, hv]
      have hnewIff : ∀ m, getConnectedMemoryIDs db (idsOf vec) 1 = .ok m →
          ∀ id, id ∈ newIDsOf db (idsOf vec) m ↔
            (∃ hops, Reported db (idsOf vec) 1 id hops) ∧ id ∉ idsOf vec := by
        intro m hm id
        rw [mem_newIDsOf, getConnectedMemoryIDs_mem_keys db _ 1 m hm]
      have hfetched : ∀ m' rows, getConnectedMemoryIDs db (idsOf vec) 1 = .ok m' →
          newIDsOf db (idsOf vec) m' ≠ [] →
          db.fetch (newIDsOf db (idsOf vec) m') = some rows →
          SearchMemories db queryEmbedding limit minSimilarity groupID =
            .ok (vec ++ rows.reduceOption.map (graphResult m')) := by
        intro m' rows hm' hnew' hf'
        rw [hS, graphExpand_of_fetch db vec m' rows hm' hnew' hf']
      rcases graphExpand_cases db vec with hg | ⟨m, rows, hm, hnew, hf, hg⟩
      · refine ⟨[], [], ?_, Or.inl rfl, hnewIff [], ?_, hfetched⟩
        · rw [hS, hg]
          simp
        · intro _ r hr
          cases hr
      · refine ⟨m, rows.reduceOption, ?_, Or.inr ⟨hm, rows, hf, rfl⟩, hnewIff m, ?_, hfetched⟩
        · rw [hS, hg]
        · intro hin r hr
          have hreq : r.id ∈ newIDsOf db (idsOf vec) m :=
            hin _ rows hf r (List.reduceOption_mem_iff.mp hr)
          exact (hnewIff m hm r.id).mp hreq
  · refine ⟨_, rfl, by decide, ?_⟩
    refine ⟨graphResult [(3, 1), (2, 1), (4, 1), (1, 1)] (sampleFetchRow 4), ?_, rfl, ?_⟩
    · decide
    · decide

/-! ## C7: order of the graph-origin entries -/

/-- C7 fails as stated: no ordering is applied to the graph-origin entries. On
the sample store, which honours all its queries, the fetch delivers memory 4
before memory 3; both are one hop away, and `SearchMemories` returns them in
that order, the larger id first. -/
theorem SearchMemories_graph_order_counterexample :
    ∃ results a b, SearchMemories sampleBackend [1] 2 float0_5 "" = .ok results ∧
      results.drop 2 = [a, b] ∧ a.ViaRelationship = true ∧ b.ViaRelationship = true ∧
      a.RelationshipHops = b.RelationshipHops ∧ b.Memory.ID < a.Memory.ID :=
  ⟨_, graphResult [(3, 1), (2, 1), (4, 1), (1, 1)] (sampleFetchRow 4),
    graphResult [(3, 1), (2, 1), (4, 1), (1, 1)] (sampleFetchRow 3),
    rfl, rfl, rfl, rfl, rfl, by decide⟩

/-- C7, amended. The graph-origin entries follow the vector-stage entries in the
order in which the fetch delivers their rows; against a database that honours
the two graph queries every one of them has hop distance 1, so they are in
ascending hop order, and nothing orders entries of equal hop distance by id. -/
theorem SearchMemories_graph_entries_in_fetch_order (db : Backend) (queryEmbedding : List ℚ)
    (limit : Int) (minSimilarity : ℚ) (groupID : String) (vec : List SearchResult)
    (m : HopMap) (rows : List (Option FetchRow))
    (hvec : vectorSearch db queryEmbedding limit minSimilarity groupID = .ok vec)
    (hm : getConnectedMemoryIDs db (idsOf vec) 1 = .ok m)
    (hnew : newIDsOf db (idsOf vec) m ≠ [])
    (hf : db.fetch (newIDsOf db (idsOf vec) m) = some rows) :
    ∃ graph, SearchMemories db queryEmbedding limit minSimilarity groupID = .ok (vec ++ graph) ∧
      idsOf graph = rows.reduceOption.map FetchRow.id ∧
      (∀ e ∈ graph, e.ViaRelationship = true) ∧
      (TraversalHonoursDepth db → FetchHonoursIN db → ∀ e ∈ graph, e.RelationshipHops = 1) := by
  refine ⟨rows.reduceOption.map (graphResult m), ?_, idsOf_map_graphResult m _, ?_, ?_⟩
  · simp [SearchMemories, hvec, graphExpand_of_fetch db vec m rows hm hnew hf]
  · intro e he
    obtain ⟨fr, _, rfl⟩ := List.mem_map.mp he
    rfl
  · intro hdepth hin e he
    obtain ⟨fr, hfr, rfl⟩ := List.mem_map.mp he
    have hreq : fr.id ∈ newIDsOf db (idsOf vec) m :=
      hin _ rows hf fr (List.reduceOption_mem_iff.mp hfr)
    have hkey : fr.id ∈ HopMap.keys m := ((mem_newIDsOf db _ m fr.id).mp hreq).1
    obtain ⟨v, hv⟩ := (HopMap.mem_keys_iff m fr.id).mp hkey
    obtain ⟨⟨seed, _, rows', htr, row, hrow, hdec⟩, _⟩ :=
      (getConnectedMemoryIDs_get? db _ 1 m hm fr.id v).mp hv
    have hb := hdepth seed 1 rows' htr row hrow fr.id v hdec
    have h1 : v = 1 := by omega
    simp [graphResult, HopMap.index, hv, h1]

/-- Witness for C7, amended: on the sample store the fetch delivers 4 then 3,
and the graph-origin entries are 4 then 3. -/
theorem SearchMemories_graph_entries_in_fetch_order_witness :
    ∃ graph, SearchMemories sampleBackend [1] 2 float0_5 "" =
        .ok ([directResult (sampleVectorRow 1 1), directResult (sampleVectorRow 2 float0_7)]
          ++ graph) ∧
      idsOf graph = [4, 3] ∧
      (∀ e ∈ graph, e.ViaRelationship = true) ∧
      (TraversalHonoursDepth sampleBackend → FetchHonoursIN sampleBackend →
        ∀ e ∈ graph, e.RelationshipHops = 1) :=
  SearchMemories_graph_entries_in_fetch_order sampleBackend [1] 2 float0_5 ""
    [directResult (sampleVectorRow 1 1), directResult (sampleVectorRow 2 float0_7)]
    [(3, 1), (2, 1), (4, 1), (1, 1)]
    [some (sampleFetchRow 4), some (sampleFetchRow 3)] rfl rfl (by decide) rfl

/-! ## Lemmas on the tool handlers -/

theorem float0_7_eq : float0_7 = 3152519739159347 / 4503599627370496 := by
  rw [← Rat.num_div_den float0_7]
  norm_num [float0_7]

theorem float0_5_eq : float0_5 = 1 / 2 := by
  rw [← Rat.num_div_den float0_5]
  norm_num [float0_5]

theorem float0_7_pos : 0 < float0_7 := by decide

/-- Every call of the best-effort loop is an edge write for a proposal that
passes the confidence gate. -/
theorem createBestEffort_calls (sv : Services) (memoryID : Int) (minConfidence : ℚ)
    (ll : List LLMSuggestion) (n : Nat) (c : Call)
    (hc : c ∈ (createBestEffort sv memoryID minConfidence n ll).1) :
    ∃ s ∈ ll, minConfidence ≤ s.Confidence ∧
      ∃ ok, c = .addRelationship memoryID s.TargetID s.RelType (autoProps s) ok := by
  induction ll generalizing n with
  | nil => simp [createBestEffort] at hc
  | cons s rest ih =>
    unfold createBestEffort at hc
    by_cases hconf : s.Confidence ≥ minConfidence
    · simp only [hconf, if_true, List.mem_cons] at hc
      rcases hc with rfl | hc
      · exact ⟨s, List.mem_cons_self _ _, hconf, _, rfl⟩
      · obtain ⟨s', hs', h1, h2⟩ := ih (n + 1) hc
        exact ⟨s', List.mem_cons_of_mem _ hs', h1, h2⟩
    · simp only [hconf, if_false] at hc
      obtain ⟨s', hs', h1, h2⟩ := ih n hc
      exact ⟨s', List.mem_cons_of_mem _ hs', h1, h2⟩

/-- Every call of the store-time loop is an edge write for a proposal whose
confidence is at least 0.7. -/
theorem createOrAbort_calls (sv : Services) (id : Int) (ll : List LLMSuggestion) (n : Nat)
    (c : Call) (hc : c ∈ (createOrAbort sv id n ll).1) :
    ∃ s ∈ ll, float0_7 ≤ s.Confidence ∧
      ∃ ok, c = .addRelationship id s.TargetID s.RelType (autoProps s) ok := by
  induction ll generalizing n with
  | nil => simp [createOrAbort] at hc
  | cons s rest ih =>
    unfold createOrAbort at hc
    by_cases hconf : s.Confidence ≥ float0_7
    · simp only [hconf, if_true] at hc
      cases herr : sv.addRelationship n id s.TargetID s.RelType (autoProps s) with
      | some err =>
        simp only [herr, List.mem_singleton] at hc
        exact ⟨s, List.mem_cons_self _ _, hconf, _, hc⟩
      | none =>
        simp only [herr, List.mem_cons] at hc
        rcases hc with rfl | hc
        · exact ⟨s, List.mem_cons_self _ _, hconf, _, rfl⟩
        · obtain ⟨s', hs', h1, h2⟩ := ih (n + 1) hc
          exact ⟨s', List.mem_cons_of_mem _ hs', h1, h2⟩
    · simp only [hconf, if_false] at hc
      obtain ⟨s', hs', h1, h2⟩ := ih n hc
      exact ⟨s', List.mem_cons_of_mem _ hs', h1, h2⟩

/-- The edge-write calls of `handleAutoDetectRelationships`: each comes from the
best-effort loop run on the classifier's answer for the candidates. -/
theorem handleAutoDetectRelationships_writes (sv : Services)
    (input : AutoDetectRelationshipsInput) (fromID toID : Int) (relType : String)
    (props : List (String × PropValue)) (ok : Bool)
    (hc : Call.addRelationship fromID toID relType props ok ∈
      (handleAutoDetectRelationships sv input).calls) :
    input.DryRun = false ∧
    ∃ sourceMemory candidates ll,
      sv.getMemoryByID input.MemoryID = .ok sourceMemory ∧
      Call.analyzeRelationships sourceMemory.Text sourceMemory.ID candidates ∈
        (handleAutoDetectRelationships sv input).calls ∧
      sv.analyzeRelationships sourceMemory.Text sourceMemory.ID candidates = .ok ll ∧
      Call.addRelationship fromID toID relType props ok ∈
        (createBestEffort sv input.MemoryID
          (if input.MinConfidence = 0 then float0_7 else input.MinConfidence) 0 ll).1 := by
  unfold handleAutoDetectRelationships at hc ⊢
  by_cases h0 : input.MemoryID = 0
  · simp [h0] at hc
  · simp only [h0, if_false] at hc ⊢
    cases hget : sv.getMemoryByID input.MemoryID with
    | error e => simp [hget] at hc
    | ok sourceMemory =>
      simp only [hget] at hc ⊢
      cases hgen : sv.generate sourceMemory.Text with
      | error e => simp [hgen] at hc
      | ok sourceEmbedding =>
        simp only [hgen] at hc ⊢
        cases hsearch : SearchMemories sv.db sourceEmbedding
            (wrapInt ((if input.MaxCandidates = 0 then 10 else input.MaxCandidates) + 1))
            (if input.MinSimilarity = 0 then float0_5 else input.MinSimilarity) "" with
        | error e => simp [hsearch] at hc
        | ok searchResults =>
          simp only [hsearch] at hc ⊢
          by_cases hcand : (toCandidates input.MemoryID searchResults).length = 0
          · simp [hcand] at hc
          · simp only [hcand, if_false] at hc ⊢
            cases hllm : sv.analyzeRelationships sourceMemory.Text sourceMemory.ID
                (toCandidates input.MemoryID searchResults) with
            | error e => simp [hllm] at hc
            | ok ll =>
              simp only [hllm] at hc ⊢
              by_cases hdry : input.DryRun = true
              · simp [hdry] at hc
              · simp only [hdry] at hc ⊢
                refine ⟨trivial, sourceMemory, _, ll, rfl, ?_, hllm, ?_⟩
                · simp
                · simpa using hc

/-- The edge-write calls of `handleStoreMemory`: each comes from the store-time
loop run on the classifier's answer for the candidates. -/
theorem handleStoreMemory_writes (sv : Services) (input : StoreMemoryInput)
    (fromID toID : Int) (relType : String) (props : List (String × PropValue)) (ok : Bool)
    (hc : Call.addRelationship fromID toID relType props ok ∈
      (handleStoreMemory sv input).calls) :
    ∃ embedding id candidates ll,
      sv.storeMemory input.Text embedding input.GroupID = .ok id ∧
      Call.analyzeRelationships input.Text id candidates ∈ (handleStoreMemory sv input).calls ∧
      sv.analyzeRelationships input.Text id candidates = .ok ll ∧
      Call.addRelationship fromID toID relType props ok ∈ (createOrAbort sv id 0 ll).1 := by
  unfold handleStoreMemory at hc ⊢
  by_cases h0 : input.Text = ""
  · simp [h0] at hc
  · simp only [h0, if_false] at hc ⊢
    cases hgen : sv.generate input.Text with
    | error e => simp [hgen] at hc
    | ok embedding =>
      simp only [hgen] at hc ⊢
      cases hstore : sv.storeMemory input.Text embedding input.GroupID with
      | error e => simp [hstore] at hc
      | ok id =>
        simp only [hstore] at hc ⊢
        by_cases hauto : input.AutoDetectRelationships.getD true = true
        · simp only [hauto, if_true] at hc ⊢
          cases hsearch : SearchMemories sv.db embedding 10 float0_5 "" with
          | error e => simp [hsearch] at hc
          | ok searchResults =>
            simp only [hsearch] at hc ⊢
            by_cases hcand : (toCandidates id searchResults).length > 0
            · simp only [hcand, if_true] at hc ⊢
              cases hllm : sv.analyzeRelationships input.Text id
                  (toCandidates id searchResults) with
              | error e => simp [hllm] at hc
              | ok ll =>
                simp only [hllm] at hc ⊢
                refine ⟨embedding, id, _, ll, hstore, ?_, hllm, ?_⟩
                · rcases hloop : createOrAbort sv id 0 ll with ⟨writes, res⟩
                  cases res <;> simp
                · rcases hloop : createOrAbort sv id 0 ll with ⟨writes, res⟩
                  rw [hloop] at hc
                  cases res <;> simpa using hc
            · simp [hcand] at hc
        · simp [hauto] at hc

/-- The suggestions reported by `handleAutoDetectRelationships`: none when no
candidate remains, otherwise every proposal of the classifier. -/
theorem handleAutoDetectRelationships_suggestions (sv : Services)
    (input : AutoDetectRelationshipsInput) (out : AutoDetectRelationshipsOutput)
    (h : (handleAutoDetectRelationships sv input).result = .ok out) :
    (out.Suggestions = [] ∧
        classifierInputs (handleAutoDetectRelationships sv input).calls = []) ∨
      ∃ sourceMemory candidates ll,
        sv.getMemoryByID input.MemoryID = .ok sourceMemory ∧
        Call.analyzeRelationships sourceMemory.Text sourceMemory.ID candidates ∈
          (handleAutoDetectRelationships sv input).calls ∧
        sv.analyzeRelationships sourceMemory.Text sourceMemory.ID candidates = .ok ll ∧
        out.Suggestions = toSuggestions ll := by
  unfold handleAutoDetectRelationships at h ⊢
  by_cases h0 : input.MemoryID = 0
  · simp [h0] at h
  · simp only [h0, if_false] at h ⊢
    cases hget : sv.getMemoryByID input.MemoryID with
    | error e => simp [hget] at h
    | ok sourceMemory =>
      simp only [hget] at h ⊢
      cases hgen : sv.generate sourceMemory.Text with
      | error e => simp [hgen] at h
      | ok sourceEmbedding =>
        simp only [hgen] at h ⊢
        cases hsearch : SearchMemories sv.db sourceEmbedding
            (wrapInt ((if input.MaxCandidates = 0 then 10 else input.MaxCandidates) + 1))
            (if input.MinSimilarity = 0 then float0_5 else input.MinSimilarity) "" with
        | error e => simp [hsearch] at h
        | ok searchResults =>
          simp only [hsearch] at h ⊢
          by_cases hcand : (toCandidates input.MemoryID searchResults).length = 0
          · simp only [hcand, if_true, Except.ok.injEq] at h ⊢
            left
            subst h
            exact ⟨rfl, rfl⟩
          · simp only [hcand, if_false] at h ⊢
            right
            cases hllm : sv.analyzeRelationships sourceMemory.Text sourceMemory.ID
                (toCandidates input.MemoryID searchResults) with
            | error e => simp [hllm] at h
            | ok ll =>
              simp only [hllm] at h ⊢
              by_cases hdry : input.DryRun = true
              · simp only [hdry, if_true, Except.ok.injEq] at h ⊢
                subst h
                exact ⟨sourceMemory, _, ll, rfl, by simp, hllm, rfl⟩
              · simp only [hdry, Bool.false_eq_true, if_false, Except.ok.injEq] at h ⊢
                subst h
                exact ⟨sourceMemory, _, ll, rfl, by simp, hllm, rfl⟩

/-! ## C8: the confidence gate -/

/-- C8 fails as stated: the suggestions list is not filtered. On the sample
services the caller asks for a confidence of at least 0.7, the classifier also
proposes memory 3 with confidence 0.5, and that proposal is returned in the
suggestions list. -/
theorem handleAutoDetectRelationships_low_confidence_counterexample :
    ∃ out, (handleAutoDetectRelationships sampleServices sampleDetectInput).result = .ok out ∧
      ∃ s ∈ out.Suggestions, s.TargetID = 3 ∧ s.Confidence < sampleDetectInput.MinConfidence :=
  ⟨_, rfl, ⟨3, "SIMILAR_TO", "loosely", float0_5⟩, by decide, rfl, by decide⟩

/-- C8, amended. `handleAutoDetectRelationships` never attempts to persist a
proposal whose confidence is below the caller-supplied `minConfidence` (nor
below 0.7 when the caller supplies 0): every edge write it makes carries the
type, target and properties of one proposal of the classifier whose confidence
is at least that floor. Its suggestions list is not gated: it holds every
proposal of the classifier, for every classifier output. -/
theorem handleAutoDetectRelationships_confidence_gate (sv : Services)
    (input : AutoDetectRelationshipsInput) :
    (∀ fromID toID relType props ok,
      Call.addRelationship fromID toID relType props ok ∈
          (handleAutoDetectRelationships sv input).calls →
        ∃ s : LLMSuggestion,
          input.MinConfidence ≤ s.Confidence ∧
          (input.MinConfidence = 0 → float0_7 ≤ s.Confidence) ∧
          fromID = input.MemoryID ∧ toID = s.TargetID ∧ relType = s.RelType ∧
          props = [("reason", .str s.Reason), ("confidence", .num s.Confidence),
            ("auto_detected", .bool true)]) ∧
      ∀ out, (handleAutoDetectRelationships sv input).result = .ok out →
        (out.Suggestions = [] ∧
            classifierInputs (handleAutoDetectRelationships sv input).calls = []) ∨
          ∃ sourceMemory candidates ll,
            sv.getMemoryByID input.MemoryID = .ok sourceMemory ∧
            Call.analyzeRelationships sourceMemory.Text sourceMemory.ID candidates ∈
              (handleAutoDetectRelationships sv input).calls ∧
            sv.analyzeRelationships sourceMemory.Text sourceMemory.ID candidates = .ok ll ∧
            out.Suggestions = toSuggestions ll := by
  refine ⟨?_, handleAutoDetectRelationships_suggestions sv input⟩
  intro fromID toID relType props ok hc
  obtain ⟨_, _, _, ll, _, _, _, hloop⟩ :=
    handleAutoDetectRelationships_writes sv input fromID toID relType props ok hc
  obtain ⟨s, _, hconf, ok', heq⟩ := createBestEffort_calls sv _ _ ll 0 _ hloop
  simp only [Call.addRelationship.injEq] at heq
  obtain ⟨h1, h2, h3, h4, _⟩ := heq
  refine ⟨s, ?_, ?_, h1, h2, h3, h4⟩
  · by_cases hz : input.MinConfidence = 0
    · rw [if_pos hz] at hconf
      rw [hz]
      exact le_trans (le_of_lt float0_7_pos) hconf
    · rw [if_neg hz] at hconf
      exact hconf
  · intro hz
    rw [if_pos hz] at hconf
    exact hconf

/-- Witness for C8, amended: the edge written to memory 2 on the sample
services carries a proposal whose confidence is at least the requested 0.7. -/
theorem handleAutoDetectRelationships_confidence_gate_witness :
    ∃ s : LLMSuggestion,
      sampleDetectInput.MinConfidence ≤ s.Confidence ∧
      (sampleDetectInput.MinConfidence = 0 → float0_7 ≤ s.Confidence) ∧
      (1 : Int) = sampleDetectInput.MemoryID ∧ (2 : Int) = s.TargetID ∧
      "RELATES_TO" = s.RelType ∧
      [("reason", PropValue.str "same topic"), ("confidence", PropValue.num 1),
          ("auto_detected", PropValue.bool true)] =
        [("reason", .str s.Reason), ("confidence", .num s.Confidence),
          ("auto_detected", .bool true)] :=
  (handleAutoDetectRelationships_confidence_gate sampleServices sampleDetectInput).1 1 2
    "RELATES_TO" _ true (by decide)

/-! ## C9: the target of an accepted proposal -/

/-- C9 fails as stated: the target of a proposal is never compared with the
candidates. On the sample services the classifier is offered the candidates 2,
4 and 3 and also proposes the target 99; both handlers write the edge from
memory 1 to 99. -/
theorem autoDetect_target_outside_candidates_counterexample :
    (∃ candidates,
      classifierInputs (handleAutoDetectRelationships sampleServices sampleDetectInput).calls
        = [candidates] ∧
      candidates.map CandidateMemory.ID = [2, 4, 3] ∧
      (edgesWritten (handleAutoDetectRelationships sampleServices sampleDetectInput).calls).map
        (fun e => (e.1, e.2.1)) = [(1, 2), (1, 99)]) ∧
    ∃ candidates,
      classifierInputs (handleStoreMemory sampleServices sampleStoreInput).calls
        = [candidates] ∧
      candidates.map CandidateMemory.ID = [2, 4, 3] ∧
      (edgesWritten (handleStoreMemory sampleServices sampleStoreInput).calls).map
        (fun e => (e.1, e.2.1)) = [(1, 2), (1, 99)] :=
  ⟨⟨_, rfl, rfl, rfl⟩, ⟨_, rfl, rfl, rfl⟩⟩

/-- C9, amended. Every edge write made by `handleAutoDetectRelationships`, and
every one made by the store-time auto-detection of `handleStoreMemory`, goes
from the memory handled (the requested id, the newly stored id) to the
`TargetID` of a proposal that the classifier returned for the candidates sent
to it and whose confidence passes the gate (`minConfidence`, 0.7 at store
time); the target id is not checked against the candidates. -/
theorem autoDetect_edges_follow_proposals (sv : Services) :
    (∀ (input : AutoDetectRelationshipsInput) fromID toID relType props ok,
      Call.addRelationship fromID toID relType props ok ∈
          (handleAutoDetectRelationships sv input).calls →
        fromID = input.MemoryID ∧
        ∃ (sourceMemory : Memory) (candidates : List CandidateMemory)
          (ll : List LLMSuggestion) (s : LLMSuggestion),
          Call.analyzeRelationships sourceMemory.Text sourceMemory.ID candidates ∈
            (handleAutoDetectRelationships sv input).calls ∧
          sv.analyzeRelationships sourceMemory.Text sourceMemory.ID candidates = .ok ll ∧
          s ∈ ll ∧ input.MinConfidence ≤ s.Confidence ∧ toID = s.TargetID ∧
          relType = s.RelType) ∧
    ∀ (input : StoreMemoryInput) fromID toID relType props ok,
      Call.addRelationship fromID toID relType props ok ∈ (handleStoreMemory sv input).calls →
        ∃ (embedding : List ℚ) (id : Int) (candidates : List CandidateMemory)
          (ll : List LLMSuggestion) (s : LLMSuggestion),
          sv.storeMemory input.Text embedding input.GroupID = .ok id ∧ fromID = id ∧
          Call.analyzeRelationships input.Text id candidates ∈
            (handleStoreMemory sv input).calls ∧
          sv.analyzeRelationships input.Text id candidates = .ok ll ∧
          s ∈ ll ∧ float0_7 ≤ s.Confidence ∧ toID = s.TargetID ∧ relType = s.RelType := by
  constructor
  · intro input fromID toID relType props ok hc
    obtain ⟨_, sourceMemory, candidates, ll, _, hcall, hllm, hloop⟩ :=
      handleAutoDetectRelationships_writes sv input fromID toID relType props ok hc
    obtain ⟨s, hs, hconf, ok', heq⟩ := createBestEffort_calls sv _ _ ll 0 _ hloop
    simp only [Call.addRelationship.injEq] at heq
    obtain ⟨h1, h2, h3, _, _⟩ := heq
    refine ⟨h1, sourceMemory, candidates, ll, s, hcall, hllm, hs, ?_, h2, h3⟩
    by_cases hz : input.MinConfidence = 0
    · rw [if_pos hz] at hconf
      rw [hz]
      exact le_trans (le_of_lt float0_7_pos) hconf
    · rw [if_neg hz] at hconf
      exact hconf
  · intro input fromID toID relType props ok hc
    obtain ⟨embedding, id, candidates, ll, hstore, hcall, hllm, hloop⟩ :=
      handleStoreMemory_writes sv input fromID toID relType props ok hc
    obtain ⟨s, hs, hconf, ok', heq⟩ := createOrAbort_calls sv _ ll 0 _ hloop
    simp only [Call.addRelationship.injEq] at heq
    obtain ⟨h1, h2, h3, _, _⟩ := heq
    exact ⟨embedding, id, candidates, ll, s, hstore, h1, hcall, hllm, hs, hconf, h2, h3⟩

/-- Witness for C9, amended: the edge written to memory 99 on the sample
services is the target of a proposal of the classifier. -/
theorem autoDetect_edges_follow_proposals_witness :
    (1 : Int) = sampleDetectInput.MemoryID ∧
      ∃ (sourceMemory : Memory) (candidates : List CandidateMemory)
        (ll : List LLMSuggestion) (s : LLMSuggestion),
        Call.analyzeRelationships sourceMemory.Text sourceMemory.ID candidates ∈
          (handleAutoDetectRelationships sampleServices sampleDetectInput).calls ∧
        sampleServices.analyzeRelationships sourceMemory.Text sourceMemory.ID candidates
          = .ok ll ∧
        s ∈ ll ∧ sampleDetectInput.MinConfidence ≤ s.Confidence ∧ (99 : Int) = s.TargetID ∧
        "BUILDS_ON" = s.RelType :=
  (autoDetect_edges_follow_proposals sampleServices).1 sampleDetectInput 1 99 "BUILDS_ON"
    [("reason", .str "extends it"), ("confidence", .num 1), ("auto_detected", .bool true)]
    true (by decide)

/-! ## C10: candidate selection -/

/-- C10 on the sample store: asked for at most one candidate for memory 1 with
a similarity floor of 0.5, `handleAutoDetectRelationships` searches with limit
2; the vector stage answers memories 1 and 2, the graph expansion adds
memories 4 and 3 with similarity 0, and the classifier receives the three
candidates 2, 4 and 3: more than `maxCandidates + 1`, two of them
graph-discovered and below the similarity floor. -/
theorem handleAutoDetectRelationships_candidates_on_sample :
    ∃ candidates vec,
      classifierInputs (handleAutoDetectRelationships sampleServices sampleDetectInput).calls
        = [candidates] ∧
      vectorSearch sampleBackend [1] 2 float0_5 "" = .ok vec ∧
      idsOf vec = [1, 2] ∧
      candidates.map CandidateMemory.ID = [2, 4, 3] ∧
      candidates.map CandidateMemory.Similarity = [float0_7, 0, 0] ∧
      sampleDetectInput.MaxCandidates + 1 < candidates.length :=
  ⟨_, _, rfl, rfl, rfl, rfl, rfl, by decide⟩

/-! ## Lemmas on the call traces -/

theorem edgeAttempts_append (a b : List Call) :
    edgeAttempts (a ++ b) = edgeAttempts a ++ edgeAttempts b := by
  induction a with
  | nil => rfl
  | cons c a ih => cases c <;> simp [edgeAttempts, ih]

theorem edgesWritten_append (a b : List Call) :
    edgesWritten (a ++ b) = edgesWritten a ++ edgesWritten b := by
  induction a with
  | nil => rfl
  | cons c a ih =>
    cases c with
    | addRelationship f t ty p ok => cases ok <;> simp [edgesWritten, ih]
    | _ => simp [edgesWritten, ih]

theorem classifierInputs_append (a b : List Call) :
    classifierInputs (a ++ b) = classifierInputs a ++ classifierInputs b := by
  induction a with
  | nil => rfl
  | cons c a ih => cases c <;> simp [classifierInputs, ih]

/-- The best-effort loop attempts one write per proposal passing the gate, in
order, makes no other call, and counts the writes that succeeded. -/
theorem createBestEffort_spec (sv : Services) (memoryID : Int) (minConfidence : ℚ)
    (ll : List LLMSuggestion) (n : Nat) :
    edgeAttempts (createBestEffort sv memoryID minConfidence n ll).1 =
        (ll.filter (fun s => decide (s.Confidence ≥ minConfidence))).map (writeFor memoryID) ∧
      classifierInputs (createBestEffort sv memoryID minConfidence n ll).1 = [] ∧
      (createBestEffort sv memoryID minConfidence n ll).2 =
        (edgesWritten (createBestEffort sv memoryID minConfidence n ll).1).length := by
  induction ll generalizing n with
  | nil => simp [createBestEffort, edgeAttempts, classifierInputs, edgesWritten]
  | cons s rest ih =>
    obtain ⟨h1, h2, h3⟩ := ih (n + 1)
    obtain ⟨h1', h2', h3'⟩ := ih n
    unfold createBestEffort
    by_cases hconf : s.Confidence ≥ minConfidence
    · simp only [hconf, if_true, decide_True, List.filter_cons_of_pos, List.map_cons]
      cases herr : sv.addRelationship n memoryID s.TargetID s.RelType (autoProps s) with
      | none =>
        simp [edgeAttempts, classifierInputs, edgesWritten, h1, h2, h3, writeFor, autoProps]
      | some e =>
        simp [edgeAttempts, classifierInputs, edgesWritten, h1, h2, h3, writeFor, autoProps]
    · simp only [hconf, if_false, decide_False, Bool.false_eq_true, not_false_eq_true,
        List.filter_cons_of_neg]
      exact ⟨h1', h2', h3'⟩

/-- The store-time loop makes only edge writes, each for a proposal of
confidence at least 0.7 and in their order. If it ends normally every write it
attempted succeeded, it attempted all of them and counts them; if it ends
with an error its last call is a failed write, all the earlier ones succeeded,
and the proposals after the failed one were not attempted. -/
theorem createOrAbort_spec (sv : Services) (id : Int) (ll : List LLMSuggestion) (n : Nat) :
    classifierInputs (createOrAbort sv id n ll).1 = [] ∧
      match (createOrAbort sv id n ll).2 with
      | .ok created =>
        edgeAttempts (createOrAbort sv id n ll).1 =
            (ll.filter (fun s => decide (s.Confidence ≥ float0_7))).map (writeFor id) ∧
          edgesWritten (createOrAbort sv id n ll).1 = edgeAttempts (createOrAbort sv id n ll).1 ∧
          created = (edgesWritten (createOrAbort sv id n ll).1).length
      | .error e =>
        ∃ (before : List Call) (s : LLMSuggestion) (err : String)
            (later : List (Int × Int × String × List (String × PropValue))),
          (createOrAbort sv id n ll).1 =
              before ++ [Call.addRelationship id s.TargetID s.RelType (autoProps s) false] ∧
            edgesWritten before = edgeAttempts before ∧
            s ∈ ll ∧
            (ll.filter (fun s => decide (s.Confidence ≥ float0_7))).map (writeFor id) =
              edgeAttempts before ++ writeFor id s :: later ∧
            e = "failed to create auto-detected relationship " ++ s.RelType ++ " from "
              ++ toString id ++ " to " ++ toString s.TargetID ++ ": " ++ err := by
  induction ll generalizing n with
  | nil => simp [createOrAbort, edgeAttempts, classifierInputs, edgesWritten]
  | cons s rest ih =>
    unfold createOrAbort
    by_cases hconf : s.Confidence ≥ float0_7
    · simp only [hconf, if_true, decide_True, List.filter_cons_of_pos, List.map_cons]
      cases herr : sv.addRelationship n id s.TargetID s.RelType (autoProps s) with
      | some err =>
        refine ⟨by simp [classifierInputs], ?_⟩
        exact ⟨[], s, err, _, rfl, rfl, List.mem_cons_self _ _, rfl, rfl⟩
      | none =>
        obtain ⟨h1, h2⟩ := ih (n + 1)
        refine ⟨by simp [classifierInputs, h1], ?_⟩
        cases hres : (createOrAbort sv id (n + 1) rest).2 with
        | ok created =>
          rw [hres] at h2
          obtain ⟨a1, a2, a3⟩ := h2
          simp only [Except.map, hres]
          refine ⟨?_, ?_, ?_⟩
          · simp [edgeAttempts, a1, writeFor, autoProps]
          · simp [edgeAttempts, edgesWritten, a2, a1]
          · simp [edgesWritten, a3]
        | error e =>
          rw [hres] at h2
          obtain ⟨before, s', err, later, b1, b2, b3, b4, b5⟩ := h2
          simp only [Except.map, hres]
          refine ⟨Call.addRelationship id s.TargetID s.RelType (autoProps s) true :: before,
            s', err, later, ?_, ?_, List.mem_cons_of_mem _ b3, ?_, b5⟩
          · simp [b1]
          · simp [edgesWritten, edgeAttempts, b2]
          · simp [edgeAttempts, b4, writeFor, autoProps]
    · simp only [hconf, if_false, decide_False, Bool.false_eq_true, not_false_eq_true,
        List.filter_cons_of_neg]
      obtain ⟨h1, h2⟩ := ih n
      refine ⟨h1, ?_⟩
      cases hres : (createOrAbort sv id n rest).2 with
      | ok created =>
        rw [hres] at h2
        exact h2
      | error e =>
        rw [hres] at h2
        obtain ⟨before, s', err, later, b1, b2, b3, b4, b5⟩ := h2
        exact ⟨before, s', err, later, b1, b2, List.mem_cons_of_mem _ b3, b4, b5⟩

/-! ## The runs of the two inference handlers -/

/-- How a run of `handleAutoDetectRelationships` goes: either it ends with an
error before the candidates are selected, having called neither the classifier
nor `AddRelationship`, or the memory, its embedding and the search results were
obtained and the rest of the run is as displayed. -/
theorem handleAutoDetectRelationships_shape (sv : Services)
    (input : AutoDetectRelationshipsInput) :
    (∃ e, (handleAutoDetectRelationships sv input).result = .error e ∧
        classifierInputs (handleAutoDetectRelationships sv input).calls = [] ∧
        edgeAttempts (handleAutoDetectRelationships sv input).calls = []) ∨
      ∃ (sourceMemory : Memory) (sourceEmbedding : List ℚ) (searchResults : List SearchResult),
        input.MemoryID ≠ 0 ∧
        sv.getMemoryByID input.MemoryID = .ok sourceMemory ∧
        sv.generate sourceMemory.Text = .ok sourceEmbedding ∧
        SearchMemories sv.db sourceEmbedding (detectLimit input) (detectFloor input) ""
          = .ok searchResults ∧
        handleAutoDetectRelationships sv input =
          if (toCandidates input.MemoryID searchResults).length = 0 then
            ⟨[Call.getMemoryByID input.MemoryID, Call.generate sourceMemory.Text,
                Call.searchMemories sourceEmbedding (detectLimit input) (detectFloor input) ""],
              .ok { Suggestions := [], RelationshipsCreated := 0,
                    Message := "No similar memories found for relationship analysis" }⟩
          else
            match sv.analyzeRelationships sourceMemory.Text sourceMemory.ID
                (toCandidates input.MemoryID searchResults) with
            | .error e =>
              ⟨[Call.getMemoryByID input.MemoryID, Call.generate sourceMemory.Text,
                  Call.searchMemories sourceEmbedding (detectLimit input) (detectFloor input) "",
                  Call.analyzeRelationships sourceMemory.Text sourceMemory.ID
                    (toCandidates input.MemoryID searchResults)],
                .error ("LLM analysis failed: " ++ e)⟩
            | .ok ll =>
              if input.DryRun then
                ⟨[Call.getMemoryByID input.MemoryID, Call.generate sourceMemory.Text,
                    Call.searchMemories sourceEmbedding (detectLimit input) (detectFloor input) "",
                    Call.analyzeRelationships sourceMemory.Text sourceMemory.ID
                      (toCandidates input.MemoryID searchResults)],
                  .ok { Suggestions := toSuggestions ll, RelationshipsCreated := 0,
                        Message := "Found " ++ toString (toSuggestions ll).length
                          ++ " relationship suggestions" }⟩
              else
                ⟨[Call.getMemoryByID input.MemoryID, Call.generate sourceMemory.Text,
                    Call.searchMemories sourceEmbedding (detectLimit input) (detectFloor input) "",
                    Call.analyzeRelationships sourceMemory.Text sourceMemory.ID
                      (toCandidates input.MemoryID searchResults)]
                    ++ (createBestEffort sv input.MemoryID (detectGate input) 0 ll).1,
                  .ok { Suggestions := toSuggestions ll,
                        RelationshipsCreated :=
                          (createBestEffort sv input.MemoryID (detectGate input) 0 ll).2,
                        Message := "Created "
                          ++ toString (createBestEffort sv input.MemoryID (detectGate input) 0 ll).2
                          ++ " relationships from " ++ toString (toSuggestions ll).length
                          ++ " suggestions" }⟩ := by
  unfold handleAutoDetectRelationships detectLimit detectFloor detectGate
  by_cases h0 : input.MemoryID = 0
  · left
    simp [h0, classifierInputs, edgeAttempts]
  · simp only [h0, if_false]
    cases hget : sv.getMemoryByID input.MemoryID with
    | error e =>
      left
      simp [classifierInputs, edgeAttempts]
    | ok sourceMemory =>
      simp only []
      cases hgen : sv.generate sourceMemory.Text with
      | error e =>
        left
        simp [classifierInputs, edgeAttempts]
      | ok sourceEmbedding =>
        simp only []
        cases hsearch : SearchMemories sv.db sourceEmbedding
            (wrapInt ((if input.MaxCandidates = 0 then 10 else input.MaxCandidates) + 1))
            (if input.MinSimilarity = 0 then float0_5 else input.MinSimilarity) "" with
        | error e =>
          left
          simp [classifierInputs, edgeAttempts]
        | ok searchResults =>
          right
          refine ⟨sourceMemory, sourceEmbedding, searchResults, h0, rfl, hgen, hsearch, ?_⟩
          simp only []
          by_cases hcand : (toCandidates input.MemoryID searchResults).length = 0
          · simp only [hcand, if_true]
            rfl
          · simp only [hcand, if_false]
            cases hllm : sv.analyzeRelationships sourceMemory.Text sourceMemory.ID
                (toCandidates input.MemoryID searchResults) with
            | error e => rfl
            | ok ll =>
              simp only []
              by_cases hdry : input.DryRun = true
              · simp only [hdry, if_true]
                rfl
              · simp only [hdry, if_false]
                rfl

/-- How a run of `handleStoreMemory` goes: either it ends with an error before
the memory is stored, having called neither the classifier nor
`AddRelationship`, or the memory was stored and the rest of the run is as
displayed. -/
theorem handleStoreMemory_shape (sv : Services) (input : StoreMemoryInput) :
    (∃ e, (handleStoreMemory sv input).result = .error e ∧
        classifierInputs (handleStoreMemory sv input).calls = [] ∧
        edgeAttempts (handleStoreMemory sv input).calls = []) ∨
      ∃ (embedding : List ℚ) (id : Int),
        input.Text ≠ "" ∧
        sv.generate input.Text = .ok embedding ∧
        sv.storeMemory input.Text embedding input.GroupID = .ok id ∧
        handleStoreMemory sv input =
          if input.AutoDetectRelationships.getD true = true then
            match SearchMemories sv.db embedding 10 float0_5 "" with
            | .error _ =>
              ⟨[Call.generate input.Text, Call.storeMemory input.Text embedding input.GroupID,
                  Call.searchMemories embedding 10 float0_5 ""],
                .ok (storedOutput id 0)⟩
            | .ok searchResults =>
              if (toCandidates id searchResults).length > 0 then
                match sv.analyzeRelationships input.Text id (toCandidates id searchResults) with
                | .error e =>
                  ⟨[Call.generate input.Text,
                      Call.storeMemory input.Text embedding input.GroupID,
                      Call.searchMemories embedding 10 float0_5 "",
                      Call.analyzeRelationships input.Text id (toCandidates id searchResults)],
                    .ok { Success := true
                          Message := "Memory stored with ID " ++ toString id
                            ++ " (relationship auto-detection failed: " ++ e ++ ")"
                          ID := id
                          RelationshipsCreated := 0 }⟩
                | .ok ll =>
                  ⟨[Call.generate input.Text,
                      Call.storeMemory input.Text embedding input.GroupID,
                      Call.searchMemories embedding 10 float0_5 "",
                      Call.analyzeRelationships input.Text id (toCandidates id searchResults)]
                      ++ (createOrAbort sv id 0 ll).1,
                    match (createOrAbort sv id 0 ll).2 with
                    | .error e => .error e
                    | .ok created => .ok (storedOutput id created)⟩
              else
                ⟨[Call.generate input.Text,
                    Call.storeMemory input.Text embedding input.GroupID,
                    Call.searchMemories embedding 10 float0_5 ""],
                  .ok (storedOutput id 0)⟩
          else
            ⟨[Call.generate input.Text, Call.storeMemory input.Text embedding input.GroupID],
              .ok (storedOutput id 0)⟩ := by
  unfold handleStoreMemory
  by_cases h0 : input.Text = ""
  · left
    simp [h0, classifierInputs, edgeAttempts]
  · simp only [h0, if_false]
    cases hgen : sv.generate input.Text with
    | error e =>
      left
      simp [classifierInputs, edgeAttempts]
    | ok embedding =>
      simp only []
      cases hstore : sv.storeMemory input.Text embedding input.GroupID with
      | error e =>
        left
        simp [classifierInputs, edgeAttempts]
      | ok id =>
        right
        refine ⟨embedding, id, h0, rfl, hstore, ?_⟩
        simp only []
        by_cases hauto : input.AutoDetectRelationships.getD true = true
        · simp only [hauto, if_true]
          cases hsearch : SearchMemories sv.db embedding 10 float0_5 "" with
          | error e => rfl
          | ok searchResults =>
            simp only []
            by_cases hcand : (toCandidates id searchResults).length > 0
            · simp only [hcand, if_true]
              cases hllm : sv.analyzeRelationships input.Text id
                  (toCandidates id searchResults) with
              | error e => rfl
              | ok ll =>
                simp only []
                rcases hloop : createOrAbort sv id 0 ll with ⟨writes, res⟩
                cases res <;> rfl
            · simp only [hcand, if_false]
              rfl
        · simp only [hauto, if_false]
          rfl

theorem mem_classifierInputs (calls : List Call) (text : String) (id : Int)
    (candidates : List CandidateMemory)
    (h : Call.analyzeRelationships text id candidates ∈ calls) :
    candidates ∈ classifierInputs calls := by
  induction calls with
  | nil => cases h
  | cons c calls ih =>
    rcases List.mem_cons.mp h with h1 | h1
    · subst h1
      simp [classifierInputs]
    · have := ih h1
      cases c <;> simp [classifierInputs, this]

theorem mem_edgeAttempts (calls : List Call) (f t : Int) (ty : String)
    (p : List (String × PropValue)) (ok : Bool)
    (h : Call.addRelationship f t ty p ok ∈ calls) :
    (f, t, ty, p) ∈ edgeAttempts calls := by
  induction calls with
  | nil => cases h
  | cons c calls ih =>
    rcases List.mem_cons.mp h with h1 | h1
    · subst h1
      simp [edgeAttempts]
    · have := ih h1
      cases c <;> simp [edgeAttempts, this]

theorem edgesWritten_length_le (calls : List Call) :
    (edgesWritten calls).length ≤ (edgeAttempts calls).length := by
  induction calls with
  | nil => simp [edgesWritten, edgeAttempts]
  | cons c calls ih =>
    cases c with
    | addRelationship f t ty p ok =>
      cases ok <;> simp [edgesWritten, edgeAttempts] <;> omega
    | _ => simpa [edgesWritten, edgeAttempts] using ih

/-- When every attempted write succeeded, no failed write is in the trace. -/
theorem no_failed_write (calls : List Call) (h : edgesWritten calls = edgeAttempts calls)
    (f t : Int) (ty : String) (p : List (String × PropValue)) :
    Call.addRelationship f t ty p false ∉ calls := by
  induction calls with
  | nil => simp
  | cons c calls ih =>
    intro hmem
    cases c with
    | addRelationship f' t' ty' p' ok =>
      cases ok with
      | false =>
        have hlen := congrArg List.length h
        have hle := edgesWritten_length_le calls
        simp [edgesWritten, edgeAttempts] at hlen
        omega
      | true =>
        simp only [edgesWritten, edgeAttempts, List.cons.injEq, true_and] at h
        rcases List.mem_cons.mp hmem with h1 | h1
        · cases h1
        · exact ih h h1
    | generate _ =>
      simp only [edgesWritten, edgeAttempts] at h
      rcases List.mem_cons.mp hmem with h1 | h1
      · cases h1
      · exact ih h h1
    | storeMemory _ _ _ =>
      simp only [edgesWritten, edgeAttempts] at h
      rcases List.mem_cons.mp hmem with h1 | h1
      · cases h1
      · exact ih h h1
    | getMemoryByID _ =>
      simp only [edgesWritten, edgeAttempts] at h
      rcases List.mem_cons.mp hmem with h1 | h1
      · cases h1
      · exact ih h h1
    | searchMemories _ _ _ _ =>
      simp only [edgesWritten, edgeAttempts] at h
      rcases List.mem_cons.mp hmem with h1 | h1
      · cases h1
      · exact ih h h1
    | analyzeRelationships _ _ _ =>
      simp only [edgesWritten, edgeAttempts] at h
      rcases List.mem_cons.mp hmem with h1 | h1
      · cases h1
      · exact ih h h1
    | exploreConnections _ _ =>
      simp only [edgesWritten, edgeAttempts] at h
      rcases List.mem_cons.mp hmem with h1 | h1
      · cases h1
      · exact ih h h1

theorem toCandidates_eq_nil_of_self (self : Int) (results : List SearchResult)
    (h : ∀ r ∈ results, r.Memory.ID = self) : toCandidates self results = [] := by
  unfold toCandidates
  simp only [List.map_eq_nil_iff, List.filter_eq_nil_iff]
  intro r hr
  simp [h r hr]

/-! ## C11: no candidate, no inference -/

/-- C11. When no candidate remains after the memory's own id is excluded (as
when every search result is the memory itself), `handleAutoDetectRelationships`
returns an empty proposal list with zero relationships created, and the
store-time auto-detection of `handleStoreMemory` reports the memory stored with
zero relationships created; neither calls the classifier nor attempts an edge
write. -/
theorem inference_without_candidates (sv : Services) :
    (∀ (input : AutoDetectRelationshipsInput) (sourceMemory : Memory)
        (sourceEmbedding : List ℚ) (searchResults : List SearchResult),
      input.MemoryID ≠ 0 →
      sv.getMemoryByID input.MemoryID = .ok sourceMemory →
      sv.generate sourceMemory.Text = .ok sourceEmbedding →
      SearchMemories sv.db sourceEmbedding (detectLimit input) (detectFloor input) ""
        = .ok searchResults →
      toCandidates input.MemoryID searchResults = [] →
        (handleAutoDetectRelationships sv input).result =
            .ok { Suggestions := [], RelationshipsCreated := 0,
                  Message := "No similar memories found for relationship analysis" } ∧
          classifierInputs (handleAutoDetectRelationships sv input).calls = [] ∧
          edgeAttempts (handleAutoDetectRelationships sv input).calls = []) ∧
    (∀ (input : StoreMemoryInput) (embedding : List ℚ) (id : Int)
        (searchResults : List SearchResult),
      input.Text ≠ "" →
      sv.generate input.Text = .ok embedding →
      sv.storeMemory input.Text embedding input.GroupID = .ok id →
      SearchMemories sv.db embedding 10 float0_5 "" = .ok searchResults →
      toCandidates id searchResults = [] →
        (handleStoreMemory sv input).result =
            .ok { Success := true, Message := "Memory stored successfully with ID " ++ toString id,
                  ID := id, RelationshipsCreated := 0 } ∧
          classifierInputs (handleStoreMemory sv input).calls = [] ∧
          edgeAttempts (handleStoreMemory sv input).calls = []) ∧
    ∀ (self : Int) (searchResults : List SearchResult),
      (∀ r ∈ searchResults, r.Memory.ID = self) → toCandidates self searchResults = [] := by
  refine ⟨?_, ?_, toCandidates_eq_nil_of_self⟩
  · intro input sourceMemory sourceEmbedding searchResults h0 hget hgen hsearch hcand
    unfold detectLimit detectFloor at hsearch
    unfold handleAutoDetectRelationships
    simp only [h0, if_false, hget, hgen, hsearch, hcand, List.length_nil, if_true]
    simp [classifierInputs, edgeAttempts]
  · intro input embedding id searchResults h0 hgen hstore hsearch hcand
    unfold handleStoreMemory
    simp only [h0, if_false, hgen, hstore, hsearch, hcand, List.length_nil]
    by_cases hauto : input.AutoDetectRelationships.getD true = true
    · simp [hauto, classifierInputs, edgeAttempts, storedOutput]
    · simp [hauto, classifierInputs, edgeAttempts, storedOutput]

/-- Witness for C11: on the store that holds memory 1 only, detecting the
relationships of memory 1 returns no proposal and calls neither the classifier
nor `AddRelationship`. -/
theorem inference_without_candidates_witness :
    (handleAutoDetectRelationships loneServices sampleDetectInput).result =
        .ok { Suggestions := [], RelationshipsCreated := 0,
              Message := "No similar memories found for relationship analysis" } ∧
      classifierInputs (handleAutoDetectRelationships loneServices sampleDetectInput).calls
        = [] ∧
      edgeAttempts (handleAutoDetectRelationships loneServices sampleDetectInput).calls = [] :=
  (inference_without_candidates loneServices).1 sampleDetectInput (sampleMemory 1) [1]
    [directResult (sampleVectorRow 1 1)] (by decide) rfl rfl rfl rfl

/-! ## C12: dry run -/

/-- C12. For every input with `DryRun = true` and every classifier output,
`handleAutoDetectRelationships` attempts no edge write; when it returns an
output, `RelationshipsCreated` is 0 and the suggestions are the proposals of
the classifier, all of them (none when no candidate remained and the
classifier was not called). -/
theorem dryRun_persists_nothing (sv : Services) (input : AutoDetectRelationshipsInput)
    (hdry : input.DryRun = true) :
    edgeAttempts (handleAutoDetectRelationships sv input).calls = [] ∧
      ∀ out, (handleAutoDetectRelationships sv input).result = .ok out →
        out.RelationshipsCreated = 0 ∧
          ((out.Suggestions = [] ∧
              classifierInputs (handleAutoDetectRelationships sv input).calls = []) ∨
            ∃ (sourceMemory : Memory) (candidates : List CandidateMemory)
              (ll : List LLMSuggestion),
              classifierInputs (handleAutoDetectRelationships sv input).calls = [candidates] ∧
              sv.analyzeRelationships sourceMemory.Text sourceMemory.ID candidates = .ok ll ∧
              out.Suggestions = toSuggestions ll) := by
  rcases handleAutoDetectRelationships_shape sv input with
    ⟨e, he, hcls, hedge⟩ | ⟨sm, emb, results, _, _, _, _, heq⟩
  · refine ⟨hedge, ?_⟩
    intro out hout
    rw [he] at hout
    cases hout
  · rw [heq]
    by_cases hcand : (toCandidates input.MemoryID results).length = 0
    · simp only [hcand, if_true]
      refine ⟨by simp [edgeAttempts], ?_⟩
      intro out hout
      cases hout
      exact ⟨rfl, Or.inl ⟨rfl, by simp [classifierInputs]⟩⟩
    · simp only [hcand, if_false]
      cases hllm : sv.analyzeRelationships sm.Text sm.ID (toCandidates input.MemoryID results) with
      | error e =>
        refine ⟨by simp [edgeAttempts], ?_⟩
        intro out hout
        cases hout
      | ok ll =>
        simp only [hdry, if_true]
        refine ⟨by simp [edgeAttempts], ?_⟩
        intro out hout
        cases hout
        exact ⟨rfl, Or.inr ⟨sm, _, ll, by simp [classifierInputs], hllm, rfl⟩⟩

/-- Witness for C12: the dry run on the sample services returns the three
proposals and attempts no write. -/
theorem dryRun_persists_nothing_witness :
    edgeAttempts (handleAutoDetectRelationships sampleServices dryRunDetectInput).calls = [] ∧
      ∃ out, (handleAutoDetectRelationships sampleServices dryRunDetectInput).result = .ok out ∧
        out.RelationshipsCreated = 0 ∧ out.Suggestions.map (fun s => s.TargetID) = [2, 99, 3] :=
  ⟨(dryRun_persists_nothing sampleServices dryRunDetectInput rfl).1, _, rfl,
    ((dryRun_persists_nothing sampleServices dryRunDetectInput rfl).2 _ rfl).1, rfl⟩

/-! ## C13: best effort -/

/-- C14 fails as stated: when an auto-detected edge write fails,
`handleStoreMemory` does not report the memory as stored. On the sample
services with failing edge writes the memory is stored with the id 1, the
first of the two accepted proposals is attempted and fails, the second is
not attempted, and the handler returns the error of the failed write instead of
an output with `Success = true`. -/
theorem handleStoreMemory_failed_write_counterexample :
    failingWriteServices.storeMemory "memory" [1] "" = .ok 1 ∧
      Call.storeMemory "memory" [1] "" ∈
        (handleStoreMemory failingWriteServices sampleStoreInput).calls ∧
      edgeAttempts (handleStoreMemory failingWriteServices sampleStoreInput).calls =
        [writeFor 1 ⟨2, "RELATES_TO", "same topic", 1, []⟩] ∧
      (handleStoreMemory failingWriteServices sampleStoreInput).result =
        .error "failed to create auto-detected relationship RELATES_TO from 1 to 2: connection lost" ∧
      ¬ ∃ out, (handleStoreMemory failingWriteServices sampleStoreInput).result = .ok out ∧
          out.Success = true := by
  refine ⟨rfl, by decide, rfl, rfl, ?_⟩
  rintro ⟨out, hout, _⟩
  have h : (handleStoreMemory failingWriteServices sampleStoreInput).result =
      .error "failed to create auto-detected relationship RELATES_TO from 1 to 2: connection lost" :=
    rfl
  rw [h] at hout
  cases hout

/-- C14, amended. When an auto-detected edge write of `handleStoreMemory` fails,
the memory has been stored, that write is the last call of the run (no edge
write is attempted for any later proposal), every earlier write succeeded, and
the handler returns an error naming the failed relationship, with no output:
the memory is not reported as stored, and nothing undoes the store. -/
theorem abortOnFirstFailure_policy (sv : Services) (input : StoreMemoryInput)
    (fromID toID : Int) (relType : String) (props : List (String × PropValue))
    (hfail : Call.addRelationship fromID toID relType props false ∈
      (handleStoreMemory sv input).calls) :
    ∃ (before : List Call) (embedding : List ℚ) (id : Int) (candidates : List CandidateMemory)
      (ll : List LLMSuggestion) (s : LLMSuggestion) (err : String)
      (later : List (Int × Int × String × List (String × PropValue))),
      (handleStoreMemory sv input).calls =
          before ++ [Call.addRelationship fromID toID relType props false] ∧
        edgesWritten before = edgeAttempts before ∧
        sv.storeMemory input.Text embedding input.GroupID = .ok id ∧
        Call.storeMemory input.Text embedding input.GroupID ∈ before ∧
        Call.analyzeRelationships input.Text id candidates ∈ before ∧
        sv.analyzeRelationships input.Text id candidates = .ok ll ∧
        s ∈ ll ∧ (fromID, toID, relType, props) = writeFor id s ∧
        (ll.filter (fun s => decide (s.Confidence ≥ float0_7))).map (writeFor id) =
          edgeAttempts before ++ writeFor id s :: later ∧
        (handleStoreMemory sv input).result =
          .error ("failed to create auto-detected relationship " ++ s.RelType ++ " from "
            ++ toString id ++ " to " ++ toString s.TargetID ++ ": " ++ err) := by
  rcases handleStoreMemory_shape sv input with
    ⟨e, he, hcls, hedge⟩ | ⟨embedding, id, _, _, hstore, heq⟩
  · have := mem_edgeAttempts _ _ _ _ _ _ hfail
    rw [hedge] at this
    cases this
  · rw [heq] at hfail ⊢
    by_cases hauto : input.AutoDetectRelationships.getD true = true
    · simp only [hauto, if_true] at hfail ⊢
      cases hsearch : SearchMemories sv.db embedding 10 float0_5 "" with
      | error e =>
        rw [hsearch] at hfail
        simp at hfail
      | ok searchResults =>
        rw [hsearch] at hfail
        simp only [] at hfail ⊢
        by_cases hcand : (toCandidates id searchResults).length > 0
        · simp only [hcand, if_true] at hfail ⊢
          cases hllm : sv.analyzeRelationships input.Text id (toCandidates id searchResults) with
          | error e =>
            rw [hllm] at hfail
            simp at hfail
          | ok ll =>
            rw [hllm] at hfail
            simp only [] at hfail ⊢
            obtain ⟨_, hspec⟩ := createOrAbort_spec sv id ll 0
            have hin : Call.addRelationship fromID toID relType props false ∈
                (createOrAbort sv id 0 ll).1 := by
              rcases List.mem_append.mp hfail with h1 | h1
              · simp at h1
              · exact h1
            cases hres : (createOrAbort sv id 0 ll).2 with
            | ok created =>
              rw [hres] at hspec
              exact absurd hin (no_failed_write _ hspec.2.1 _ _ _ _)
            | error e =>
              rw [hres] at hspec
              obtain ⟨before, s, err, later, b1, b2, b3, b4, b5⟩ := hspec
              rw [b1] at hin
              have hlast : Call.addRelationship fromID toID relType props false =
                  Call.addRelationship id s.TargetID s.RelType (autoProps s) false := by
                rcases List.mem_append.mp hin with h1 | h1
                · exact absurd h1 (no_failed_write _ b2 _ _ _ _)
                · simpa using h1
              simp only [Call.addRelationship.injEq, and_true] at hlast
              obtain ⟨rfl, rfl, rfl, rfl⟩ := hlast
              refine ⟨[Call.generate input.Text,
                  Call.storeMemory input.Text embedding input.GroupID,
                  Call.searchMemories embedding 10 float0_5 "",
                  Call.analyzeRelationships input.Text fromID (toCandidates fromID searchResults)]
                  ++ before,
                embedding, fromID, _, ll, s, err, later, ?_, ?_, hstore, ?_, ?_, hllm, b3, rfl,
                ?_, ?_⟩
              · rw [b1, List.append_assoc]
              · rw [edgesWritten_append, edgeAttempts_append, b2]
                simp [edgesWritten, edgeAttempts]
              · simp
              · simp
              · rw [edgeAttempts_append, b4]
                simp [edgeAttempts]
              · rw [b5]
        · simp [hcand] at hfail
    · simp [hauto] at hfail

/-- Witness for C14, amended: on the sample services with failing edge writes
the failed write to memory 2 is the last call, and the handler returns its error. -/
theorem abortOnFirstFailure_policy_witness :
    ∃ (before : List Call) (err : String),
      (handleStoreMemory failingWriteServices sampleStoreInput).calls =
          before ++ [Call.addRelationship 1 2 "RELATES_TO"
            [("reason", .str "same topic"), ("confidence", .num 1),
              ("auto_detected", .bool true)] false] ∧
        edgesWritten before = edgeAttempts before ∧
        (handleStoreMemory failingWriteServices sampleStoreInput).result =
          .error ("failed to create auto-detected relationship RELATES_TO from 1 to 2: " ++ err) := by
  obtain ⟨before, _, id, _, _, s, err, _, h1, h2, _, _, _, _, _, h3, _, h4⟩ :=
    abortOnFirstFailure_policy failingWriteServices sampleStoreInput 1 2 "RELATES_TO"
      [("reason", .str "same topic"), ("confidence", .num 1), ("auto_detected", .bool true)]
      (by decide)
  simp only [writeFor, Prod.mk.injEq] at h3
  obtain ⟨rfl, h5, h6, _⟩ := h3
  refine ⟨before, err, h1, h2, ?_⟩
  rw [h4, ← h5, ← h6]
  rfl

/-! ## C15: classifier failure -/

/-- C15. When the classifier call made by `handleStoreMemory` fails (the
embedding and the store succeeded and candidates exist, or the call would not
have been made), the handler returns no error and an output with
`Success = true`, the stored id and zero relationships created, and attempts
no edge write; when the classifier call made by
`handleAutoDetectRelationships` fails, the handler returns an error and
attempts no edge write. -/
theorem classifier_failure (sv : Services) (text : String) (id : Int)
    (candidates : List CandidateMemory) (e : String)
    (hfail : sv.analyzeRelationships text id candidates = .error e) :
    (∀ input : StoreMemoryInput,
      Call.analyzeRelationships text id candidates ∈ (handleStoreMemory sv input).calls →
        (∃ embedding,
          sv.generate input.Text = .ok embedding ∧
          sv.storeMemory input.Text embedding input.GroupID = .ok id) ∧
        candidates ≠ [] ∧
        (handleStoreMemory sv input).result =
          .ok { Success := true
                Message := "Memory stored with ID " ++ toString id
                  ++ " (relationship auto-detection failed: " ++ e ++ ")"
                ID := id
                RelationshipsCreated := 0 } ∧
        edgeAttempts (handleStoreMemory sv input).calls = []) ∧
    ∀ input : AutoDetectRelationshipsInput,
      Call.analyzeRelationships text id candidates ∈
          (handleAutoDetectRelationships sv input).calls →
        (handleAutoDetectRelationships sv input).result =
            .error ("LLM analysis failed: " ++ e) ∧
          edgeAttempts (handleAutoDetectRelationships sv input).calls = [] := by
  constructor
  · intro input hcall
    rcases handleStoreMemory_shape sv input with
      ⟨e', he, hcls, hedge⟩ | ⟨embedding, id', _, hgen, hstore, heq⟩
    · have := mem_classifierInputs _ _ _ _ hcall
      rw [hcls] at this
      cases this
    · rw [heq] at hcall ⊢
      by_cases hauto : input.AutoDetectRelationships.getD true = true
      · simp only [hauto, if_true] at hcall ⊢
        cases hsearch : SearchMemories sv.db embedding 10 float0_5 "" with
        | error e' =>
          rw [hsearch] at hcall
          simp at hcall
        | ok searchResults =>
          rw [hsearch] at hcall
          simp only [] at hcall ⊢
          by_cases hcand : (toCandidates id' searchResults).length > 0
          · simp only [hcand, if_true] at hcall ⊢
            cases hllm : sv.analyzeRelationships input.Text id'
                (toCandidates id' searchResults) with
            | error e' =>
              rw [hllm] at hcall
              simp at hcall
              obtain ⟨rfl, rfl, rfl⟩ := hcall
              rw [hllm] at hfail
              cases hfail
              refine ⟨⟨embedding, hgen, hstore⟩, ?_, rfl, by simp [edgeAttempts]⟩
              intro h0
              rw [h0] at hcand
              simp at hcand
            | ok ll =>
              rw [hllm] at hcall
              simp only [] at hcall
              rcases List.mem_append.mp hcall with h1 | h1
              · simp at h1
                obtain ⟨rfl, rfl, rfl⟩ := h1
                rw [hllm] at hfail
                cases hfail
              · have := mem_classifierInputs _ _ _ _ h1
                rw [(createOrAbort_spec sv id' ll 0).1] at this
                cases this
          · simp [hcand] at hcall
      · simp [hauto] at hcall
  · intro input hcall
    rcases handleAutoDetectRelationships_shape sv input with
      ⟨e', he, hcls, hedge⟩ | ⟨sm, emb, results, _, _, _, _, heq⟩
    · have := mem_classifierInputs _ _ _ _ hcall
      rw [hcls] at this
      cases this
    · rw [heq] at hcall ⊢
      by_cases hcand : (toCandidates input.MemoryID results).length = 0
      · simp [hcand] at hcall
      · simp only [hcand, if_false] at hcall ⊢
        cases hllm : sv.analyzeRelationships sm.Text sm.ID
            (toCandidates input.MemoryID results) with
        | error e' =>
          rw [hllm] at hcall
          simp at hcall
          obtain ⟨rfl, rfl, rfl⟩ := hcall
          rw [hllm] at hfail
          cases hfail
          exact ⟨rfl, by simp [edgeAttempts]⟩
        | ok ll =>
          rw [hllm] at hcall
          by_cases hdry : input.DryRun = true
          · simp only [hdry, if_true] at hcall
            simp at hcall
            obtain ⟨rfl, rfl, rfl⟩ := hcall
            rw [hllm] at hfail
            cases hfail
          · simp only [hdry, if_false] at hcall
            rcases List.mem_append.mp hcall with h1 | h1
            · simp at h1
              obtain ⟨rfl, rfl, rfl⟩ := h1
              rw [hllm] at hfail
              cases hfail
            · have := mem_classifierInputs _ _ _ _ h1
              rw [(createBestEffort_spec sv input.MemoryID (detectGate input) ll 0).2.1] at this
              cases this

/-- Witness for C15: on the sample services with a failing classifier the
store handler reports memory 1 stored and the detection handler returns an error. -/
theorem classifier_failure_witness :
    ((handleStoreMemory failingClassifierServices sampleStoreInput).result =
        .ok { Success := true
              Message := "Memory stored with ID " ++ toString (1 : Int)
                ++ " (relationship auto-detection failed: " ++ "no completion returned" ++ ")"
              ID := 1
              RelationshipsCreated := 0 } ∧
      edgeAttempts (handleStoreMemory failingClassifierServices sampleStoreInput).calls = []) ∧
    (handleAutoDetectRelationships failingClassifierServices sampleDetectInput).result =
        .error ("LLM analysis failed: " ++ "no completion returned") ∧
      edgeAttempts (handleAutoDetectRelationships failingClassifierServices
        sampleDetectInput).calls = [] :=
  ⟨(((classifier_failure failingClassifierServices "memory" 1
        [⟨2, "memory", float0_7⟩, ⟨4, "memory", 0⟩, ⟨3, "memory", 0⟩]
        "no completion returned" rfl).1 sampleStoreInput (by decide)).2.2),
    (classifier_failure failingClassifierServices "memory" 1
        [⟨2, "memory", float0_7⟩, ⟨4, "memory", 0⟩, ⟨3, "memory", 0⟩]
        "no completion returned" rfl).2 sampleDetectInput (by decide)⟩

/-! ## C16: the conditions of the vector query -/

theorem handleStoreMemory_valid (sv : Services) (input : StoreMemoryInput)
    (h0 : input.Text ≠ "") :
    (handleStoreMemory sv input).calls ≠ [] ∧
      (handleStoreMemory sv input).result ≠ .error "text cannot be empty" := by
  unfold handleStoreMemory
  simp only [h0, if_false]
  cases hgen : sv.generate input.Text with
  | error e' =>
    refine ⟨by simp, ?_⟩
    intro h
    injection h with h
    have := congrArg String.data h
    simp [String.data_append] at this
  | ok embedding =>
    simp only []
    cases hstore : sv.storeMemory input.Text embedding input.GroupID with
    | error e' =>
      refine ⟨by simp, ?_⟩
      intro h
      injection h with h
      have := congrArg String.data h
      simp [String.data_append] at this
    | ok id =>
      simp only []
      by_cases hauto : input.AutoDetectRelationships.getD true = true
      · simp only [hauto, if_true]
        cases hsearch : SearchMemories sv.db embedding 10 float0_5 "" with
        | error e => exact ⟨by simp, by simp⟩
        | ok searchResults =>
          simp only []
          by_cases hcand : (toCandidates id searchResults).length > 0
          · simp only [hcand, if_true]
            cases hllm : sv.analyzeRelationships input.Text id
                (toCandidates id searchResults) with
            | error e => exact ⟨by simp, by simp⟩
            | ok ll =>
              simp only []
              have hspec := (createOrAbort_spec sv id ll 0).2
              rcases hloop : createOrAbort sv id 0 ll with ⟨writes, res⟩
              rw [hloop] at hspec
              cases res with
              | ok created => exact ⟨by simp, by simp⟩
              | error e =>
                refine ⟨by simp, ?_⟩
                obtain ⟨_, _, _, _, _, _, _, _, b5⟩ := hspec
                intro h
                injection h with h
                rw [b5] at h
                have := congrArg String.data h
                simp [String.data_append] at this
          · simp only [hcand, if_false]
            exact ⟨by simp, by simp⟩
      · simp only [hauto, if_false]
        exact ⟨by simp, by simp⟩

theorem handleSearchMemories_valid (sv : Services) (input : SearchMemoriesInput)
    (h0 : input.Query ≠ "") :
    (handleSearchMemories sv input).calls ≠ [] ∧
      (handleSearchMemories sv input).result ≠ .error "query cannot be empty" := by
  unfold handleSearchMemories
  simp only [h0, if_false]
  cases hgen : sv.generate input.Query with
  | error e' =>
    refine ⟨by simp, ?_⟩
    intro h
    injection h with h
    have := congrArg String.data h
    simp [String.data_append] at this
  | ok embedding =>
    simp only []
    cases hsearch : SearchMemories sv.db embedding (if input.Limit = 0 then 5 else input.Limit)
        input.MinSimilarity input.GroupID with
    | error e' =>
      refine ⟨by simp, ?_⟩
      intro h
      injection h with h
      have := congrArg String.data h
      simp [String.data_append] at this
    | ok found => exact ⟨by simp, by simp⟩

theorem handleAddRelationship_valid (sv : Services) (input : AddRelationshipInput)
    (h1 : input.FromID ≠ 0) (h2 : input.ToID ≠ 0) (h3 : input.RelType ≠ "") :
    (handleAddRelationship sv input).calls ≠ [] ∧
      (handleAddRelationship sv input).result ≠ .error "from_id and to_id are required" ∧
      (handleAddRelationship sv input).result ≠ .error "relationship type is required" := by
  unfold handleAddRelationship
  simp only [h1, h2, h3, or_self, if_false]
  cases herr : sv.addRelationship 0 input.FromID input.ToID input.RelType input.Properties with
  | some e' =>
    refine ⟨by simp, ?_, ?_⟩
    · intro h
      injection h with h
      have := congrArg String.data h
      simp [String.data_append] at this
    · intro h
      injection h with h
      have := congrArg String.data h
      simp [String.data_append] at this
  | none => exact ⟨by simp, by simp, by simp⟩

theorem handleExploreConnections_valid (sv : Services) (input : ExploreConnectionsInput)
    (h0 : input.MemoryID ≠ 0) :
    (handleExploreConnections sv input).calls ≠ [] ∧
      (handleExploreConnections sv input).result ≠ .error "memory_id is required" := by
  unfold handleExploreConnections
  simp only [h0, if_false]
  cases hex : sv.exploreConnections input.MemoryID
      (if input.MaxDepth = 0 then 2 else input.MaxDepth) with
  | error e' =>
    refine ⟨by simp, ?_⟩
    intro h
    injection h with h
    have := congrArg String.data h
    simp [String.data_append] at this
  | ok memories => exact ⟨by simp, by simp⟩

theorem handleAutoDetectRelationships_valid (sv : Services)
    (input : AutoDetectRelationshipsInput) (h0 : input.MemoryID ≠ 0) :
    (handleAutoDetectRelationships sv input).calls ≠ [] ∧
      (handleAutoDetectRelationships sv input).result ≠ .error "memory_id is required" := by
  unfold handleAutoDetectRelationships
  simp only [h0, if_false]
  cases hget : sv.getMemoryByID input.MemoryID with
  | error e' =>
    refine ⟨by simp, ?_⟩
    intro h
    injection h with h
    have := congrArg String.data h
    simp [String.data_append] at this
  | ok sourceMemory =>
    simp only []
    cases hgen : sv.generate sourceMemory.Text with
    | error e' =>
      refine ⟨by simp, ?_⟩
      intro h
      injection h with h
      have := congrArg String.data h
      simp [String.data_append] at this
    | ok sourceEmbedding =>
      simp only []
      cases hsearch : SearchMemories sv.db sourceEmbedding
          (wrapInt ((if input.MaxCandidates = 0 then 10 else input.MaxCandidates) + 1))
          (if input.MinSimilarity = 0 then float0_5 else input.MinSimilarity) "" with
      | error e' =>
        refine ⟨by simp, ?_⟩
        intro h
        injection h with h
        have := congrArg String.data h
        simp [String.data_append] at this
      | ok searchResults =>
        simp only []
        by_cases hcand : (toCandidates input.MemoryID searchResults).length = 0
        · simp only [hcand, if_true]
          exact ⟨by simp, by simp⟩
        · simp only [hcand, if_false]
          cases hllm : sv.analyzeRelationships sourceMemory.Text sourceMemory.ID
              (toCandidates input.MemoryID searchResults) with
          | error e' =>
            refine ⟨by simp, ?_⟩
            intro h
            injection h with h
            have := congrArg String.data h
            simp [String.data_append] at this
          | ok ll =>
            simp only []
            by_cases hdry : input.DryRun = true
            · simp only [hdry, if_true]
              exact ⟨by simp, by simp⟩
            · simp only [hdry, if_false]
              exact ⟨by simp, by simp⟩

/-! ## C17: validation before any external call -/

/-- C17. Each handler rejects an invalid input with its validation error and
without any call to the embedding service, the store, the graph or the
classifier: `handleStoreMemory` an empty text, `handleSearchMemories` an empty
query, `handleAddRelationship` a zero `from_id` or `to_id` or an empty type,
`handleExploreConnections` and `handleAutoDetectRelationships` a zero
`memory_id`. With a valid input each handler goes on to its first external
call and returns none of these validation errors. -/
theorem validation_before_calls (sv : Services) :
    (∀ input : StoreMemoryInput,
      (input.Text = "" →
        (handleStoreMemory sv input).calls = [] ∧
          (handleStoreMemory sv input).result = .error "text cannot be empty") ∧
      (input.Text ≠ "" →
        (handleStoreMemory sv input).calls ≠ [] ∧
          (handleStoreMemory sv input).result ≠ .error "text cannot be empty")) ∧
    (∀ input : SearchMemoriesInput,
      (input.Query = "" →
        (handleSearchMemories sv input).calls = [] ∧
          (handleSearchMemories sv input).result = .error "query cannot be empty") ∧
      (input.Query ≠ "" →
        (handleSearchMemories sv input).calls ≠ [] ∧
          (handleSearchMemories sv input).result ≠ .error "query cannot be empty")) ∧
    (∀ input : AddRelationshipInput,
      (input.FromID = 0 ∨ input.ToID = 0 →
        (handleAddRelationship sv input).calls = [] ∧
          (handleAddRelationship sv input).result = .error "from_id and to_id are required") ∧
      (input.FromID ≠ 0 → input.ToID ≠ 0 → input.RelType = "" →
        (handleAddRelationship sv input).calls = [] ∧
          (handleAddRelationship sv input).result = .error "relationship type is required") ∧
      (input.FromID ≠ 0 → input.ToID ≠ 0 → input.RelType ≠ "" →
        (handleAddRelationship sv input).calls ≠ [] ∧
          (handleAddRelationship sv input).result ≠ .error "from_id and to_id are required" ∧
          (handleAddRelationship sv input).result ≠ .error "relationship type is required")) ∧
    (∀ input : ExploreConnectionsInput,
      (input.MemoryID = 0 →
        (handleExploreConnections sv input).calls = [] ∧
          (handleExploreConnections sv input).result = .error "memory_id is required") ∧
      (input.MemoryID ≠ 0 →
        (handleExploreConnections sv input).calls ≠ [] ∧
          (handleExploreConnections sv input).result ≠ .error "memory_id is required")) ∧
    ∀ input : AutoDetectRelationshipsInput,
      (input.MemoryID = 0 →
        (handleAutoDetectRelationships sv input).calls = [] ∧
          (handleAutoDetectRelationships sv input).result = .error "memory_id is required") ∧
      (input.MemoryID ≠ 0 →
        (handleAutoDetectRelationships sv input).calls ≠ [] ∧
          (handleAutoDetectRelationships sv input).result ≠ .error "memory_id is required") := by
  refine ⟨?_, ?_, ?_, ?_, ?_⟩
  · intro input
    exact ⟨fun h0 => by simp [handleStoreMemory, h0], handleStoreMemory_valid sv input⟩
  · intro input
    exact ⟨fun h0 => by simp [handleSearchMemories, h0], handleSearchMemories_valid sv input⟩
  · intro input
    refine ⟨fun h0 => ?_, fun h1 h2 h3 => ?_, handleAddRelationship_valid sv input⟩
    · simp [handleAddRelationship, h0]
    · simp [handleAddRelationship, h1, h2, h3]
  · intro input
    exact ⟨fun h0 => by simp [handleExploreConnections, h0],
      handleExploreConnections_valid sv input⟩
  · intro input
    exact ⟨fun h0 => by simp [handleAutoDetectRelationships, h0],
      handleAutoDetectRelationships_valid sv input⟩

/-- Witness for C17: a detection request without memory id is rejected before
any call, and the sample request is not. -/
theorem validation_before_calls_witness :
    ((handleAutoDetectRelationships sampleServices { sampleDetectInput with MemoryID := 0 }).calls
        = [] ∧
      (handleAutoDetectRelationships sampleServices
        { sampleDetectInput with MemoryID := 0 }).result = .error "memory_id is required") ∧
    (handleAutoDetectRelationships sampleServices sampleDetectInput).calls ≠ [] ∧
      (handleAutoDetectRelationships sampleServices sampleDetectInput).result
        ≠ .error "memory_id is required" :=
  ⟨((validation_before_calls sampleServices).2.2.2.2
      { sampleDetectInput with MemoryID := 0 }).1 rfl,
    ((validation_before_calls sampleServices).2.2.2.2 sampleDetectInput).2 (by decide)⟩

/-! ## Lemmas on the exchange sort of the basic example -/

namespace Basic

theorem getElem?_append_cons (l r : List SearchResult) (a : SearchResult) (n : Nat)
    (h : n = l.length) : (l ++ a :: r)[n]? = some a := by
  subst h
  rw [List.getElem?_append_right (le_refl _)]
  simp

theorem set_append_cons (l r : List SearchResult) (a b : SearchResult) (n : Nat)
    (h : n = l.length) : (l ++ a :: r).set n b = l ++ b :: r := by
  subst h
  simp

theorem holdGreatest_length (held : SearchResult) (ys : List SearchResult) :
    (holdGreatest held ys).2.length = ys.length := by
  induction ys generalizing held with
  | nil => rfl
  | cons y ys ih =>
    unfold holdGreatest
    by_cases h : y.Similarity > held.Similarity
    · simp [h, ih]
    · simp [h, ih]

theorem holdGreatest_perm (held : SearchResult) (ys : List SearchResult) :
    ((holdGreatest held ys).1 :: (holdGreatest held ys).2).Perm (held :: ys) := by
  induction ys generalizing held with
  | nil => exact List.Perm.refl _
  | cons y ys ih =>
    unfold holdGreatest
    by_cases h : y.Similarity > held.Similarity
    · simp only [h, if_true]
      exact (List.Perm.swap _ _ _).trans ((ih y).cons held)
    · simp only [h, if_false]
      exact ((List.Perm.swap _ _ _).trans ((ih held).cons y)).trans (List.Perm.swap _ _ _)

theorem holdGreatest_ge (held : SearchResult) (ys : List SearchResult) :
    held.Similarity ≤ (holdGreatest held ys).1.Similarity ∧
      ∀ y ∈ (holdGreatest held ys).2, y.Similarity ≤ (holdGreatest held ys).1.Similarity := by
  induction ys generalizing held with
  | nil => simp [holdGreatest]
  | cons y ys ih =>
    unfold holdGreatest
    by_cases h : y.Similarity > held.Similarity
    · simp only [h, if_true]
      obtain ⟨h1, h2⟩ := ih y
      refine ⟨le_trans (le_of_lt h) h1, ?_⟩
      intro z hz
      rcases List.mem_cons.mp hz with rfl | hz
      · exact le_trans (le_of_lt h) h1
      · exact h2 z hz
    · simp only [h, if_false]
      obtain ⟨h1, h2⟩ := ih held
      refine ⟨h1, ?_⟩
      intro z hz
      rcases List.mem_cons.mp hz with rfl | hz
      · exact le_trans (not_lt.mp h) h1
      · exact h2 z hz

/-- The inner loop, run on the positions to the right of `i`, is `holdGreatest`. -/
theorem sortInner_eq (pre : List SearchResult) (suffix : List SearchResult) :
    ∀ (held : SearchResult) (mid : List SearchResult) (j : Nat),
      j = pre.length + 1 + mid.length →
      sortInner pre.length suffix.length j (pre ++ held :: (mid ++ suffix)) =
        pre ++ (holdGreatest held suffix).1 :: (mid ++ (holdGreatest held suffix).2) := by
  induction suffix with
  | nil =>
    intro held mid j _
    simp [sortInner, holdGreatest]
  | cons y ys ih =>
    intro held mid j hj
    have hgetj : (pre ++ held :: (mid ++ y :: ys))[j]? = some y := by
      have : pre ++ held :: (mid ++ y :: ys) = (pre ++ held :: mid) ++ y :: ys := by simp
      rw [this]
      exact getElem?_append_cons _ _ _ _ (by simp [hj]; omega)
    have hgeti : (pre ++ held :: (mid ++ y :: ys))[pre.length]? = some held :=
      getElem?_append_cons _ _ _ _ rfl
    simp only [List.length_cons, sortInner, hgetj, hgeti]
    by_cases h : y.Similarity > held.Similarity
    · have hswap : swapAt (pre ++ held :: (mid ++ y :: ys)) pre.length j =
          pre ++ y :: ((mid ++ [held]) ++ ys) := by
        unfold swapAt
        simp only [hgetj, hgeti]
        rw [set_append_cons _ _ _ _ _ rfl]
        have : pre ++ y :: (mid ++ y :: ys) = (pre ++ y :: mid) ++ y :: ys := by simp
        rw [this, set_append_cons _ _ _ _ _ (by simp [hj]; omega)]
        simp
      simp only [h, if_true, hswap]
      rw [ih y (mid ++ [held]) (j + 1) (by simp [hj]; omega)]
      simp [holdGreatest, h]
    · have hsame : pre ++ held :: (mid ++ y :: ys) = pre ++ held :: ((mid ++ [y]) ++ ys) := by
        simp
      simp only [h, if_false]
      rw [hsame, ih held (mid ++ [y]) (j + 1) (by simp [hj]; omega)]
      simp [holdGreatest, h]

/-- The outer loop, run from position `i` on, is `placeAll` on what lies there. -/
theorem sortOuter_eq (n : Nat) :
    ∀ (placed xs : List SearchResult), xs.length = n →
      sortOuter n placed.length (placed ++ xs) = placed ++ placeAll n xs := by
  induction n with
  | zero =>
    intro placed xs hxs
    simp [sortOuter, placeAll]
  | succ n ih =>
    intro placed xs hxs
    cases xs with
    | nil => simp at hxs
    | cons x xs =>
      have hlen : xs.length = n := by simpa using hxs
      have hcount : (placed ++ x :: xs).length - (placed.length + 1) = xs.length := by
        simp
        omega
      have hinner := sortInner_eq placed xs x [] (placed.length + 1) (by simp)
      simp only [List.nil_append] at hinner
      simp only [sortOuter, hcount, hinner, placeAll]
      have hrest : (holdGreatest x xs).2.length = n := by
        rw [holdGreatest_length, hlen]
      have := ih (placed ++ [(holdGreatest x xs).1]) (holdGreatest x xs).2 hrest
      simp only [List.length_append, List.length_singleton, List.append_assoc,
        List.singleton_append] at this
      exact this

theorem sortBySimilarity_eq (results : List SearchResult) :
    sortBySimilarity results = placeAll results.length results := by
  have := sortOuter_eq results.length [] results rfl
  simpa [sortBySimilarity] using this

theorem placeAll_spec (n : Nat) :
    ∀ xs : List SearchResult, xs.length = n →
      (placeAll n xs).Pairwise (fun a b => a.Similarity ≥ b.Similarity) ∧
        (placeAll n xs).Perm xs := by
  induction n with
  | zero =>
    intro xs hxs
    have : xs = [] := List.length_eq_zero.mp hxs
    subst this
    simp [placeAll]
  | succ n ih =>
    intro xs hxs
    cases xs with
    | nil => simp at hxs
    | cons x xs =>
      have hlen : xs.length = n := by simpa using hxs
      have hrest : (holdGreatest x xs).2.length = n := by
        rw [holdGreatest_length, hlen]
      obtain ⟨hsorted, hperm⟩ := ih (holdGreatest x xs).2 hrest
      simp only [placeAll]
      constructor
      · refine List.Pairwise.cons ?_ hsorted
        intro b hb
        exact (holdGreatest_ge x xs).2 b (hperm.mem_iff.mp hb)
      · exact (hperm.cons _).trans (holdGreatest_perm x xs)

/-- The sort of lines 243-250 returns a permutation of its input in
non-increasing order of similarity. -/
theorem sortBySimilarity_spec (results : List SearchResult) :
    (sortBySimilarity results).Pairwise (fun a b => a.Similarity ≥ b.Similarity) ∧
      (sortBySimilarity results).Perm results := by
  rw [sortBySimilarity_eq]
  exact placeAll_spec results.length results rfl

end Basic

/-! ## C18: order of the results of the basic example -/

namespace Basic

/-- C18 fails as stated: the exchange sort does not keep results of equal
similarity in ascending id order. The sample store is scanned in the id order
1, 2, 3; memories 1 and 2 have similarity 0 and memory 3 has similarity 1; the
handler returns 3, 2, 1, with memory 2 before memory 1. -/
theorem handleSearchMemory_tie_order_counterexample :
    sampleEnv.queryRows.map (fun rows => rows.reduceOption.map StoredRow.id) = some [1, 2, 3] ∧
      ∃ out a b, handleSearchMemory sampleEnv sampleInput = some (.ok out) ∧
        out.Results.map (fun r => r.Memory.ID) = [3, 2, 1] ∧
        out.Results.drop 1 = [a, b] ∧ a.Similarity = b.Similarity ∧
        b.Memory.ID < a.Memory.ID :=
  ⟨rfl, _, ⟨⟨2, "second", [], 0⟩, 0⟩, ⟨⟨1, "first", [], 0⟩, 0⟩, rfl, rfl, rfl, rfl,
    by decide⟩

/-- C18, amended. In the list returned by the basic example's
`handleSearchMemory`, whatever the order in which the rows are scanned, the
results are ordered by similarity descending: each result has a similarity
greater than or equal to that of every later one. Results of equal similarity
are in the order the exchange sort leaves them, which is not always the
ascending id order. -/
theorem handleSearchMemory_sorted_descending (env : Env) (input : SearchMemoryInput)
    (out : SearchMemoryOutput) (h : handleSearchMemory env input = some (.ok out)) :
    out.Results.Pairwise (fun a b => a.Similarity ≥ b.Similarity) := by
  unfold handleSearchMemory at h
  by_cases h0 : input.Query = ""
  · simp [h0] at h
  · simp only [h0, if_false] at h
    cases hgen : env.generateEmbedding input.Query with
    | error e => simp [hgen] at h
    | ok queryEmbedding =>
      simp only [hgen] at h
      cases hrows : env.queryRows with
      | none => simp [hrows] at h
      | some rows =>
        simp only [hrows] at h
        cases hscore : scoreRows env queryEmbedding input.MinSimilarity rows with
        | error e => simp [hscore] at h
        | ok results =>
          simp only [hscore] at h
          have hsorted := (sortBySimilarity_spec results).1
          cases hlim : limitResults (sortBySimilarity results)
              (if input.Limit = 0 then 5 else input.Limit) with
          | none => simp [hlim] at h
          | some limited =>
            simp only [hlim, Option.some.injEq, Except.ok.injEq] at h
            subst h
            show limited.Pairwise _
            unfold limitResults at hlim
            by_cases hgt : ((sortBySimilarity results).length : Int)
                > (if input.Limit = 0 then 5 else input.Limit)
            · simp only [hgt, if_true] at hlim
              by_cases hneg : (if input.Limit = 0 then 5 else input.Limit) < 0
              · simp [hneg] at hlim
              · simp only [hneg, if_false, Option.some.injEq] at hlim
                subst hlim
                exact hsorted.sublist (List.take_sublist _ _)
            · simp only [hgt, if_false, Option.some.injEq] at hlim
              subst hlim
              exact hsorted

/-- Witness for C18, amended: the result of the sample search is in descending
order of similarity. -/
theorem handleSearchMemory_sorted_descending_witness :
    ∃ out, handleSearchMemory sampleEnv sampleInput = some (.ok out) ∧
      out.Results.map (fun r => r.Similarity) = [1, 0, 0] ∧
      out.Results.Pairwise (fun a b => a.Similarity ≥ b.Similarity) :=
  ⟨_, rfl, rfl, handleSearchMemory_sorted_descending sampleEnv sampleInput _ rfl⟩

end Basic

/-! ## C19: the empty store -/

/-- C19. When the vector query delivers no row, `SearchMemories` makes no other
database call (no graph initialisation, no traversal, no fetch) and returns no
result with a nil error, and `handleSearchMemories` returns a non-nil empty
result list with count 0. -/
theorem emptyStore_search :
    (∀ (db : Backend) (queryEmbedding : List ℚ) (limit : Int) (minSimilarity : ℚ)
        (groupID : String),
      db.search (buildSearchQuery (queryEmbedding.map db.float32) limit minSimilarity groupID)
          = some { rows := [], iterErr := false } →
        SearchMemories db queryEmbedding limit minSimilarity groupID = .ok [] ∧
          SearchMemoriesCalls db queryEmbedding limit minSimilarity groupID =
            [DbCall.query
              (buildSearchQuery (queryEmbedding.map db.float32) limit minSimilarity groupID)]) ∧
    ∀ (sv : Services) (input : SearchMemoriesInput) (queryEmbedding : List ℚ),
      input.Query ≠ "" →
      sv.generate input.Query = .ok queryEmbedding →
      sv.db.search (buildSearchQuery (queryEmbedding.map sv.db.float32)
          (if input.Limit = 0 then 5 else input.Limit) input.MinSimilarity input.GroupID)
          = some { rows := [], iterErr := false } →
        (handleSearchMemories sv input).result = .ok { Results := some [], Count := 0 } := by
  have hvec : ∀ (db : Backend) (queryEmbedding : List ℚ) (limit : Int) (minSimilarity : ℚ)
      (groupID : String),
      db.search (buildSearchQuery (queryEmbedding.map db.float32) limit minSimilarity groupID)
          = some { rows := [], iterErr := false } →
        vectorSearch db queryEmbedding limit minSimilarity groupID = .ok [] := by
    intro db queryEmbedding limit minSimilarity groupID h
    unfold vectorSearch
    rw [h]
    rfl
  constructor
  · intro db queryEmbedding limit minSimilarity groupID h
    have hv := hvec db queryEmbedding limit minSimilarity groupID h
    constructor
    · unfold SearchMemories
      rw [hv]
      rfl
    · unfold SearchMemoriesCalls
      rw [hv]
      rfl
  · intro sv input queryEmbedding h0 hgen h
    have hv := hvec sv.db queryEmbedding _ _ _ h
    have hS : SearchMemories sv.db queryEmbedding (if input.Limit = 0 then 5 else input.Limit)
        input.MinSimilarity input.GroupID = .ok [] := by
      unfold SearchMemories
      rw [hv]
      rfl
    unfold handleSearchMemories
    simp only [h0, if_false, hgen, hS]
    rfl

/-- Witness for C19: the search of the empty sample store. -/
theorem emptyStore_search_witness :
    (SearchMemories emptyBackend [1] 5 0 "" = .ok [] ∧
      SearchMemoriesCalls emptyBackend [1] 5 0 "" = [DbCall.query (buildSearchQuery [1] 5 0 "")]) ∧
    (handleSearchMemories emptyServices sampleSearchInput).result
      = .ok { Results := some [], Count := 0 } :=
  ⟨emptyStore_search.1 emptyBackend [1] 5 0 "" rfl,
    emptyStore_search.2 emptyServices sampleSearchInput [1] (by decide) rfl rfl⟩

/-! ## C20: idempotence of the edge creation -/

theorem Edge.matchesPattern_self (fromID toID : Int) (relType : String)
    (properties : List (String × PropValue)) :
    (Edge.mk fromID toID relType properties).matchesPattern fromID toID relType properties
      = true := by
  simp [Edge.matchesPattern]

/-- C20 on the model of the graph: a second `AddRelationship` with the same end
points, type and properties changes nothing, so that two identical calls on
the sample graph leave one edge; but the properties are part of the `MERGE`
pattern, and the second run of an inference that words its reason differently
adds a second RELATES_TO edge from memory 1 to memory 2. -/
theorem AddRelationship_merges_on_properties :
    (∀ (engine : GraphEngine) (g : Graph) (fromID toID : Int) (relType : String)
        (properties : List (String × PropValue)),
      engine.ageInit = true → engine.execOk = true →
      fromID ∈ g.nodes → toID ∈ g.nodes →
        AddRelationship engine (AddRelationship engine g fromID toID relType properties).2
            fromID toID relType properties =
          (none, (AddRelationship engine g fromID toID relType properties).2)) ∧
    ((AddRelationship workingEngine
        (AddRelationship workingEngine sampleGraph 1 2 "RELATES_TO" (autoProps firstProposal)).2
        1 2 "RELATES_TO" (autoProps firstProposal)).2.edgesOfType 1 2 "RELATES_TO").length = 1 ∧
    ((AddRelationship workingEngine
        (AddRelationship workingEngine sampleGraph 1 2 "RELATES_TO" (autoProps firstProposal)).2
        1 2 "RELATES_TO" (autoProps secondProposal)).2.edgesOfType 1 2 "RELATES_TO").length
      = 2 := by
  refine ⟨?_, by decide, by decide⟩
  intro engine g fromID toID relType properties hinit hexec hf ht
  unfold AddRelationship
  simp only [hinit, hexec, Bool.true_eq_false, if_false]
  congr 1
  unfold mergeStatement
  by_cases hany : g.edges.any (fun e => e.matchesPattern fromID toID relType properties) = true
  · simp [hf, ht, hany]
  · simp only [hf, ht, and_self, if_true, hany, Bool.false_eq_true, if_false, List.any_append,
      List.any_cons, List.any_nil, Edge.matchesPattern_self, Bool.or_false, Bool.or_true]

/-! ## Lemmas on the cosine similarity -/

namespace Basic

theorem accumulate_eq {F : Type} [Field F] (a : List F) :
    ∀ (b : List F) (d na nb : F), a.length = b.length →
      accumulate a b (d, na, nb) =
        (d + dotProduct a b, na + (a.map (fun x => x * x)).sum,
          nb + (b.map (fun x => x * x)).sum) := by
  induction a with
  | nil =>
    intro b d na nb h
    cases b with
    | nil => simp [accumulate, dotProduct]
    | cons y ys => simp at h
  | cons x xs ih =>
    intro b d na nb h
    cases b with
    | nil => simp at h
    | cons y ys =>
      have hlen : xs.length = ys.length := by simpa using h
      simp only [accumulate, ih ys _ _ _ hlen, dotProduct, List.zipWith_cons_cons, List.sum_cons,
        List.map_cons, add_assoc]

/-- The function on two vectors of the same length, in terms of the dot product
and the sums of squares. -/
theorem cosineSimilarity_eq {F : Type} [Field F] [DecidableEq F] (sqrt : F → F) (a b : List F)
    (h : a.length = b.length) :
    cosineSimilarity sqrt a b =
      if (a.map (fun x => x * x)).sum = 0 ∨ (b.map (fun x => x * x)).sum = 0 then 0
      else dotProduct a b / (magnitude sqrt a * magnitude sqrt b) := by
  unfold cosineSimilarity
  rw [if_neg (not_not.mpr h), accumulate_eq a b 0 0 0 h]
  simp only [zero_add, magnitude]

theorem sumSq_nonneg (a : List ℝ) : 0 ≤ (a.map (fun x => x * x)).sum := by
  induction a with
  | nil => simp
  | cons x xs ih =>
    simp only [List.map_cons, List.sum_cons]
    exact add_nonneg (mul_self_nonneg x) ih

/-- Cauchy-Schwarz on two lists, by induction. -/
theorem dotProduct_sq_le (a : List ℝ) :
    ∀ b : List ℝ, dotProduct a b ^ 2 ≤
      (a.map (fun x => x * x)).sum * (b.map (fun x => x * x)).sum := by
  induction a with
  | nil => intro b; simp [dotProduct]
  | cons x xs ih =>
    intro b
    cases b with
    | nil =>
      simp only [dotProduct, List.zipWith_nil_right, List.sum_nil, List.map_nil, mul_zero]
      norm_num
    | cons y ys =>
      have h := ih ys
      have hA := sumSq_nonneg xs
      have hB := sumSq_nonneg ys
      simp only [dotProduct, List.zipWith_cons_cons, List.sum_cons, List.map_cons] at h ⊢
      generalize (List.zipWith (fun x y => x * y) xs ys).sum = d at h ⊢
      generalize (xs.map (fun x => x * x)).sum = A at h hA ⊢
      generalize (ys.map (fun x => x * x)).sum = B at h hB ⊢
      have hsq : (2 * d * (x * y)) ^ 2 ≤ (A * (y * y) + B * (x * x)) ^ 2 := by
        have h1 : 0 ≤ (A * B - d ^ 2) * (x * y) ^ 2 :=
          mul_nonneg (sub_nonneg.mpr h) (sq_nonneg _)
        nlinarith [sq_nonneg (A * (y * y) - B * (x * x))]
      have hnn : 0 ≤ A * (y * y) + B * (x * x) :=
        add_nonneg (mul_nonneg hA (mul_self_nonneg y)) (mul_nonneg hB (mul_self_nonneg x))
      have key : 2 * d * (x * y) ≤ A * (y * y) + B * (x * x) :=
        le_trans (le_abs_self _) (abs_le_of_sq_le_sq hsq hnn)
      nlinarith [key]

theorem abs_dotProduct_le (a b : List ℝ) :
    |dotProduct a b| ≤ magnitude Real.sqrt a * magnitude Real.sqrt b := by
  unfold magnitude
  rw [← Real.sqrt_mul (sumSq_nonneg a)]
  exact Real.abs_le_sqrt (dotProduct_sq_le a b)

theorem magnitude_eq_zero (a : List ℝ) :
    magnitude Real.sqrt a = 0 ↔ (a.map (fun x => x * x)).sum = 0 :=
  Real.sqrt_eq_zero (sumSq_nonneg a)

end Basic

/-! ## C21: the range of the cosine similarity -/

namespace Basic

/-- C21. Over exact real arithmetic, for every pair of vectors `a` and `b`,
`cosineSimilarity(a, b)` lies in [-1, 1]; for vectors of equal length with
non-zero norms it is the dot product divided by the product of the
magnitudes, and it is 0 when the lengths differ or a vector has zero norm. -/
theorem cosineSimilarity_range (a b : List ℝ) :
    (-1 ≤ cosineSimilarity Real.sqrt a b ∧ cosineSimilarity Real.sqrt a b ≤ 1) ∧
    (a.length = b.length → magnitude Real.sqrt a ≠ 0 → magnitude Real.sqrt b ≠ 0 →
      cosineSimilarity Real.sqrt a b =
        dotProduct a b / (magnitude Real.sqrt a * magnitude Real.sqrt b)) ∧
    (a.length ≠ b.length ∨ magnitude Real.sqrt a = 0 ∨ magnitude Real.sqrt b = 0 →
      cosineSimilarity Real.sqrt a b = 0) := by
  by_cases hlen : a.length = b.length
  · rw [cosineSimilarity_eq Real.sqrt a b hlen]
    by_cases hz : magnitude Real.sqrt a = 0 ∨ magnitude Real.sqrt b = 0
    · rw [if_pos (by rwa [magnitude_eq_zero a, magnitude_eq_zero b] at hz)]
      refine ⟨⟨by norm_num, by norm_num⟩, ?_, fun _ => rfl⟩
      intro _ ha hb
      rcases hz with hz | hz
      · exact absurd hz ha
      · exact absurd hz hb
    · rw [if_neg (by rwa [magnitude_eq_zero a, magnitude_eq_zero b] at hz)]
      have ha : magnitude Real.sqrt a ≠ 0 := fun h => hz (Or.inl h)
      have hb : magnitude Real.sqrt b ≠ 0 := fun h => hz (Or.inr h)
      have hpos : 0 < magnitude Real.sqrt a * magnitude Real.sqrt b :=
        mul_pos (lt_of_le_of_ne (Real.sqrt_nonneg _) (Ne.symm ha))
          (lt_of_le_of_ne (Real.sqrt_nonneg _) (Ne.symm hb))
      have habs := abs_le.mp (abs_dotProduct_le a b)
      refine ⟨⟨?_, ?_⟩, fun _ _ _ => rfl, ?_⟩
      · rw [le_div_iff₀ hpos]
        linarith [habs.1]
      · rw [div_le_one hpos]
        exact habs.2
      · intro h
        rcases h with h | h | h
        · exact absurd hlen h
        · exact absurd h ha
        · exact absurd h hb
  · have h0 : cosineSimilarity Real.sqrt a b = 0 := by
      unfold cosineSimilarity
      rw [if_pos hlen]
    rw [h0]
    exact ⟨⟨by norm_num, by norm_num⟩, fun h => absurd h hlen, fun _ => rfl⟩

/-- Witness for C21: the vectors (3, 4) and (4, 3) have magnitude 5 and dot
product 24, and their cosine similarity is 24 / (5 * 5). -/
theorem cosineSimilarity_range_witness :
    magnitude Real.sqrt [3, 4] = 5 ∧ magnitude Real.sqrt [4, 3] = 5 ∧
      dotProduct [3, 4] [4, 3] = (24 : ℝ) ∧
      cosineSimilarity Real.sqrt [3, 4] [4, 3] = 24 / (5 * 5) := by
  have h34 : magnitude Real.sqrt [3, 4] = 5 := by
    simp only [magnitude, List.map_cons, List.map_nil, List.sum_cons, List.sum_nil]
    rw [show (3 * 3 + (4 * 4 + 0) : ℝ) = 5 ^ 2 by norm_num]
    exact Real.sqrt_sq (by norm_num)
  have h43 : magnitude Real.sqrt [4, 3] = 5 := by
    simp only [magnitude, List.map_cons, List.map_nil, List.sum_cons, List.sum_nil]
    rw [show (4 * 4 + (3 * 3 + 0) : ℝ) = 5 ^ 2 by norm_num]
    exact Real.sqrt_sq (by norm_num)
  have hdot : dotProduct [3, 4] [4, 3] = (24 : ℝ) := by
    simp only [dotProduct, List.zipWith_cons_cons, List.zipWith_nil_right, List.sum_cons,
      List.sum_nil]
    norm_num
  refine ⟨h34, h43, hdot, ?_⟩
  have h := (cosineSimilarity_range [3, 4] [4, 3]).2.1 rfl (by rw [h34]; norm_num)
    (by rw [h43]; norm_num)
  rw [h, h34, h43, hdot]

end Basic

/-! ## Lemmas on the truncation of the basic example -/

namespace Basic

theorem scoreRows_eq (env : Env) (queryEmbedding : List ℚ) (minSimilarity : ℚ) :
    ∀ stored : List StoredRow,
      (∀ row ∈ stored, (env.unmarshalEmbedding row.embeddingJSON).isSome = true) →
      scoreRows env queryEmbedding minSimilarity (stored.map some) =
        .ok (rowsAtLeast env queryEmbedding minSimilarity stored) := by
  intro stored
  induction stored with
  | nil => intro _; rfl
  | cons row rest ih =>
    intro h
    have hrest := ih (fun r hr => h r (List.mem_cons_of_mem _ hr))
    have hrow := h row (List.mem_cons_self _ _)
    cases hu : env.unmarshalEmbedding row.embeddingJSON with
    | none => simp [hu] at hrow
    | some embedding =>
      simp only [List.map_cons, scoreRows, hu, hrest, rowsAtLeast, List.filterMap_cons]
      by_cases hs : env.cosineSimilarity queryEmbedding embedding ≥ minSimilarity
      · simp only [hs, if_true]
      · simp only [hs, if_false]

theorem rowsAtLeast_ge (env : Env) (queryEmbedding : List ℚ) (minSimilarity : ℚ)
    (stored : List StoredRow) :
    ∀ r ∈ rowsAtLeast env queryEmbedding minSimilarity stored, r.Similarity ≥ minSimilarity := by
  intro r hr
  unfold rowsAtLeast at hr
  rw [List.mem_filterMap] at hr
  obtain ⟨row, _, hrow⟩ := hr
  cases hu : env.unmarshalEmbedding row.embeddingJSON with
  | none => simp [hu] at hrow
  | some embedding =>
    simp only [hu] at hrow
    by_cases hs : env.cosineSimilarity queryEmbedding embedding ≥ minSimilarity
    · simp only [hs, if_true, Option.some.injEq] at hrow
      subst hrow
      exact hs
    · simp [hs] at hrow

/-- The truncation of lines 252-255 for a limit that is not negative. -/
theorem limitResults_of_nonneg (results : List SearchResult) (limit : Int) (h : 0 ≤ limit) :
    limitResults results limit = some (results.take (min limit.toNat results.length)) := by
  unfold limitResults
  by_cases hgt : (results.length : Int) > limit
  · have hle : limit.toNat ≤ results.length := by omega
    rw [if_pos hgt, if_neg (by omega), Nat.min_eq_left hle]
  · have hle : results.length ≤ limit.toNat := by omega
    rw [if_neg hgt, Nat.min_eq_right hle, List.take_length]

/-- The truncation of lines 252-255 for a negative limit. -/
theorem limitResults_of_neg (results : List SearchResult) (limit : Int) (h : limit < 0) :
    limitResults results limit = none := by
  unfold limitResults
  have hgt : (results.length : Int) > limit := by omega
  rw [if_pos hgt, if_pos h]

/-- The run of the handler once the rows are scored. -/
theorem handleSearchMemory_of_scored (env : Env) (input : SearchMemoryInput)
    (queryEmbedding : List ℚ) (rows : List (Option StoredRow)) (scored : List SearchResult)
    (hquery : input.Query ≠ "")
    (hgen : env.generateEmbedding input.Query = .ok queryEmbedding)
    (hrows : env.queryRows = some rows)
    (hscore : scoreRows env queryEmbedding input.MinSimilarity rows = .ok scored) :
    handleSearchMemory env input =
      (limitResults (sortBySimilarity scored) (if input.Limit = 0 then 5 else input.Limit)).map
        (fun limited => .ok { Results := limited, Count := limited.length }) := by
  unfold handleSearchMemory
  simp only [hquery, if_false, hgen, hrows, hscore]
  cases limitResults (sortBySimilarity scored) (if input.Limit = 0 then 5 else input.Limit) <;> rfl

end Basic

/-! ## C22: the sort and the truncation of the basic example -/

namespace Basic

/-- C22. For a search with a limit of at least 1 on a store whose rows scan and
decode, `handleSearchMemory` returns: its exchange sort yields a permutation of
the rows whose similarity is at least `MinSimilarity`, in non-increasing order
of similarity; the returned list is the first min(limit, n) entries of it;
every returned similarity is at least every dropped one; and `Count` is the
length of the returned list. -/
theorem handleSearchMemory_sorts_and_truncates (env : Env) (input : SearchMemoryInput)
    (queryEmbedding : List ℚ) (stored : List StoredRow)
    (hquery : input.Query ≠ "") (hlimit : 1 ≤ input.Limit)
    (hgen : env.generateEmbedding input.Query = .ok queryEmbedding)
    (hrows : env.queryRows = some (stored.map some))
    (hjson : ∀ row ∈ stored, (env.unmarshalEmbedding row.embeddingJSON).isSome = true) :
    ∃ kept sorted returned dropped : List SearchResult,
      kept = rowsAtLeast env queryEmbedding input.MinSimilarity stored ∧
      (∀ r ∈ kept, r.Similarity ≥ input.MinSimilarity) ∧
      sorted = sortBySimilarity kept ∧
      sorted.Perm kept ∧
      sorted.Pairwise (fun a b => a.Similarity ≥ b.Similarity) ∧
      returned = sorted.take (min input.Limit.toNat kept.length) ∧
      dropped = sorted.drop (min input.Limit.toNat kept.length) ∧
      handleSearchMemory env input
        = some (.ok { Results := returned, Count := returned.length }) ∧
      returned.length = min input.Limit.toNat kept.length ∧
      ∀ r ∈ returned, ∀ d ∈ dropped, r.Similarity ≥ d.Similarity := by
  have hspec := sortBySimilarity_spec (rowsAtLeast env queryEmbedding input.MinSimilarity stored)
  have hlen : (sortBySimilarity
      (rowsAtLeast env queryEmbedding input.MinSimilarity stored)).length
        = (rowsAtLeast env queryEmbedding input.MinSimilarity stored).length :=
    hspec.2.length_eq
  refine ⟨_, _, _, _, rfl, rowsAtLeast_ge env queryEmbedding input.MinSimilarity stored, rfl,
    hspec.2, hspec.1, rfl, rfl, ?_, ?_, ?_⟩
  · rw [handleSearchMemory_of_scored env input queryEmbedding (stored.map some) _ hquery hgen
      hrows (scoreRows_eq env queryEmbedding input.MinSimilarity stored hjson)]
    have hne : input.Limit ≠ 0 := by omega
    rw [if_neg hne, limitResults_of_nonneg _ _ (by omega), hlen]
    rfl
  · rw [List.length_take, hlen]
    exact Nat.min_eq_left (Nat.min_le_right _ _)
  · intro r hr d hd
    have hpair := hspec.1
    rw [← List.take_append_drop (min input.Limit.toNat
      (rowsAtLeast env queryEmbedding input.MinSimilarity stored).length)
      (sortBySimilarity (rowsAtLeast env queryEmbedding input.MinSimilarity stored)),
      List.pairwise_append] at hpair
    exact hpair.2.2 r hr d hd

/-- Witness for C22: the search for at most two of the three memories of the
sample store returns memories 3 and 2 and drops memory 1. -/
theorem handleSearchMemory_sorts_and_truncates_witness :
    ∃ kept sorted returned dropped : List SearchResult,
      kept = rowsAtLeast sampleEnv [1, 0] limitedInput.MinSimilarity sampleStored ∧
      (∀ r ∈ kept, r.Similarity ≥ limitedInput.MinSimilarity) ∧
      sorted = sortBySimilarity kept ∧
      sorted.Perm kept ∧
      sorted.Pairwise (fun a b => a.Similarity ≥ b.Similarity) ∧
      returned = sorted.take (min limitedInput.Limit.toNat kept.length) ∧
      dropped = sorted.drop (min limitedInput.Limit.toNat kept.length) ∧
      handleSearchMemory sampleEnv limitedInput
        = some (.ok { Results := returned, Count := returned.length }) ∧
      returned.length = min limitedInput.Limit.toNat kept.length ∧
      ∀ r ∈ returned, ∀ d ∈ dropped, r.Similarity ≥ d.Similarity :=
  handleSearchMemory_sorts_and_truncates sampleEnv limitedInput [1, 0] sampleStored
    (by decide) (by decide) rfl rfl (by decide)

end Basic

/-! ## Lemmas on the escaping -/

/-- The two characters are the ones of the source. -/
theorem singleQuote_backslash_eq :
    String.mk [singleQuote] = "'" ∧ String.mk [backslash] = "\\" := by decide

theorem singleQuote_ne_backslash : singleQuote ≠ backslash := by decide

theorem quotesEscapedFrom_backslash (odd : Bool) (cs : List Char) :
    quotesEscapedFrom odd (backslash :: cs) = quotesEscapedFrom (!odd) cs := by
  simp only [quotesEscapedFrom, if_true]

theorem quotesEscapedFrom_quote (odd : Bool) (cs : List Char) :
    quotesEscapedFrom odd (singleQuote :: cs) = (odd && quotesEscapedFrom false cs) := by
  simp only [quotesEscapedFrom, singleQuote_ne_backslash, if_false, if_true]

theorem quotesEscapedFrom_other (odd : Bool) (c : Char) (cs : List Char)
    (hb : c ≠ backslash) (hq : c ≠ singleQuote) :
    quotesEscapedFrom odd (c :: cs) = quotesEscapedFrom false cs := by
  simp only [quotesEscapedFrom, hb, hq, if_false]

theorem quotesBareFrom_backslash (odd : Bool) (cs : List Char) :
    quotesBareFrom odd (backslash :: cs) = quotesBareFrom (!odd) cs := by
  simp only [quotesBareFrom, if_true]

theorem quotesBareFrom_quote (odd : Bool) (cs : List Char) :
    quotesBareFrom odd (singleQuote :: cs) = (!odd && quotesBareFrom false cs) := by
  simp only [quotesBareFrom, singleQuote_ne_backslash, if_false, if_true]

theorem quotesBareFrom_other (odd : Bool) (c : Char) (cs : List Char)
    (hb : c ≠ backslash) (hq : c ≠ singleQuote) :
    quotesBareFrom odd (c :: cs) = quotesBareFrom false cs := by
  simp only [quotesBareFrom, hb, hq, if_false]

/-- A quote of the escaped text is escaped exactly when it was bare in the text. -/
theorem escapeString_quotes (cs : List Char) :
    ∀ odd : Bool,
      quotesEscapedFrom odd
          (cs.flatMap (fun c => if c = singleQuote then [backslash, singleQuote] else [c]))
        = quotesBareFrom odd cs := by
  induction cs with
  | nil => intro odd; rfl
  | cons c cs ih =>
    intro odd
    rw [List.flatMap_cons]
    by_cases hq : c = singleQuote
    · subst hq
      rw [if_pos rfl]
      simp only [List.cons_append, List.nil_append]
      rw [quotesEscapedFrom_backslash, quotesEscapedFrom_quote, quotesBareFrom_quote, ih]
    · rw [if_neg hq]
      simp only [List.cons_append, List.nil_append]
      by_cases hb : c = backslash
      · subst hb
        rw [quotesEscapedFrom_backslash, quotesBareFrom_backslash, ih]
      · rw [quotesEscapedFrom_other odd c _ hb hq, quotesBareFrom_other odd c _ hb hq, ih]

theorem quotesBareFrom_of_no_backslash (cs : List Char) (h : backslash ∉ cs) :
    quotesBareFrom false cs = true := by
  induction cs with
  | nil => rfl
  | cons c cs ih =>
    have hc : c ≠ backslash := fun hc => h (hc ▸ List.mem_cons_self _ _)
    have hcs : backslash ∉ cs := fun hm => h (List.mem_cons_of_mem _ hm)
    by_cases hq : c = singleQuote
    · subst hq
      rw [quotesBareFrom_quote, ih hcs]
      rfl
    · rw [quotesBareFrom_other false c cs hc hq, ih hcs]

/-! ## C23: the escaping of single quotes -/

/-- C23 fails on the code. `escapeString` puts one backslash before each single
quote and leaves the backslashes of the text alone, so that a quote of
`escapeString(s)` is escaped exactly when it had an even number of backslashes
before it in `s`: every quote of a text without backslash is escaped, and the
quote of a backslash followed by a quote is not, the two backslashes before it
pairing up. -/
theorem escapeString_backslash_quote :
    (∀ s : String, quotesEscaped (escapeString s) = quotesBare s) ∧
    (∀ s : String, backslash ∉ s.data → quotesEscaped (escapeString s) = true) ∧
    escapeString backslashQuote = ⟨[backslash, backslash, singleQuote]⟩ ∧
    quotesEscaped (escapeString backslashQuote) = false := by
  have hall : ∀ s : String, quotesEscaped (escapeString s) = quotesBare s :=
    fun s => escapeString_quotes s.data false
  refine ⟨hall, ?_, by decide, by decide⟩
  intro s hs
  rw [hall s]
  exact quotesBareFrom_of_no_backslash s.data hs

/-! ## C24: the truncation and a negative limit -/

namespace Basic

/-- C24 fails on the code. The slice of line 254 is within range exactly when
the limit in force is not negative: the handler never stops with a run-time
panic when `Limit >= 0`, and whenever the rows are scored and `Limit < 0`
it does, whatever the results are. On the sample store and on the empty
store, a search with limit -1 panics. -/
theorem handleSearchMemory_negative_limit_panics :
    (∀ (env : Env) (input : SearchMemoryInput), 0 ≤ input.Limit →
      handleSearchMemory env input ≠ none) ∧
    (∀ (env : Env) (input : SearchMemoryInput) (queryEmbedding : List ℚ)
        (rows : List (Option StoredRow)) (scored : List SearchResult),
      input.Query ≠ "" → input.Limit < 0 →
      env.generateEmbedding input.Query = .ok queryEmbedding →
      env.queryRows = some rows →
      scoreRows env queryEmbedding input.MinSimilarity rows = .ok scored →
        handleSearchMemory env input = none) ∧
    handleSearchMemory sampleEnv negativeInput = none ∧
    handleSearchMemory emptyEnv negativeInput = none := by
  refine ⟨?_, ?_, rfl, rfl⟩
  · intro env input hlimit
    unfold handleSearchMemory
    by_cases h0 : input.Query = ""
    · simp [h0]
    · simp only [h0, if_false]
      cases hgen : env.generateEmbedding input.Query with
      | error e => simp
      | ok queryEmbedding =>
        cases hrows : env.queryRows with
        | none => simp
        | some rows =>
          cases hscore : scoreRows env queryEmbedding input.MinSimilarity rows with
          | error e => simp [hscore]
          | ok scored =>
            have hnn : 0 ≤ (if input.Limit = 0 then 5 else input.Limit) := by
              split_ifs <;> omega
            simp [hscore, limitResults_of_nonneg _ _ hnn]
  · intro env input queryEmbedding rows scored hquery hlimit hgen hrows hscore
    rw [handleSearchMemory_of_scored env input queryEmbedding rows scored hquery hgen hrows
      hscore]
    have hne : input.Limit ≠ 0 := by omega
    rw [if_neg hne, limitResults_of_neg _ _ hlimit]
    rfl

end Basic

end MemoryStarter
